import Mathlib

/-!
# Content script of the Amazon translator extension

A shallow embedding of `src/extension/content.js`: the language routing and the
translation client (`translateText`), the message pipeline
(`processMessageElement`), the presentation sink (`showTranslation`,
`hideTranslation`), the binding of the input listener (`setupInputListener`),
the debounced input handler (`debounce`, `handleInput`) with the timers it
arms, the discovery of the chat input (`findChatInputElement`,
`setupInputTranslator`) and the static content pipeline (`translateStatic`),
followed by the properties proved about them.

Conventions of the embedding.

* A JavaScript string is the list of its UTF-16 code units (`JSString`), so
  that `length` and the regular-expression classes see what the engine sees.
* An `async` function is split at its `await`: a `...Start` function runs the
  synchronous prefix up to the outbound request, a `...Finish`/`...Resume`
  function runs the continuation on the settled value, and the function named
  as in the source runs both back to back against a backend
  `net : Request → FetchOutcome`.
* DOM nodes are compared by reference in the source; textboxes are therefore
  named by a number, and a message or static element is the tree it roots.
* Time is a number of milliseconds. A pending `setTimeout` is an entry of
  `Page.timers` with its due time; `runTimers` lets time pass and fires what
  is due, and the observations (`Obs`) record the calls that the properties
  count: lookups, notices, calls of `handleInput` and outbound requests.
-/

namespace AmazonTranslator

/-! ## JavaScript strings -/

/-- A JavaScript string: its UTF-16 code units. -/
abbrev JSString := List Nat

/-- UTF-16 encoding of one Unicode scalar value. -/
def utf16Char (c : Char) : JSString :=
  if c.toNat < 65536 then [c.toNat]
  else [55296 + (c.toNat - 65536) / 1024, 56320 + (c.toNat - 65536) % 1024]

/-- UTF-16 encoding of a string literal of the source. -/
def utf16 (s : String) : JSString := s.toList.flatMap utf16Char

/-- The code units removed by `String.prototype.trim`: the ECMAScript
`WhiteSpace` and `LineTerminator` productions. -/
def isWhiteSpace (c : Nat) : Bool :=
  c == 9 || c == 10 || c == 11 || c == 12 || c == 13 || c == 32 || c == 160 ||
  c == 5760 || (decide (8192 ≤ c) && decide (c ≤ 8202)) || c == 8232 || c == 8233 ||
  c == 8239 || c == 8287 || c == 12288 || c == 65279

/-- The call `text.trim()`. -/
def trim (text : JSString) : JSString :=
  ((text.dropWhile isWhiteSpace).reverse.dropWhile isWhiteSpace).reverse

/-- The test `/[\u4e00-\u9fa5]/.test(text)`: some code unit lies in U+4E00..U+9FA5. -/
def hasChinese (text : JSString) : Bool :=
  text.any fun c => decide (0x4e00 ≤ c) && decide (c ≤ 0x9fa5)

/-- The test `/[A-Za-z]/.test(text)`: some code unit is an ASCII letter. -/
def hasEnglish (text : JSString) : Bool :=
  text.any fun c => (decide (65 ≤ c) && decide (c ≤ 90)) || (decide (97 ≤ c) && decide (c ≤ 122))

/-! ## JavaScript values -/

/-- The values a parsed JSON body and its properties can take, with
`undefined` for a property that is absent. Numbers are the integers that a
double holds exactly, of magnitude below 10^21: the code only looks at
whether a number is zero, and such a number prints as its decimal digits. -/
inductive JSValue where
  | undefined
  | null
  | bool (b : Bool)
  | num (n : Int)
  | str (s : JSString)
  | arr (items : List JSValue)
  | obj (fields : List (String × JSValue))

/-- What a `throw` carries. -/
inductive JSError where
  | typeError
  | syntaxError
  | networkError
  | httpError (status : Nat)
  deriving DecidableEq

/-- JavaScript truthiness (`ToBoolean`). -/
def JSValue.truthy : JSValue → Bool
  | .undefined => false
  | .null => false
  | .bool b => b
  | .num n => n != 0
  | .str s => !s.isEmpty
  | .arr _ => true
  | .obj _ => true

/-- The expression `a || b`. -/
def JSValue.or (a b : JSValue) : JSValue := if a.truthy then a else b

/-- The property read `v.key` for the keys the translation client reads
(`error_msg`, `translatedText`, `dst`, `from`, `to`): a `TypeError` on `null`
and `undefined`, the own property of an object, and `undefined` on a boolean,
number, string or array, none of which has such a property. -/
def JSValue.get (v : JSValue) (key : String) : Except JSError JSValue :=
  match v with
  | .undefined => .error .typeError
  | .null => .error .typeError
  | .obj fields => .ok ((fields.lookup key).getD .undefined)
  | _ => .ok .undefined

mutual
/-- String conversion (`ToString`), as a template literal applies it. A
number is printed as its decimal digits, which is what the engine prints for
the numbers of `JSValue.num` (an integer of magnitude below 10^21 held
exactly); larger or inexact numbers are outside this embedding. -/
def JSValue.toStr : JSValue → JSString
  | .undefined => utf16 "undefined"
  | .null => utf16 "null"
  | .bool b => if b then utf16 "true" else utf16 "false"
  | .num n => utf16 (toString n)
  | .str s => s
  | .arr items => JSValue.join items
  | .obj _ => utf16 "[object Object]"
/-- The conversion `Array.prototype.join` applies to one element. -/
def JSValue.itemStr : JSValue → JSString
  | .undefined => []
  | .null => []
  | .bool b => if b then utf16 "true" else utf16 "false"
  | .num n => utf16 (toString n)
  | .str s => s
  | .arr items => JSValue.join items
  | .obj _ => utf16 "[object Object]"
/-- The string `items.join(",")`. -/
def JSValue.join : List JSValue → JSString
  | [] => []
  | [x] => x.itemStr
  | x :: y :: rest => x.itemStr ++ utf16 "," ++ JSValue.join (y :: rest)
end

/-! ## Configuration and page state -/

/-- The `CONFIG` object (the options this development reads). -/
structure Config where
  translateMessages : Bool
  translateInput : Bool
  autoDetectInput : Bool
  translationDelay : Nat
  deriving DecidableEq

/-- The values `CONFIG` is initialised with. -/
def CONFIG : Config :=
  { translateMessages := true, translateInput := true, autoDetectInput := true,
    translationDelay := 600 }

/-- The functions of the script that are registered as event listeners. Each
call of `debounce(handleInput, delay)` returns a fresh function, told apart
from every other function by the number of the call. -/
inductive Handler where
  | handleInput
  | hideTranslation
  | debounced (closure : Nat) (delay : Nat)
  deriving DecidableEq

/-- The callbacks handed to `setTimeout`. -/
inductive TimerTask where
  | hideTranslation
  | showEnabledHint
  | applyHandleInput (target : Nat)
  deriving DecidableEq

/-- A pending timer: its handle, the time it is due at and its callback. -/
structure Timer where
  id : Nat
  due : Nat
  task : TimerTask
  deriving DecidableEq

/-- The floating `div` created by `createTranslationDisplay`: the three
inline styles the script changes later, and its text. -/
structure Display where
  textContent : JSString
  backgroundColor : String
  borderColor : String
  display : String
  deriving DecidableEq

/-- A textbox of the host page: its value, its registered listeners and the
inline styles the script writes. -/
structure Textarea where
  value : JSString
  inputListeners : List Handler
  blurListeners : List Handler
  borderLeft : String
  paddingLeft : String
  transition : String
  deriving DecidableEq

/-- The module-level variables of the script together with the parts of the
page it reads and writes. -/
structure Page where
  currentTextarea : Option Nat
  translationDisplay : Option Display
  debounceTimer : Option Nat
  textareas : Nat → Textarea
  timers : List Timer
  nextTimer : Nat
  closures : Nat
  now : Nat

/-- A textbox the script has not touched. -/
def Textarea.fresh (value : JSString) : Textarea :=
  { value := value, inputListeners := [], blurListeners := [],
    borderLeft := "", paddingLeft := "", transition := "" }

/-- The state the script starts in. -/
def Page.initial : Page :=
  { currentTextarea := none, translationDisplay := none, debounceTimer := none,
    textareas := fun _ => Textarea.fresh [], timers := [], nextTimer := 1,
    closures := 0, now := 0 }

/-- The call `setTimeout(task, delay)`; returns the handle. -/
def Page.setTimeout (page : Page) (task : TimerTask) (delay : Nat) : Page × Nat :=
  ({ page with
      timers := page.timers ++ [{ id := page.nextTimer, due := page.now + delay, task := task }],
      nextTimer := page.nextTimer + 1 }, page.nextTimer)

/-- The element `createTranslationDisplay` builds (`display: none`, empty). -/
def createTranslationDisplay : Display :=
  { textContent := [], backgroundColor := "#f0f9ff", borderColor := "#0366d6",
    display := "none" }

/-- The function `hideTranslation`. -/
def hideTranslation (page : Page) : Page :=
  match page.translationDisplay with
  | some d => { page with translationDisplay := some { d with display := "none" } }
  | none => page

/-- Whether the translation display is rendered: it exists and its `display`
style is not `none`. -/
def Page.displayVisible (page : Page) : Bool :=
  match page.translationDisplay with
  | some d => d.display != "none"
  | none => false

/-! ## The translation client -/

/-- The JSON body of the outbound request. -/
structure Request where
  text : JSString
  fromLang : JSString
  toLang : JSString
  deriving DecidableEq

/-- How the `fetch` settles: it rejects, or it resolves with a response of
some HTTP status whose body parses (`some`) or does not parse (`none`). -/
inductive FetchOutcome where
  | rejected
  | response (status : Nat) (body : Option JSValue)

/-- The property `response.ok`: a status in the range 200..299. -/
def statusOk (status : Nat) : Bool := decide (200 ≤ status) && decide (status ≤ 299)

/-- The object `translateText` returns on success (`from` and `to` in the
source). -/
structure TranslationResult where
  original : JSString
  translated : JSValue
  fromLang : JSValue
  toLang : JSValue

/-- The truthiness of an optional string argument (`null` when absent). -/
def truthyArg : Option JSString → Bool
  | some s => !s.isEmpty
  | none => false

/-- Lines 62-83 of `translateText`: the pair `(detectedFrom, detectedTo)`. -/
def detectRoute (cfg : Config) (text : JSString) (fromArg : JSString) (toArg : Option JSString) :
    JSString × JSString :=
  let detected : JSString × Option JSString :=
    if fromArg = utf16 "auto" ∧ cfg.autoDetectInput = true then
      let isChinese := hasChinese text
      let isEnglish := hasEnglish text
      if isChinese && !isEnglish then (utf16 "zh", some (utf16 "en"))
      else if isEnglish && !isChinese then (utf16 "en", some (utf16 "zh"))
      else (utf16 "auto", some (if truthyArg toArg then toArg.getD [] else utf16 "en"))
    else (fromArg, toArg)
  if truthyArg detected.2 then (detected.1, detected.2.getD [])
  else (detected.1, if detected.1 = utf16 "zh" then utf16 "en" else utf16 "zh")

/-- The synchronous prefix of `translateText`, up to the `fetch`: the blank
check (which hides the display and returns `null`, here `none`), then the
request that is sent. -/
def translateTextStart (cfg : Config) (page : Page) (text : JSString) (fromArg : JSString)
    (toArg : Option JSString) : Page × Option Request :=
  if text.isEmpty || (trim text).length == 0 then (hideTranslation page, none)
  else
    let route := detectRoute cfg text fromArg toArg
    (page, some { text := text, fromLang := route.1, toLang := route.2 })

/-- The body of the `try` block of `translateText` once the `fetch` has
settled (lines 96-109). -/
def translateTextTry (req : Request) (outcome : FetchOutcome) :
    Except JSError (Option TranslationResult) :=
  match outcome with
  | .rejected => .error .networkError
  | .response status body =>
    if !statusOk status then .error (.httpError status)
    else
      match body with
      | none => .error .syntaxError
      | some result => do
        let errorMsg ← result.get "error_msg"
        if errorMsg.truthy then
          return none
        let translatedText ← result.get "translatedText"
        let dst ← result.get "dst"
        let resFrom ← result.get "from"
        let resTo ← result.get "to"
        return some
          { original := req.text,
            translated := translatedText.or dst,
            fromLang := resFrom.or (.str req.fromLang),
            toLang := resTo.or (.str req.toLang) }

/-- The continuation of `translateText` after the `fetch`: the `try` block
and its `catch`, which logs and returns `null`. -/
def translateTextFinish (req : Request) (outcome : FetchOutcome) :
    Except JSError (Option TranslationResult) :=
  match translateTextTry req outcome with
  | .ok r => .ok r
  | .error _ => .ok none

/-- One complete call of `translateText`: the page afterwards, the requests
sent and what the promise settles to (`.error` for a rejection). -/
structure TranslateRun where
  page : Page
  requests : List Request
  result : Except JSError (Option TranslationResult)

/-- The function `translateText(text, from, to)` against the backend `net`. -/
def translateText (cfg : Config) (page : Page) (text : JSString) (fromArg : JSString)
    (toArg : Option JSString) (net : Request → FetchOutcome) : TranslateRun :=
  match translateTextStart cfg page text fromArg toArg with
  | (page', none) => { page := page', requests := [], result := .ok none }
  | (page', some req) =>
    { page := page', requests := [req], result := translateTextFinish req (net req) }

/-! ## The presentation sink -/

/-- The conversion of a value assigned to `textContent` (a nullable
`DOMString`): `null` and `undefined` give the empty string. -/
def JSValue.toDOMString : JSValue → JSString
  | .undefined => []
  | .null => []
  | v => v.toStr

/-- The comparison `translationDisplay.textContent === text`. -/
def strictEqText (shown : JSString) (text : JSValue) : Bool :=
  match text with
  | .str s => decide (shown = s)
  | _ => false

/-- The function `showTranslation(text, isError)`. -/
def showTranslation (page : Page) (text : JSValue) (isError : Bool) : Page :=
  let d := page.translationDisplay.getD createTranslationDisplay
  let page1 := { page with translationDisplay := some d }
  if strictEqText d.textContent text then page1
  else
    let d' : Display :=
      { textContent := text.toDOMString,
        backgroundColor := if isError then "#ffe6e6" else "#f0f9ff",
        borderColor := if isError then "#d63636" else "#0366d6",
        display := "block" }
    ({ page1 with translationDisplay := some d' }.setTimeout .hideTranslation 10000).1

/-! ## The input handler -/

/-- Where a call of an `async` function stands after its synchronous
prefix: it has returned, or it is suspended in `await translateText(...)`,
which has sent `request` (or none, when `translateText` returned early). -/
inductive Suspended where
  | done
  | awaiting (text : JSString) (request : Option Request)
  deriving DecidableEq

/-- The synchronous prefix of `handleInput(event)`, with `event.target` the
textbox `target`. -/
def handleInputStart (cfg : Config) (page : Page) (target : Nat) : Page × Suspended :=
  let text := trim (page.textareas target).value
  if decide (text.length > 0) && cfg.translateInput then
    let started := translateTextStart cfg page text (utf16 "auto") none
    (started.1, .awaiting text started.2)
  else (hideTranslation page, .done)

/-- The continuation of `handleInput` once `translateText` has settled; a
rejection is caught and logged. -/
def handleInputResume (page : Page) (settled : Except JSError (Option TranslationResult)) : Page :=
  match settled with
  | .ok (some result) => showTranslation page result.translated false
  | .ok none => page
  | .error _ => page

/-- What `await translateText(...)` settles to, given the request its
synchronous prefix sent. -/
def settle (request : Option Request) (net : Request → FetchOutcome) :
    Except JSError (Option TranslationResult) :=
  match request with
  | some req => translateTextFinish req (net req)
  | none => .ok none

/-- One complete call of an event handler: the page afterwards and the
requests sent. -/
structure HandlerRun where
  page : Page
  requests : List Request

/-- The function `handleInput(event)` run to completion against `net`. -/
def handleInput (cfg : Config) (page : Page) (target : Nat) (net : Request → FetchOutcome) :
    HandlerRun :=
  match handleInputStart cfg page target with
  | (page', .done) => { page := page', requests := [] }
  | (page', .awaiting _ request) =>
    { page := handleInputResume page' (settle request net), requests := request.toList }

/-! ## The message pipeline -/

/-- Sibling DOM nodes in document order: text nodes, and elements with their
tag, class list, attributes and children. -/
inductive Nodes where
  | nil
  | text (data : JSString) (rest : Nodes)
  | elem (tag : String) (classes : List String) (attrs : List (String × JSString))
      (kids : Nodes) (rest : Nodes)
  deriving DecidableEq

/-- An element node. -/
structure Element where
  tag : String
  classes : List String
  attrs : List (String × JSString)
  kids : Nodes
  deriving DecidableEq

/-- The list `xs` followed by the list `ys`. -/
def Nodes.append : Nodes → Nodes → Nodes
  | .nil, ys => ys
  | .text d rest, ys => .text d (rest.append ys)
  | .elem t c a k rest, ys => .elem t c a k (rest.append ys)

/-- The sibling list holding the single element `e`. -/
def Nodes.single (e : Element) : Nodes := .elem e.tag e.classes e.attrs e.kids .nil

/-- The concatenated text of the nodes and their descendants. -/
def Nodes.textContent : Nodes → JSString
  | .nil => []
  | .text d rest => d ++ rest.textContent
  | .elem _ _ _ k rest => k.textContent ++ rest.textContent

/-- The property `element.textContent`. -/
def Element.textContent (e : Element) : JSString := e.kids.textContent

/-- The first `p` element among the nodes and their descendants, in document
order: what `querySelector('p')` finds. -/
def Nodes.firstP : Nodes → Option Element
  | .nil => none
  | .text _ rest => rest.firstP
  | .elem t c a k rest =>
    if t = "p" then some { tag := t, classes := c, attrs := a, kids := k }
    else match k.firstP with
      | some p => some p
      | none => rest.firstP

/-- The call `element.querySelector('p')`. -/
def Element.querySelectorP (e : Element) : Option Element := e.kids.firstP

/-- The call `pElement.parentNode.insertBefore(node, pElement.nextSibling)`
for `pElement` the first `p`: `node` becomes the sibling right after it. -/
def Nodes.insertAfterFirstP (node : Element) : Nodes → Nodes
  | .nil => .nil
  | .text d rest => .text d (rest.insertAfterFirstP node)
  | .elem t c a k rest =>
    if t = "p" then .elem t c a k (.elem node.tag node.classes node.attrs node.kids rest)
    else if k.firstP.isSome then .elem t c a (k.insertAfterFirstP node) rest
    else .elem t c a k (rest.insertAfterFirstP node)

/-- The text of every element of class `message-translation` among the nodes
and their descendants, in document order. -/
def Nodes.annotations : Nodes → List JSString
  | .nil => []
  | .text _ rest => rest.annotations
  | .elem _ c _ k rest =>
    (if "message-translation" ∈ c then [k.textContent] else []) ++ k.annotations ++ rest.annotations

/-- The annotation nodes below an element. -/
def Element.annotations (e : Element) : List JSString := e.kids.annotations

/-- The call `element.hasAttribute(name)`. -/
def Element.hasAttribute (e : Element) (name : String) : Bool :=
  (e.attrs.lookup name).isSome

/-- The call `element.getAttribute(name)`. -/
def Element.getAttribute (e : Element) (name : String) : Option JSString :=
  e.attrs.lookup name

/-- The attribute list after `setAttribute(name, value)`. -/
def setAttr (name : String) (value : JSString) : List (String × JSString) → List (String × JSString)
  | [] => [(name, value)]
  | (k, v) :: rest => if k = name then (k, value) :: rest else (k, v) :: setAttr name value rest

/-- The call `element.setAttribute(name, value)`. -/
def Element.setAttribute (e : Element) (name : String) (value : JSString) : Element :=
  { e with attrs := setAttr name value e.attrs }

/-- The text the message pipeline extracts:
`(pElement?.textContent || element.textContent || "").trim()`. -/
def messageText (element : Element) : JSString :=
  let pText : JSString :=
    match element.querySelectorP with
    | some p => p.textContent
    | none => []
  trim (if !pText.isEmpty then pText
    else if !element.textContent.isEmpty then element.textContent else [])

/-- The annotation `div` built for a translation: class
`message-translation`, the inline style, and the label as its text. -/
def translationDiv (translated : JSValue) : Element :=
  { tag := "div", classes := ["message-translation"],
    attrs := [("style", utf16 "font-size:12px; color:#666; margin-top:4px; padding-left:10px; border-left:2px solid #ddd;")],
    kids := .text (utf16 "翻译：" ++ translated.toStr) .nil }

/-- The synchronous prefix of `processMessageElement(element)`. -/
def processMessageElementStart (cfg : Config) (page : Page) (element : Element) :
    Page × Suspended :=
  if element.hasAttribute "data-translated" then (page, .done)
  else
    let text := messageText element
    if text.isEmpty || decide (text.length < 2) then (page, .done)
    else
      if hasEnglish text && !hasChinese text then
        let started := translateTextStart cfg page text (utf16 "en") (some (utf16 "zh"))
        (started.1, .awaiting text started.2)
      else (page, .done)

/-- The continuation of `processMessageElement` once `translateText` has
settled, on the element as it is at that moment. The annotation goes after
the first `p` when there is one, and is appended otherwise: the script never
adds or removes a `p`, so the `pElement` captured before the `await` is still
the first `p` (or still absent) when the call resumes. -/
def processMessageElementResume (element : Element)
    (settled : Except JSError (Option TranslationResult)) : Element :=
  match settled with
  | .ok (some translation) =>
    if translation.translated.truthy then
      let div := translationDiv translation.translated
      let inserted : Element :=
        if element.querySelectorP.isSome then
          { element with kids := element.kids.insertAfterFirstP div }
        else { element with kids := element.kids.append (Nodes.single div) }
      inserted.setAttribute "data-translated" (utf16 "true")
    else element
  | .ok none => element
  | .error _ => element

/-- One complete call of `processMessageElement`: the page and the element
afterwards, and the requests sent. -/
structure MessageRun where
  page : Page
  element : Element
  requests : List Request

/-- The function `processMessageElement(element)` run to completion against
`net`. -/
def processMessageElement (cfg : Config) (page : Page) (element : Element)
    (net : Request → FetchOutcome) : MessageRun :=
  match processMessageElementStart cfg page element with
  | (page', .done) => { page := page', element := element, requests := [] }
  | (page', .awaiting _ request) =>
    { page := page', element := processMessageElementResume element (settle request net),
      requests := request.toList }

/-! ## Binding the input listener -/

/-- The call `target.addEventListener(type, handler)` on a listener list: a
handler already registered is not registered twice. -/
def addEventListener (listeners : List Handler) (handler : Handler) : List Handler :=
  if handler ∈ listeners then listeners else listeners ++ [handler]

/-- The call `target.removeEventListener(type, handler)` on a listener list:
only a listener that is the very function `handler` is removed. -/
def removeEventListener (listeners : List Handler) (handler : Handler) : List Handler :=
  listeners.filter fun h => h != handler

/-- The page with textbox `id` replaced by `f` of it. -/
def Page.updateTextarea (page : Page) (id : Nat) (f : Textarea → Textarea) : Page :=
  { page with textareas := fun i => if i = id then f (page.textareas i) else page.textareas i }

/-- The function `setupInputListener(textarea)`; `none` is a `null`
argument. -/
def setupInputListener (cfg : Config) (page : Page) (textarea : Option Nat) : Page :=
  match textarea with
  | none => page
  | some t =>
    if page.currentTextarea = some t then page
    else
      let page1 :=
        match page.currentTextarea with
        | some old =>
          page.updateTextarea old fun ta =>
            { ta with
                inputListeners := removeEventListener ta.inputListeners .handleInput,
                blurListeners := removeEventListener ta.blurListeners .hideTranslation,
                borderLeft := "", paddingLeft := "" }
        | none => page
      let page2 := { page1 with currentTextarea := some t }
      let debouncedHandler := Handler.debounced page2.closures cfg.translationDelay
      let page3 := { page2 with closures := page2.closures + 1 }
      let page4 :=
        page3.updateTextarea t fun ta =>
          { ta with
              inputListeners := addEventListener ta.inputListeners debouncedHandler,
              blurListeners := addEventListener ta.blurListeners .hideTranslation,
              borderLeft := "3px solid #0366d6", paddingLeft := "8px",
              transition := "border-color 0.3s" }
      (page4.setTimeout .showEnabledHint 500).1

/-! ## Predicates of the statements, interleavings and concrete inputs -/

/-- The message `<div class="smartcs-message"><p>你好</p></div>`. -/
def chineseMessage : Element :=
  { tag := "div", classes := ["smartcs-message"], attrs := [],
    kids := .elem "p" [] [] (.text (utf16 "你好") .nil) .nil }

/-- A backend that answers every request with status 200 and the body
`{"translatedText": "hello"}`. -/
def helloBackend : Request → FetchOutcome :=
  fun _ => .response 200 (some (.obj [("translatedText", .str (utf16 "hello"))]))

/-- The message `<div class="smartcs-message"><p>你好 hello</p></div>`. -/
def mixedMessage : Element :=
  { tag := "div", classes := ["smartcs-message"], attrs := [],
    kids := .elem "p" [] [] (.text (utf16 "你好 hello") .nil) .nil }

/-- A page on which the display shows "hello" and the textbox 1 holds two
spaces. -/
def shownPage : Page :=
  { Page.initial with
      translationDisplay := some { createTranslationDisplay with
        textContent := utf16 "hello", display := "block" },
      textareas := fun _ => Textarea.fresh (utf16 "  ") }

/-- Whether the parsed body has an own property `key`. -/
def JSValue.hasField (v : JSValue) (key : String) : Bool :=
  match v with
  | .obj fields => (fields.lookup key).isSome
  | _ => false

/-- A backend whose body carries an empty `error_msg` next to a translation:
status 200, body `{"error_msg": "", "translatedText": "你好"}`. -/
def emptyErrorBackend : Request → FetchOutcome :=
  fun _ => .response 200
    (some (.obj [("error_msg", .str []), ("translatedText", .str (utf16 "你好"))]))

/-- The failures the translation client normalises: the `fetch` rejects, the
status is not a success status, or the parsed body has a truthy `error_msg`. -/
def FetchOutcome.isFailure : FetchOutcome → Bool
  | .rejected => true
  | .response status body =>
    !statusOk status ||
      match body with
      | some result =>
        (match result.get "error_msg" with
          | .ok errorMsg => errorMsg.truthy
          | .error _ => false)
      | none => false

/-- A backend that answers every request with status 200 and the body
`{"error_msg": "INVALID_CLIENT_IP", "dst": "你好"}`. -/
def errorBackend : Request → FetchOutcome :=
  fun _ => .response 200
    (some (.obj [("error_msg", .str (utf16 "INVALID_CLIENT_IP")), ("dst", .str (utf16 "你好"))]))

/-- A backend that answers every request with status 200 and the body `{}`. -/
def emptyBodyBackend : Request → FetchOutcome :=
  fun _ => .response 200 (some (.obj []))

/-- The label of the annotation built for the translated string `s`. -/
def annotationLabel (s : JSString) : JSString := utf16 "翻译：" ++ s

/-- The message `<div class="smartcs-message"><p>Thank you for your order</p></div>`. -/
def thankYouMessage : Element :=
  { tag := "div", classes := ["smartcs-message"], attrs := [],
    kids := .elem "p" [] [] (.text (utf16 "Thank you for your order") .nil) .nil }

/-- A backend that answers every request with status 200 and the body
`{"translatedText": "感谢您的订单"}`. -/
def thanksBackend : Request → FetchOutcome :=
  fun _ => .response 200 (some (.obj [("translatedText", .str (utf16 "感谢您的订单"))]))

/-- The requests a started call has sent. -/
def Suspended.requests : Suspended → List Request
  | .done => []
  | .awaiting _ request => request.toList

/-- The element after a started call of `processMessageElement` has run to
its end against `net`: untouched when the call had already returned. -/
def resumeMessage (element : Element) (call : Suspended) (net : Request → FetchOutcome) :
    Element :=
  match call with
  | .done => element
  | .awaiting _ request => processMessageElementResume element (settle request net)

/-- Two calls of `processMessageElement` on the same element where the
second starts before the translation of the first has resolved (the node is
fed once by the mutation observer and once by the delayed scan of existing
messages): both synchronous prefixes run on the element as it is, then the
first call resumes, then the second. -/
def processMessageElementOverlapped (cfg : Config) (page : Page) (element : Element)
    (net : Request → FetchOutcome) : MessageRun :=
  let first := processMessageElementStart cfg page element
  let second := processMessageElementStart cfg first.1 element
  { page := second.1,
    element := resumeMessage (resumeMessage element first.2 net) second.2 net,
    requests := first.2.requests ++ second.2.requests }

/-- A backend whose `fetch` always rejects. -/
def offlineBackend : Request → FetchOutcome := fun _ => .rejected

/-- The page after `setupInputListener(A)` and then `setupInputListener(B)`
for the textboxes A = 1 and B = 2, from the initial state. -/
def reboundPage : Page :=
  setupInputListener CONFIG (setupInputListener CONFIG Page.initial (some 1)) (some 2)

/-! ## Timers, the debounced handler and the event loop -/

/-- What the script is seen to do while events and timers run: a lookup of
the chat input, a notification through `showTranslation` from the discovery
code, a call of `handleInput`, and an outbound request. -/
inductive Obs where
  | lookup (time : Nat)
  | notified (time : Nat) (text : JSString) (isError : Bool)
  | handled (time : Nat) (target : Nat)
  | sent (time : Nat) (request : Request)
  deriving DecidableEq

/-- Whether an observation is a call of `handleInput`. -/
def Obs.isHandled : Obs → Bool
  | .handled _ _ => true
  | _ => false

/-- The request of an observation that is an outbound request. -/
def Obs.request : Obs → Option Request
  | .sent _ request => some request
  | _ => none

/-- Whether an observation is a lookup of the chat input. -/
def Obs.isLookup : Obs → Bool
  | .lookup _ => true
  | _ => false

/-- Whether an observation is an error-styled notification. -/
def Obs.isErrorNotice : Obs → Bool
  | .notified _ _ isError => isError
  | _ => false

/-- The call `clearTimeout(handle)` (also `clearInterval`); `none` is a
`null` handle, and a handle whose timer is gone clears nothing. -/
def Page.clearTimeout (page : Page) (handle : Option Nat) : Page :=
  match handle with
  | some id => { page with timers := page.timers.filter fun tm => tm.id != id }
  | none => page

/-- The function returned by `debounce(handleInput, delay)`, called with an
input event whose target is `target`: it clears the timer in the module-level
`debounceTimer` and arms a new one that will call `handleInput` with the
same event. -/
def debounce (page : Page) (delay : Nat) (target : Nat) : Page :=
  let cleared := page.clearTimeout page.debounceTimer
  let armed := cleared.setTimeout (.applyHandleInput target) delay
  { armed.1 with debounceTimer := some armed.2 }

/-- One registered listener called for an input event on `target`. -/
def invokeInputListener (cfg : Config) (net : Request → FetchOutcome) (page : Page)
    (target : Nat) (handler : Handler) : Page × List Obs :=
  match handler with
  | .debounced _ delay => (debounce page delay target, [])
  | .handleInput =>
    let run := handleInput cfg page target net
    (run.page, .handled page.now target :: run.requests.map (Obs.sent page.now))
  | .hideTranslation => (hideTranslation page, [])

/-- The listeners of a list called in turn for an input event on `target`. -/
def dispatchListeners (cfg : Config) (net : Request → FetchOutcome) (target : Nat) :
    List Handler → Page → Page × List Obs
  | [], page => (page, [])
  | handler :: rest, page =>
    let first := invokeInputListener cfg net page target handler
    let later := dispatchListeners cfg net target rest first.1
    (later.1, first.2 ++ later.2)

/-- An `input` event dispatched on the textbox `target`: its input listeners
run in the order of their registration. -/
def dispatchInput (cfg : Config) (net : Request → FetchOutcome) (page : Page) (target : Nat) :
    Page × List Obs :=
  dispatchListeners cfg net target (page.textareas target).inputListeners page

/-- The order timers fire in: by due time, then by handle. -/
def Timer.before (a b : Timer) : Bool :=
  decide (a.due < b.due) || (a.due == b.due && decide (a.id ≤ b.id))

/-- The timer of a list that fires first. -/
def earliest : List Timer → Option Timer
  | [] => none
  | tm :: rest =>
    match earliest rest with
    | none => some tm
    | some best => if tm.before best then some tm else some best

/-- The pending timer that fires next among those due by the time `deadline`. -/
def Page.nextDue (page : Page) (deadline : Nat) : Option Timer :=
  earliest (page.timers.filter fun tm => decide (tm.due ≤ deadline))

/-- The hint `setupInputListener` shows half a second after binding. -/
def enabledHint : JSString := utf16 "输入框翻译已启用！输入文字即可实时翻译。"

/-- The page at the moment the timer `tm` fires: the timer has left the
timer list and the clock stands at its due time (or later, when overdue). -/
def Page.startTimer (page : Page) (tm : Timer) : Page :=
  { page with timers := page.timers.filter (fun other => other.id != tm.id),
              now := max page.now tm.due }

/-- A pending timer fires: it leaves the timer list, the clock moves to its
due time, and its callback runs (`handleInput` to completion against `net`). -/
def fireTimer (cfg : Config) (net : Request → FetchOutcome) (page : Page) (tm : Timer) :
    Page × List Obs :=
  let page1 := page.startTimer tm
  match tm.task with
  | .hideTranslation => (hideTranslation page1, [])
  | .showEnabledHint => (showTranslation page1 (.str enabledHint) false, [])
  | .applyHandleInput target =>
    let run := handleInput cfg page1 target net
    (run.page, .handled page1.now target :: run.requests.map (Obs.sent page1.now))

/-- The timers due by the time `deadline` fire one after the other, at most
`fuel` of them; then the clock stands at `deadline`. -/
def runTimersFuel (cfg : Config) (net : Request → FetchOutcome) :
    Nat → Nat → Page → Page × List Obs
  | 0, deadline, page => ({ page with now := max page.now deadline }, [])
  | fuel + 1, deadline, page =>
    match page.nextDue deadline with
    | none => ({ page with now := max page.now deadline }, [])
    | some tm =>
      let fired := fireTimer cfg net page tm
      let later := runTimersFuel cfg net fuel deadline fired.1
      (later.1, fired.2 ++ later.2)

/-- Time passes until `deadline`: every timer due by then fires. A timer that
fires schedules at most the auto-hide timer, which schedules nothing, so
twice the number of pending timers is fuel enough. -/
def runTimers (cfg : Config) (net : Request → FetchOutcome) (deadline : Nat) (page : Page) :
    Page × List Obs :=
  runTimersFuel cfg net (2 * page.timers.length) deadline page

/-- The user edits the textbox `target`: for each `(gap, value)` in turn,
`gap` milliseconds pass, the value becomes `value` and an `input` event is
dispatched on the textbox. -/
def typeText (cfg : Config) (net : Request → FetchOutcome) (target : Nat) :
    List (Nat × JSString) → Page → Page × List Obs
  | [], page => (page, [])
  | (gap, value) :: rest, page =>
    let waited := runTimers cfg net (page.now + gap) page
    let edited := waited.1.updateTextarea target fun ta => { ta with value := value }
    let dispatched := dispatchInput cfg net edited target
    let later := typeText cfg net target rest dispatched.1
    (later.1, waited.2 ++ dispatched.2 ++ later.2)

/-- Whether a timer is one armed by the debounced input handler. -/
def Timer.isInput (tm : Timer) : Bool :=
  match tm.task with
  | .applyHandleInput _ => true
  | _ => false

/-- The pending timers armed by the debounced input handler. -/
def Page.inputTimers (page : Page) : List Timer := page.timers.filter Timer.isInput

/-- Timer handles are allotted in increasing order: every pending timer has
a handle below the next one to be allotted, and a pending debounce timer
shares its handle with no other pending timer. -/
def Page.Tidy (page : Page) : Prop :=
  (∀ tm ∈ page.timers, tm.id < page.nextTimer) ∧
  (∀ tm ∈ page.timers, tm.isInput = true → ∀ other ∈ page.timers, other.id = tm.id → other = tm)

/-- The requests `handleInput` sends for a textbox value: one, with the
trimmed value and the detected route, when the value is not blank and
`translateInput` is on, and none otherwise. -/
def inputRequests (cfg : Config) (value : JSString) : List Request :=
  if trim value ≠ [] ∧ cfg.translateInput = true then
    [{ text := trim value,
       fromLang := (detectRoute cfg (trim value) (utf16 "auto") none).1,
       toLang := (detectRoute cfg (trim value) (utf16 "auto") none).2 }]
  else []

/-- The weight of a pending timer in the fuel bound of `runTimers`: an
auto-hide timer schedules nothing, any other timer at most one auto-hide
timer. -/
def Timer.weight (tm : Timer) : Nat :=
  match tm.task with
  | .hideTranslation => 1
  | _ => 2

/-- The total weight of the pending timers. -/
def Page.weight (page : Page) : Nat := (page.timers.map Timer.weight).sum

/-- The value a textbox holds after the edits of `typeText`: the last value
typed, or the value it had when nothing is typed. -/
def lastValue (events : List (Nat × JSString)) (initial : JSString) : JSString :=
  match events.getLast? with
  | some e => e.2
  | none => initial

/-- What a step other than the debounced handler leaves alone: the
textboxes, the debounce handle and the clock; it adds at most one auto-hide
timer, under the next free handle. -/
structure Quiet (p q : Page) : Prop where
  textareas : q.textareas = p.textareas
  debounceTimer : q.debounceTimer = p.debounceTimer
  now : q.now = p.now
  timers : (q.timers = p.timers ∧ q.nextTimer = p.nextTimer) ∨
    ∃ due, q.timers = p.timers ++ [{ id := p.nextTimer, due := due, task := .hideTranslation }] ∧
      q.nextTimer = p.nextTimer + 1

/-- The page once the script has bound textbox 1, from the initial state. -/
def boundPage : Page := setupInputListener CONFIG Page.initial (some 1)

/-- The user types "hi" into textbox 1 and deletes it again, 100 ms apart. -/
def typedAndDeleted : List (Nat × JSString) := [(100, utf16 "hi"), (100, [])]

/-- The user types "h", "he", "hello" into textbox 1, 100 ms apart. -/
def typedHello : List (Nat × JSString) :=
  [(100, utf16 "h"), (100, utf16 "he"), (100, utf16 "hello")]

/-- The handles of a page are tidy: decided by looking at its timers. -/
instance Page.decidableTidy (page : Page) : Decidable page.Tidy := by
  unfold Page.Tidy
  exact inferInstance

/-- Textbox 1 is bound and the user types "hello" at 100 ms; at 200 ms, with
the debounce timer of that event still pending, the script binds textbox 2;
then time passes until 5000 ms with no further input. The result is the page
at the rebinding, the page at the end and everything observed. -/
def reboundWhilePending : Page × Page × List Obs :=
  let typed := typeText CONFIG thanksBackend 1 [(100, utf16 "hello")] boundPage
  let waited := runTimers CONFIG thanksBackend 200 typed.1
  let rebound := setupInputListener CONFIG waited.1 (some 2)
  let later := runTimers CONFIG thanksBackend 5000 rebound
  (rebound, later.1, typed.2 ++ waited.2 ++ later.2)

/-- The page after a started call of `handleInput` has run to its end
against `net`: untouched when the call had already returned. -/
def resumeInput (page : Page) (call : Suspended) (net : Request → FetchOutcome) : Page :=
  match call with
  | .done => page
  | .awaiting _ request => handleInputResume page (settle request net)

/-- Two calls of `handleInput` on the textbox `target`, R1 on the value `v1`
and then R2 on the value `v2`, whose responses resolve out of order: both
requests are issued, then R2 resumes, then R1. -/
def handleInputOutOfOrder (cfg : Config) (net : Request → FetchOutcome) (page : Page)
    (target : Nat) (v1 v2 : JSString) : Page :=
  let first := handleInputStart cfg
    (page.updateTextarea target fun ta => { ta with value := v1 }) target
  let second := handleInputStart cfg
    (first.1.updateTextarea target fun ta => { ta with value := v2 }) target
  resumeInput (resumeInput second.1 second.2 net) first.2 net

/-- A backend that translates "hello" to "你好" and any other text to
"你好世界". -/
def dictionaryBackend : Request → FetchOutcome :=
  fun req =>
    if req.text = utf16 "hello" then
      .response 200 (some (.obj [("translatedText", .str (utf16 "你好"))]))
    else .response 200 (some (.obj [("translatedText", .str (utf16 "你好世界"))]))

/-- The initial page with "hello" in textbox 1. -/
def helloPage : Page :=
  { Page.initial with textareas := fun _ => Textarea.fresh (utf16 "hello") }

/-- The display as `showTranslation` styles it for a translation. -/
def shownDisplay (text : JSString) : Display :=
  { textContent := text, backgroundColor := "#f0f9ff", borderColor := "#0366d6",
    display := "block" }

/-! ## Discovery of the chat input -/

/-- A `textarea` element of the document as the lookup sees it: which
textbox it is, its class list, its attributes and its rendered size. -/
structure TextareaNode where
  id : Nat
  classes : List String
  attrs : List (String × JSString)
  offsetHeight : Nat
  offsetWidth : Nat
  deriving DecidableEq

/-- The `textarea` elements of the document, in document order. -/
abbrev Document := List TextareaNode

/-- Whether `needle` occurs in `text` as a substring. -/
def includes : JSString → JSString → Bool
  | [], needle => needle.isEmpty
  | c :: rest, needle => needle.isPrefixOf (c :: rest) || includes rest needle

/-- The selectors of the lookup: `textarea.cls` and
`textarea[attr*="needle"]`. -/
inductive Selector where
  | byClass (cls : String)
  | attrContains (attr : String) (needle : JSString)
  deriving DecidableEq

/-- Whether a `textarea` matches a selector; an attribute selector with an
empty value matches nothing. -/
def Selector.test (selector : Selector) (ta : TextareaNode) : Bool :=
  match selector with
  | .byClass cls => decide (cls ∈ ta.classes)
  | .attrContains attr needle =>
    match ta.attrs.lookup attr with
    | some value => !needle.isEmpty && includes value needle
    | none => false

/-- The call `document.querySelector(selector)`: the first match in document
order. -/
def querySelector (doc : Document) (selector : Selector) : Option TextareaNode :=
  doc.find? selector.test

/-- The constant `exactSelector`, `'textarea.textarea-input'`. -/
def exactSelector : Selector := .byClass "textarea-input"

/-- The array `fallbackSelectors`. -/
def fallbackSelectors : List Selector :=
  [.attrContains "placeholder" (utf16 "4000 characters"),
   .attrContains "placeholder" (utf16 "limit your text"),
   .attrContains "placeholder" (utf16 "4000"),
   .attrContains "placeholder" (utf16 "limit"),
   .attrContains "aria-label" (utf16 "message"),
   .attrContains "data-aid" (utf16 "Message"),
   .byClass "message-input",
   .byClass "chat-input"]

/-- The property `textarea.placeholder`: the attribute, or the empty string. -/
def TextareaNode.placeholder (ta : TextareaNode) : JSString :=
  (ta.attrs.lookup "placeholder").getD []

/-- The test of the third step: taller than 30, wider than 100 and with a
placeholder. -/
def looksLikeChatInput (ta : TextareaNode) : Bool :=
  decide (ta.offsetHeight > 30) && decide (ta.offsetWidth > 100) && !ta.placeholder.isEmpty

/-- The test of the fourth step: a rendered height and width. -/
def isRendered (ta : TextareaNode) : Bool :=
  decide (ta.offsetHeight > 0) && decide (ta.offsetWidth > 0)

/-- The loop `for (let selector of fallbackSelectors)`: the first selector
that finds an element returns it. -/
def forSelectors (doc : Document) : List Selector → Option TextareaNode
  | [] => none
  | selector :: rest =>
    match querySelector doc selector with
    | some element => some element
    | none => forSelectors doc rest

/-- The loop `for (let textarea of allTextareas)` returning the first
textarea that passes `test`. -/
def forTextareas (test : TextareaNode → Bool) : List TextareaNode → Option TextareaNode
  | [] => none
  | textarea :: rest => if test textarea then some textarea else forTextareas test rest

/-- The function `findChatInputElement()` on the document `doc`. -/
def findChatInputElement (doc : Document) : Option TextareaNode :=
  match querySelector doc exactSelector with
  | some element => some element
  | none =>
    match forSelectors doc fallbackSelectors with
    | some element => some element
    | none =>
      let allTextareas := doc
      match forTextareas looksLikeChatInput allTextareas with
      | some textarea => some textarea
      | none => forTextareas isRendered allTextareas

/-- The strategy layers in the words of the specification: an ordered list
of predicates, the exact selector, the fallback selectors in their listed
order, the heuristic scan and the last resort. -/
def discoveryTiers : List (TextareaNode → Bool) :=
  exactSelector.test :: (fallbackSelectors.map Selector.test ++ [looksLikeChatInput, isRendered])

/-- The first match, in document order, of the first tier that has any
match. -/
def firstMatchByTier (doc : Document) : List (TextareaNode → Bool) → Option TextareaNode
  | [] => none
  | tier :: rest =>
    match doc.find? tier with
    | some element => some element
    | none => firstMatchByTier doc rest

/-- The lookup in the words of the specification: the predicates evaluated
in priority order, returning the first match. -/
def findChatInputElementSpec (doc : Document) : Option TextareaNode :=
  firstMatchByTier doc discoveryTiers

/-- A document with a hidden `textarea.textarea-input` (textbox 3) after a
visible plain one (textbox 1) and one with a matching placeholder
(textbox 2). -/
def sampleDocument : Document :=
  [{ id := 1, classes := [], attrs := [], offsetHeight := 40, offsetWidth := 200 },
   { id := 2, classes := [], attrs := [("placeholder", utf16 "Please limit your text")],
     offsetHeight := 40, offsetWidth := 200 },
   { id := 3, classes := ["textarea-input"], attrs := [], offsetHeight := 0, offsetWidth := 0 }]

/-! ## The discovery session of `setupInputTranslator`

Of the two declarations of `setupInputTranslator` in the script the second
(the "enhanced" one) is the one in force: both are function declarations of
the same function body, and the later one replaces the earlier. -/

/-- The local variables of a call of `setupInputTranslator` together with
the page: `found`, `attempts`, the time the interval `pollForInput` fires
next (`none` before it is set and once it is cleared), and whether the
mutation observer `inputObserver` is registered. The interval is kept apart
from the one-shot timers of the page; its handle is taken from the same
counter. -/
structure Session where
  page : Page
  found : Bool
  attempts : Nat
  nextTick : Option Nat
  observing : Bool

/-- The constant `maxAttempts`. -/
def maxAttempts : Nat := 30

/-- The constant `interval`, in milliseconds. -/
def interval : Nat := 500

/-- The notice shown when the poll has found the chat input. -/
def foundNotice : JSString := utf16 "输入框已找到，双向翻译功能已激活！"

/-- The notice shown when the poll gives up. -/
def givenUpNotice : JSString := utf16 "未检测到输入框，请刷新页面或确保在客服对话框页面。"

/-- The function `setupInputTranslator()`: with `translateInput` on, it
starts the interval, which takes the next timer handle, and registers the
mutation observer on `document.body` (`childList`, `subtree`). -/
def setupInputTranslator (cfg : Config) (page : Page) : Session :=
  if !cfg.translateInput then
    { page := page, found := false, attempts := 0, nextTick := none, observing := false }
  else
    { page := { page with nextTimer := page.nextTimer + 1 }, found := false, attempts := 0,
      nextTick := some (page.now + interval), observing := true }

/-- The callback of the interval `pollForInput`, run at the time `time` on
the document `doc`. -/
def pollForInput (cfg : Config) (doc : Document) (time : Nat) (s : Session) :
    Session × List Obs :=
  let attempts := s.attempts + 1
  let page := { s.page with now := max s.page.now time }
  match findChatInputElement doc with
  | some textarea =>
    let bound := setupInputListener cfg page (some textarea.id)
    ({ s with page := showTranslation bound (.str foundNotice) false, attempts := attempts,
              found := true, nextTick := none },
      [.lookup time, .notified time foundNotice false])
  | none =>
    if attempts ≥ maxAttempts then
      ({ s with page := showTranslation page (.str givenUpNotice) true, attempts := attempts,
                nextTick := none },
        [.lookup time, .notified time givenUpNotice true])
    else
      ({ s with page := page, attempts := attempts, nextTick := some (time + interval) },
        [.lookup time])

/-- The callback of the mutation observer `inputObserver`, run at the time
`time` on the document `doc`. -/
def inputObserver (cfg : Config) (doc : Document) (time : Nat) (s : Session) :
    Session × List Obs :=
  let page := { s.page with now := max s.page.now time }
  match findChatInputElement doc with
  | some newTextarea =>
    if page.currentTextarea ≠ some newTextarea.id then
      ({ s with page := setupInputListener cfg page (some newTextarea.id) }, [.lookup time])
    else ({ s with page := page }, [.lookup time])
  | none => ({ s with page := page }, [.lookup time])

/-- Whether a call `showTranslation(text, isError)` changes the child list of
a node below `document.body`, which is what the mutation observers of the
script are told of: the display is created and appended to the body, or its
text is replaced (nothing is recorded when an empty display stays empty).
Changes of inline styles are attribute changes and are not recorded. -/
def showTranslationMutates (page : Page) (text : JSValue) : Bool :=
  match page.translationDisplay with
  | none => true
  | some d =>
    !strictEqText d.textContent text && (!d.textContent.isEmpty || !text.toDOMString.isEmpty)

/-- Whether the callback of the interval changes a child list below
`document.body`: only through the notice it shows. -/
def pollForInputMutates (cfg : Config) (doc : Document) (time : Nat) (s : Session) : Bool :=
  let page := { s.page with now := max s.page.now time }
  match findChatInputElement doc with
  | some textarea =>
    showTranslationMutates (setupInputListener cfg page (some textarea.id)) (.str foundNotice)
  | none =>
    if s.attempts + 1 ≥ maxAttempts then showTranslationMutates page (.str givenUpNotice)
    else false

/-- One firing of the interval at the time `time`: its callback runs and,
when it has changed a child list below `document.body` while the mutation
observer is registered, the callback of the observer runs right after it. -/
def pollTick (cfg : Config) (doc : Document) (time : Nat) (s : Session) : Session × List Obs :=
  let fired := pollForInput cfg doc time s
  if pollForInputMutates cfg doc time s && fired.1.observing then
    let seen := inputObserver cfg doc time fired.1
    (seen.1, fired.2 ++ seen.2)
  else fired

/-- Whether one call of `handleInput` changes a child list below
`document.body`: only through the translation it shows. -/
def handleInputMutates (cfg : Config) (net : Request → FetchOutcome) (page : Page)
    (target : Nat) : Bool :=
  match handleInputStart cfg page target with
  | (_, .done) => false
  | (page', .awaiting _ request) =>
    match settle request net with
    | .ok (some result) => showTranslationMutates page' result.translated
    | _ => false

/-- Whether a one-shot timer changes a child list below `document.body`
when it fires. -/
def timerMutates (cfg : Config) (net : Request → FetchOutcome) (page : Page) (tm : Timer) :
    Bool :=
  match tm.task with
  | .hideTranslation => false
  | .showEnabledHint => showTranslationMutates (page.startTimer tm) (.str enabledHint)
  | .applyHandleInput target => handleInputMutates cfg net (page.startTimer tm) target

/-- A one-shot timer of the page fires during the session: its callback runs
and, when it has changed a child list below `document.body` while the
mutation observer is registered, the callback of the observer runs right
after it, on the document of that time. -/
def sessionFireTimer (cfg : Config) (net : Request → FetchOutcome) (docAt : Nat → Document)
    (s : Session) (tm : Timer) : Session × List Obs :=
  let fired := fireTimer cfg net s.page tm
  let after : Session := { s with page := fired.1 }
  if timerMutates cfg net s.page tm && s.observing then
    let seen := inputObserver cfg (docAt fired.1.now) fired.1.now after
    (seen.1, fired.2 ++ seen.2)
  else (after, fired.2)

/-- The time the interval fires next, when that is by the deadline. -/
def Session.tickDue (s : Session) (deadline : Nat) : Option Nat :=
  match s.nextTick with
  | some time => if time ≤ deadline then some time else none
  | none => none

/-- The next thing to happen in the session by the deadline, when nothing
but the session changes the page (neither the host page nor the message and
static-content modules of the script): the interval or the first one-shot
timer, whichever is due first (the interval on a tie). -/
def sessionStep (cfg : Config) (net : Request → FetchOutcome) (docAt : Nat → Document)
    (deadline : Nat) (s : Session) : Option (Session × List Obs) :=
  match s.tickDue deadline, s.page.nextDue deadline with
  | some time, some tm =>
    if time ≤ tm.due then some (pollTick cfg (docAt time) time s)
    else some (sessionFireTimer cfg net docAt s tm)
  | some time, none => some (pollTick cfg (docAt time) time s)
  | none, some tm => some (sessionFireTimer cfg net docAt s tm)
  | none, none => none

/-- Time passes in the session until the deadline: what is due happens, one
thing after the other, at most `fuel` of them; when nothing is due any more
the clock stands at the deadline. -/
def runSessionFuel (cfg : Config) (net : Request → FetchOutcome) (docAt : Nat → Document) :
    Nat → Nat → Session → Session × List Obs
  | 0, _, s => (s, [])
  | fuel + 1, deadline, s =>
    match sessionStep cfg net docAt deadline s with
    | none => ({ s with page := { s.page with now := max s.page.now deadline } }, [])
    | some next =>
      let later := runSessionFuel cfg net docAt fuel deadline next.1
      (later.1, next.2 ++ later.2)

/-- Whether an observation is a lookup made after the time `time`. -/
def Obs.isLookupAfter (time : Nat) : Obs → Bool
  | .lookup at_ => decide (time < at_)
  | _ => false

/-- The two producers of discoveries. -/
inductive Producer where
  | poll
  | mutation
  deriving DecidableEq

/-- One discovery event at the time `time` on the document `doc`: a tick of
the interval, which runs its callback only while the interval is set, or a
mutation record, which runs the observer callback only while the observer is
registered. -/
def discover (cfg : Config) (s : Session) (event : Producer × Nat × Document) : Session :=
  match event.1 with
  | .poll =>
    if s.nextTick.isSome then (pollForInput cfg event.2.2 event.2.1 s).1 else s
  | .mutation =>
    if s.observing then (inputObserver cfg event.2.2 event.2.1 s).1 else s

/-- The session from `setupInputTranslator` on the initial page, on a
document that never has a textarea, until 30000 ms. -/
def exhaustedSession : Session × List Obs :=
  runSessionFuel CONFIG offlineBackend (fun _ => []) 40 30000
    (setupInputTranslator CONFIG Page.initial)

/-- A document whose only textarea is the chat input, textbox 7. -/
def chatDocument : Document :=
  [{ id := 7, classes := ["textarea-input"], attrs := [], offsetHeight := 40,
     offsetWidth := 300 }]

/-- The display as `showTranslation` styles it for an error. -/
def errorDisplay (text : JSString) : Display :=
  { textContent := text, backgroundColor := "#ffe6e6", borderColor := "#d63636",
    display := "block" }

/-! ## Static content -/

/-- The number of elements of class `cls` among the nodes and their
descendants. -/
def Nodes.countClass (cls : String) : Nodes → Nat
  | .nil => 0
  | .text _ rest => rest.countClass cls
  | .elem _ c _ k rest =>
    (if cls ∈ c then 1 else 0) + k.countClass cls + rest.countClass cls

/-- Whether `element.querySelector('.' + cls)` finds an element. -/
def Element.hasDescendantOfClass (e : Element) (cls : String) : Bool :=
  decide (0 < e.kids.countClass cls)

/-- Whether the last node of a sibling list is a text node
(`lastChild.nodeType === 3`). -/
def Nodes.lastIsText : Nodes → Bool
  | .nil => false
  | .text _ rest =>
    match rest with
    | .nil => true
    | _ => rest.lastIsText
  | .elem _ _ _ _ rest => rest.lastIsText

/-- The line terminators, which `.` does not match in a regular expression. -/
def isLineTerminator (c : Nat) : Bool := c == 10 || c == 13 || c == 8232 || c == 8233

/-- Whether a text matches `\s*\([^)]+\)$` from its start: white space, an
opening parenthesis, one or more characters other than a closing
parenthesis, and a closing parenthesis at the very end. -/
def matchesParenTail (rest : JSString) : Bool :=
  match rest.dropWhile isWhiteSpace with
  | 40 :: body =>
    body.getLast? == some 41 && !body.dropLast.isEmpty && !body.dropLast.contains 41
  | _ => false

/-- The first group of the match of `/^(.*?)\s*\([^)]+\)$/` on `pre`
followed by `rest`, given that `pre` is taken by the lazy group already: the
shortest extension of `pre`, free of line terminators, after which the tail
matches; `none` when there is no match. -/
def matchGroup : JSString → JSString → Option JSString
  | pre, [] => if matchesParenTail [] then some pre else none
  | pre, c :: cs =>
    if matchesParenTail (c :: cs) then some pre
    else if isLineTerminator c then none
    else matchGroup (pre ++ [c]) cs

/-- The text a static element is translated from: its trimmed text, with a
trailing parenthesised part removed when the regular expression matches. -/
def staticText (element : Element) : JSString :=
  let text := trim element.textContent
  match matchGroup [] text with
  | some group => trim group
  | none => text

/-- The annotation `span` built for a static element: class
`static-translation`, the inline style, and the translation in parentheses. -/
def translationSpan (translated : JSValue) : Element :=
  { tag := "span", classes := ["static-translation"],
    attrs := [("style", utf16 "color:#666; font-size:0.9em; margin-left: 5px;")],
    kids := .text (utf16 "(" ++ translated.toStr ++ utf16 ")") .nil }

/-- The element once the `then` callback has inserted the annotation and set
the marker. When the last child is a text node the span is inserted before
`element.lastChild.nextSibling`, which is `null`, so in both branches it
becomes the last child. -/
def annotateStatic (element : Element) (translated : JSValue) : Element :=
  let span := translationSpan translated
  let inserted : Element :=
    if element.kids.lastIsText then { element with kids := element.kids.append (Nodes.single span) }
    else { element with kids := element.kids.append (Nodes.single span) }
  inserted.setAttribute "data-static-translated" (utf16 "true")

/-- A static element as `translateStatic` sees it: the element, whether it
is in the set `staticTranslatedElements`, and the number of translation
requests started for it whose `then` callback has not run yet. -/
structure StaticItem where
  element : Element
  inSet : Bool
  pending : Nat
  deriving DecidableEq

/-- The body of `elements.forEach` in `translateStatic` for one element, up
to the call of `translateText`: the page, the element and the request sent,
if any. -/
def translateStaticVisit (cfg : Config) (page : Page) (item : StaticItem) :
    Page × StaticItem × Option Request :=
  if item.inSet || item.element.hasDescendantOfClass "static-translation" ||
      truthyArg (item.element.getAttribute "data-static-translated") then (page, item, none)
  else
    if (trim item.element.textContent).isEmpty then (page, item, none)
    else
      let text := staticText item.element
      if hasEnglish text && !hasChinese text then
        let started := translateTextStart cfg page text (utf16 "en") (some (utf16 "zh"))
        (started.1, { item with pending := item.pending + 1 }, started.2)
      else (page, item, none)

/-- The `then` callback of `translateStatic` on the element as it is when
the promise is fulfilled with `translation`. -/
def translateStaticThen (item : StaticItem) (translation : Option TranslationResult) :
    StaticItem :=
  match translation with
  | some result =>
    if result.translated.truthy then
      if item.element.hasDescendantOfClass "static-translation" then item
      else
        { item with element := annotateStatic item.element result.translated, inSet := true }
    else item
  | none => item

/-- What happens to a static element: a scan of `translateStatic` visits
it, or the promise of one of its pending requests settles. -/
inductive StaticEvent where
  | scan
  | settled (outcome : Except JSError (Option TranslationResult))

/-- One event on a static element. A promise can only settle for a request
that is pending, and the `then` callback only runs when it is fulfilled. -/
def staticStep (cfg : Config) (state : Page × StaticItem) (event : StaticEvent) :
    Page × StaticItem :=
  match event with
  | .scan =>
    let visited := translateStaticVisit cfg state.1 state.2
    (visited.1, visited.2.1)
  | .settled outcome =>
    if state.2.pending = 0 then state
    else
      match outcome with
      | .ok translation =>
        (state.1, translateStaticThen { state.2 with pending := state.2.pending - 1 } translation)
      | .error _ => (state.1, { state.2 with pending := state.2.pending - 1 })

/-- The button `<li class="smartcs-buttons-button">Track package</li>`,
not yet translated. -/
def trackButton : StaticItem :=
  { element := { tag := "li", classes := ["smartcs-buttons-button"], attrs := [],
                 kids := .text (utf16 "Track package") .nil },
    inSet := false, pending := 0 }

/-- What `translateText` resolves to for "Track package". -/
def trackTranslation : TranslationResult :=
  { original := utf16 "Track package", translated := .str (utf16 "跟踪包裹"),
    fromLang := .str (utf16 "en"), toLang := .str (utf16 "zh") }

/-! ## Properties of the translation client -/

/-- The language tag `zh` is a non-empty string. -/
theorem zh_ne_nil : utf16 "zh" ≠ [] := by decide

/-- The language tag `en` is a non-empty string. -/
theorem en_ne_nil : utf16 "en" ≠ [] := by decide

/-- The language tags `en` and `zh` differ. -/
theorem en_ne_zh : utf16 "en" ≠ utf16 "zh" := by decide

/-- The pseudo-tag `auto` is not the tag `zh`. -/
theorem auto_ne_zh : utf16 "auto" ≠ utf16 "zh" := by decide

/-- A text that is not blank passes the blank check of `translateText`. -/
theorem translateTextStart_of_not_blank (cfg : Config) (page : Page) (text fromArg : JSString)
    (toArg : Option JSString) (h : trim text ≠ []) :
    translateTextStart cfg page text fromArg toArg =
      (page, some { text := text, fromLang := (detectRoute cfg text fromArg toArg).1,
                    toLang := (detectRoute cfg text fromArg toArg).2 }) := by
  have h1 : text ≠ [] := by
    rintro rfl
    exact h rfl
  have h2 : (trim text).length ≠ 0 := by
    intro h0
    exact h (List.length_eq_zero.mp h0)
  simp [translateTextStart, h1, h2]

/-- C1: for a text of at least 2 characters that is not whitespace-only,
`translateText(text, 'auto')` with `autoDetectInput` enabled and no explicit
target sends exactly one request, whose (from, to) pair is ('zh', 'en') when
the text has a CJK character and no ASCII letter, ('en', 'zh') when it has an
ASCII letter and no CJK character, and ('auto', 'en') when it has both or
neither. -/
theorem translateText_auto_routing (cfg : Config) (page : Page) (text : JSString)
    (net : Request → FetchOutcome) (hauto : cfg.autoDetectInput = true)
    (_hlen : 2 ≤ text.length) (hblank : trim text ≠ []) :
    (hasChinese text = true → hasEnglish text = false →
      (translateText cfg page text (utf16 "auto") none net).requests =
        [{ text := text, fromLang := utf16 "zh", toLang := utf16 "en" }]) ∧
    (hasEnglish text = true → hasChinese text = false →
      (translateText cfg page text (utf16 "auto") none net).requests =
        [{ text := text, fromLang := utf16 "en", toLang := utf16 "zh" }]) ∧
    (hasChinese text = hasEnglish text →
      (translateText cfg page text (utf16 "auto") none net).requests =
        [{ text := text, fromLang := utf16 "auto", toLang := utf16 "en" }]) := by
  have hstart := translateTextStart_of_not_blank cfg page text (utf16 "auto") none hblank
  refine ⟨fun hc he => ?_, fun he hc => ?_, fun hce => ?_⟩
  · simp [translateText, hstart, detectRoute, hauto, hc, he, truthyArg, en_ne_nil]
  · simp [translateText, hstart, detectRoute, hauto, hc, he, truthyArg, zh_ne_nil]
  · cases hc : hasChinese text <;>
      simp [translateText, hstart, detectRoute, hauto, hc, ← hce, truthyArg, en_ne_nil]

/-- Witness for C1 on the text "你好". -/
theorem translateText_auto_routing_witness :
    (translateText CONFIG Page.initial (utf16 "你好") (utf16 "auto") none
        (fun _ => FetchOutcome.rejected)).requests =
      [{ text := utf16 "你好", fromLang := utf16 "zh", toLang := utf16 "en" }] :=
  (translateText_auto_routing CONFIG Page.initial (utf16 "你好") (fun _ => FetchOutcome.rejected)
    (by decide) (by decide) (by decide)).1 (by decide) (by decide)

/-! ## Properties of the message pipeline: routing and skipping -/

/-- A call of `processMessageElement` returns before any request when the
extracted text has no ASCII letter or has a CJK character. -/
theorem processMessageElementStart_of_not_latin_only (cfg : Config) (page : Page)
    (element : Element)
    (h : hasEnglish (messageText element) = false ∨ hasChinese (messageText element) = true) :
    processMessageElementStart cfg page element = (page, .done) := by
  unfold processMessageElementStart
  split
  · rfl
  · rcases h with h | h <;> simp [h]

/-- C2, as stated, fails: the message `<p>你好</p>` is unmarked and its text
has 2 characters, a CJK character and no Latin letter, yet
`processMessageElement` sends no request at all (so none with the route
zh → en), inserts nothing and leaves the element unmarked. -/
theorem processMessageElement_cjk_counterexample :
    chineseMessage.hasAttribute "data-translated" = false ∧
    2 ≤ (messageText chineseMessage).length ∧
    hasChinese (messageText chineseMessage) = true ∧
    hasEnglish (messageText chineseMessage) = false ∧
    (processMessageElement CONFIG Page.initial chineseMessage helloBackend).requests = [] ∧
    (processMessageElement CONFIG Page.initial chineseMessage helloBackend).element =
      chineseMessage := by
  decide

/-- C2, amended: for a message element without `data-translated` whose
extracted text has at least 2 characters, a CJK character and no Latin letter,
`processMessageElement` sends no translation request and leaves the element
and the page as they were: no annotation, no marker. -/
theorem processMessageElement_cjk_skipped (cfg : Config) (page : Page) (element : Element)
    (net : Request → FetchOutcome)
    (_hunmarked : element.hasAttribute "data-translated" = false)
    (_hlen : 2 ≤ (messageText element).length)
    (hcjk : hasChinese (messageText element) = true)
    (_hlatin : hasEnglish (messageText element) = false) :
    (processMessageElement cfg page element net).requests = [] ∧
    (processMessageElement cfg page element net).element = element ∧
    (processMessageElement cfg page element net).page = page := by
  simp [processMessageElement,
    processMessageElementStart_of_not_latin_only cfg page element (Or.inr hcjk)]

/-- Witness for the amended C2 on the message `<p>你好</p>`. -/
theorem processMessageElement_cjk_skipped_witness :
    (processMessageElement CONFIG Page.initial chineseMessage helloBackend).requests = [] ∧
    (processMessageElement CONFIG Page.initial chineseMessage helloBackend).element =
      chineseMessage ∧
    (processMessageElement CONFIG Page.initial chineseMessage helloBackend).page =
      Page.initial :=
  processMessageElement_cjk_skipped CONFIG Page.initial chineseMessage helloBackend
    (by decide) (by decide) (by decide) (by decide)

/-- C3: for a message element whose trimmed text is shorter than 2
characters, or has both a CJK character and a Latin letter, or has neither,
`processMessageElement` sends no translation request and leaves the element
as it was (no annotation node inserted, `data-translated` not set), and the
page too. -/
theorem processMessageElement_skip (cfg : Config) (page : Page) (element : Element)
    (net : Request → FetchOutcome)
    (h : (messageText element).length < 2 ∨
      (hasChinese (messageText element) = true ∧ hasEnglish (messageText element) = true) ∨
      (hasChinese (messageText element) = false ∧ hasEnglish (messageText element) = false)) :
    (processMessageElement cfg page element net).requests = [] ∧
    (processMessageElement cfg page element net).element = element ∧
    (processMessageElement cfg page element net).element.annotations = element.annotations ∧
    (processMessageElement cfg page element net).element.getAttribute "data-translated" =
      element.getAttribute "data-translated" ∧
    (processMessageElement cfg page element net).page = page := by
  have hstart : processMessageElementStart cfg page element = (page, .done) := by
    rcases h with h | h | h
    · unfold processMessageElementStart
      split
      · rfl
      · simp [h]
    · exact processMessageElementStart_of_not_latin_only cfg page element (Or.inr h.1)
    · exact processMessageElementStart_of_not_latin_only cfg page element (Or.inl h.2)
  simp [processMessageElement, hstart]

/-- Witness for C3 on the mixed message `<p>你好 hello</p>`. -/
theorem processMessageElement_skip_witness :
    (processMessageElement CONFIG Page.initial mixedMessage helloBackend).requests = [] ∧
    (processMessageElement CONFIG Page.initial mixedMessage helloBackend).element =
      mixedMessage :=
  have h := processMessageElement_skip CONFIG Page.initial mixedMessage helloBackend
    (Or.inr (Or.inl (by decide)))
  ⟨h.1, h.2.1⟩

/-! ## Properties of the translation client: blank input and failures -/

/-- A text made of white space only (the empty text included) trims to the
empty string. -/
theorem trim_eq_nil_of_blank (text : JSString) (h : ∀ c ∈ text, isWhiteSpace c = true) :
    trim text = [] := by
  have h1 : text.dropWhile isWhiteSpace = [] := by
    rw [List.dropWhile_eq_nil_iff]
    exact h
  simp [trim, h1]

/-- After `hideTranslation` the display is not visible. -/
theorem displayVisible_hideTranslation (page : Page) :
    (hideTranslation page).displayVisible = false := by
  unfold hideTranslation
  cases h : page.translationDisplay <;> simp [Page.displayVisible, h]

/-- C4: for a text that is empty or made of white space only, and for every
`from`/`to` argument, `translateText` sends no request, returns `null`, and
calls `hideTranslation`, after which the display is not visible; and
`handleInput` on a textbox holding such a value sends no request and ends
with the display not visible. -/
theorem blank_input_hides (cfg : Config) (page : Page) (text fromArg : JSString)
    (toArg : Option JSString) (net : Request → FetchOutcome) (target : Nat)
    (hblank : ∀ c ∈ text, isWhiteSpace c = true) :
    (translateText cfg page text fromArg toArg net).requests = [] ∧
    (translateText cfg page text fromArg toArg net).result = .ok none ∧
    (translateText cfg page text fromArg toArg net).page = hideTranslation page ∧
    (translateText cfg page text fromArg toArg net).page.displayVisible = false ∧
    ((page.textareas target).value = text →
      (handleInput cfg page target net).requests = [] ∧
      (handleInput cfg page target net).page = hideTranslation page ∧
      (handleInput cfg page target net).page.displayVisible = false) := by
  have htrim := trim_eq_nil_of_blank text hblank
  have hstart : translateTextStart cfg page text fromArg toArg = (hideTranslation page, none) := by
    simp [translateTextStart, htrim]
  refine ⟨?_, ?_, ?_, ?_, ?_⟩
  · simp [translateText, hstart]
  · simp [translateText, hstart]
  · simp [translateText, hstart]
  · simp [translateText, hstart, displayVisible_hideTranslation]
  · intro hval
    have hin : handleInputStart cfg page target = (hideTranslation page, .done) := by
      simp [handleInputStart, hval, htrim]
    simp [handleInput, hin, displayVisible_hideTranslation]

/-- Witness for C4: the display of `shownPage` is visible, and is hidden by
`translateText` and by `handleInput` on two spaces. -/
theorem blank_input_hides_witness :
    shownPage.displayVisible = true ∧
    (translateText CONFIG shownPage (utf16 "  ") (utf16 "auto") none helloBackend).requests = [] ∧
    (translateText CONFIG shownPage (utf16 "  ") (utf16 "auto") none
      helloBackend).page.displayVisible = false ∧
    (handleInput CONFIG shownPage 1 helloBackend).page.displayVisible = false :=
  have h := blank_input_hides CONFIG shownPage (utf16 "  ") (utf16 "auto") none helloBackend 1
    (by decide)
  ⟨by decide, h.1, h.2.2.2.1, (h.2.2.2.2 (by decide)).2.2⟩

/-- C5, as stated, fails: against a body in which the field `error_msg` is
present (and empty), `translateText("hello", "en", "zh")` returns an object
carrying the translated text, not `null`. -/
theorem translateText_error_msg_counterexample :
    trim (utf16 "hello") ≠ [] ∧
    (∃ body, emptyErrorBackend
        { text := utf16 "hello", fromLang := utf16 "en", toLang := utf16 "zh" } =
          .response 200 (some body) ∧ body.hasField "error_msg" = true) ∧
    ∃ r, (translateText CONFIG Page.initial (utf16 "hello") (utf16 "en") (some (utf16 "zh"))
        emptyErrorBackend).result = .ok (some r) ∧ r.translated = .str (utf16 "你好") := by
  refine ⟨by decide, ⟨_, rfl, rfl⟩, ⟨_, rfl, rfl⟩⟩

/-- The continuation of `translateText` never rejects. -/
theorem translateTextFinish_ok (req : Request) (outcome : FetchOutcome) :
    ∃ r, translateTextFinish req outcome = .ok r := by
  unfold translateTextFinish
  cases translateTextTry req outcome with
  | ok r => exact ⟨r, rfl⟩
  | error e => exact ⟨none, rfl⟩

/-- The continuation of `translateText` returns `null` on a failure. -/
theorem translateTextFinish_of_isFailure (req : Request) (outcome : FetchOutcome)
    (h : outcome.isFailure = true) : translateTextFinish req outcome = .ok none := by
  cases outcome with
  | rejected => rfl
  | response status body =>
    cases hs : statusOk status with
    | false => simp [translateTextFinish, translateTextTry, hs]
    | true =>
      cases body with
      | none => simp [FetchOutcome.isFailure, hs] at h
      | some result =>
        cases hget : result.get "error_msg" with
        | error e => simp [FetchOutcome.isFailure, hs, hget] at h
        | ok errorMsg =>
          have ht : errorMsg.truthy = true := by
            simpa [FetchOutcome.isFailure, hs, hget] using h
          simp [translateTextFinish, translateTextTry, hs, hget, ht, bind, Except.bind, pure,
            Except.pure]

/-- C5, amended: for every non-blank text, `translateText` never throws to
its caller, and it returns the single failure outcome `null`, never an object
carrying translated text, whenever the `fetch` rejects, the HTTP status is
not a success status, or the response body has a truthy `error_msg` (a
present but empty `error_msg` is not a failure). -/
theorem translateText_failure_normalised (cfg : Config) (page : Page) (text fromArg : JSString)
    (toArg : Option JSString) (net : Request → FetchOutcome) (hblank : trim text ≠ []) :
    (∃ r, (translateText cfg page text fromArg toArg net).result = .ok r) ∧
    (∃ req, (translateText cfg page text fromArg toArg net).requests = [req] ∧
      ((net req).isFailure = true →
        (translateText cfg page text fromArg toArg net).result = .ok none)) := by
  have hstart := translateTextStart_of_not_blank cfg page text fromArg toArg hblank
  refine ⟨?_, ⟨Request.mk text (detectRoute cfg text fromArg toArg).1
    (detectRoute cfg text fromArg toArg).2, ?_, fun hfail => ?_⟩⟩
  · simpa [translateText, hstart] using translateTextFinish_ok _ _
  · simp [translateText, hstart]
  · simpa [translateText, hstart] using translateTextFinish_of_isFailure _ _ hfail

/-- Witness for the amended C5: "hello" against a body with a non-empty
`error_msg` gives `null`. -/
theorem translateText_failure_normalised_witness :
    trim (utf16 "hello") ≠ [] ∧
    (translateText CONFIG Page.initial (utf16 "hello") (utf16 "en") (some (utf16 "zh"))
      errorBackend).result = .ok none := by
  refine ⟨by decide, ?_⟩
  obtain ⟨req, _, h⟩ := (translateText_failure_normalised CONFIG Page.initial (utf16 "hello")
    (utf16 "en") (some (utf16 "zh")) errorBackend (by decide)).2
  exact h rfl

/-! ## The shape of a translation result -/

/-- C6, as stated, fails: against a success response whose body has no
`error_msg`, no `translatedText` and no `dst`, `translateText` returns an
object whose `translated` is `undefined`. -/
theorem translateText_partial_counterexample :
    ∃ r, (translateText CONFIG Page.initial (utf16 "hello") (utf16 "en") (some (utf16 "zh"))
        emptyBodyBackend).result = .ok (some r) ∧
      r.original = utf16 "hello" ∧ r.translated = .undefined :=
  ⟨_, rfl, rfl, rfl⟩

/-- A property read either throws for every key or succeeds for every key. -/
theorem JSValue.get_total (v : JSValue) :
    (∀ key, v.get key = .error .typeError) ∨ (∀ key, ∃ w, v.get key = .ok w) := by
  cases v with
  | undefined => exact Or.inl fun _ => rfl
  | null => exact Or.inl fun _ => rfl
  | bool b => exact Or.inr fun _ => ⟨_, rfl⟩
  | num n => exact Or.inr fun _ => ⟨_, rfl⟩
  | str s => exact Or.inr fun _ => ⟨_, rfl⟩
  | arr items => exact Or.inr fun _ => ⟨_, rfl⟩
  | obj fields => exact Or.inr fun _ => ⟨_, rfl⟩

/-- The value of `a || b` is truthy when `b` is. -/
theorem JSValue.truthy_or (a b : JSValue) (h : b.truthy = true) : (a.or b).truthy = true := by
  unfold JSValue.or
  split
  · assumption
  · exact h

/-- A non-empty string is truthy. -/
theorem JSValue.truthy_str (s : JSString) (h : s ≠ []) : (JSValue.str s).truthy = true := by
  cases s with
  | nil => exact absurd rfl h
  | cons c rest => rfl

/-- What an object returned by the continuation of `translateText` holds. -/
theorem translateTextFinish_some (req : Request) (outcome : FetchOutcome)
    (r : TranslationResult) (h : translateTextFinish req outcome = .ok (some r)) :
    r.original = req.text ∧
    (req.fromLang ≠ [] → r.fromLang.truthy = true) ∧
    (req.toLang ≠ [] → r.toLang.truthy = true) ∧
    ∃ status body translatedText dst, outcome = .response status (some body) ∧
      body.get "translatedText" = .ok translatedText ∧ body.get "dst" = .ok dst ∧
      r.translated = translatedText.or dst := by
  cases outcome with
  | rejected => simp [translateTextFinish, translateTextTry] at h
  | response status body =>
    cases hs : statusOk status with
    | false => simp [translateTextFinish, translateTextTry, hs] at h
    | true =>
      cases body with
      | none => simp [translateTextFinish, translateTextTry, hs] at h
      | some result =>
        rcases JSValue.get_total result with herr | hok
        · simp [translateTextFinish, translateTextTry, hs, herr, bind, Except.bind] at h
        · obtain ⟨e, he⟩ := hok "error_msg"
          obtain ⟨t, ht⟩ := hok "translatedText"
          obtain ⟨d, hd⟩ := hok "dst"
          obtain ⟨f, hf⟩ := hok "from"
          obtain ⟨o, ho⟩ := hok "to"
          cases hte : e.truthy with
          | true =>
            simp [translateTextFinish, translateTextTry, hs, he, hte, bind, Except.bind, pure,
              Except.pure] at h
          | false =>
            simp [translateTextFinish, translateTextTry, hs, he, ht, hd, hf, ho, hte, bind,
              Except.bind, pure, Except.pure] at h
            subst h
            exact ⟨rfl, fun hne => JSValue.truthy_or _ _ (JSValue.truthy_str _ hne),
              fun hne => JSValue.truthy_or _ _ (JSValue.truthy_str _ hne),
              status, result, t, d, rfl, ht, hd, rfl⟩

/-- The target language of the route is never empty, and its source language
is not empty when the `from` argument is not. -/
theorem detectRoute_ne_nil (cfg : Config) (text fromArg : JSString) (toArg : Option JSString) :
    (fromArg ≠ [] → (detectRoute cfg text fromArg toArg).1 ≠ []) ∧
    (detectRoute cfg text fromArg toArg).2 ≠ [] := by
  have hauto : utf16 "auto" ≠ [] := by decide
  have hgetD : ∀ o : Option JSString, truthyArg o = true → o.getD [] ≠ [] := by
    intro o ho
    cases o with
    | none => simp [truthyArg] at ho
    | some s => simpa [truthyArg] using ho
  constructor
  · intro hfrom
    unfold detectRoute
    simp only []
    split_ifs <;> first | exact zh_ne_nil | exact en_ne_nil | exact hauto | exact hfrom
  · unfold detectRoute
    simp only []
    split_ifs with h1 h2 h3 h4 h5 h6 h7 h8 h9 <;>
      first
        | exact zh_ne_nil
        | exact en_ne_nil
        | exact hgetD _ (by assumption)

/-- C6, amended: for every input and every backend response, the value
returned by `translateText` is either `null` or an object in which `original`
is the non-empty text, the target language is non-empty, the source language
is non-empty whenever the `from` argument is, and `translated` is the value
of `translatedText || dst` of the response body, which may be missing
(`undefined`) or empty. -/
theorem translateText_result_shape (cfg : Config) (page : Page) (text fromArg : JSString)
    (toArg : Option JSString) (net : Request → FetchOutcome) :
    (translateText cfg page text fromArg toArg net).result = .ok none ∨
    ∃ r, (translateText cfg page text fromArg toArg net).result = .ok (some r) ∧
      r.original = text ∧ text ≠ [] ∧
      r.toLang.truthy = true ∧
      (fromArg ≠ [] → r.fromLang.truthy = true) ∧
      ∃ req status body translatedText dst,
        (translateText cfg page text fromArg toArg net).requests = [req] ∧
        net req = .response status (some body) ∧
        body.get "translatedText" = .ok translatedText ∧ body.get "dst" = .ok dst ∧
        r.translated = translatedText.or dst := by
  by_cases hblank : trim text = []
  · left
    have hstart : translateTextStart cfg page text fromArg toArg = (hideTranslation page, none) := by
      simp [translateTextStart, hblank]
    simp [translateText, hstart]
  · have hstart := translateTextStart_of_not_blank cfg page text fromArg toArg hblank
    have hne : text ≠ [] := by
      rintro rfl
      exact hblank rfl
    have hroute := detectRoute_ne_nil cfg text fromArg toArg
    obtain ⟨res, hres⟩ := translateTextFinish_ok
      (Request.mk text (detectRoute cfg text fromArg toArg).1
        (detectRoute cfg text fromArg toArg).2)
      (net (Request.mk text (detectRoute cfg text fromArg toArg).1
        (detectRoute cfg text fromArg toArg).2))
    cases res with
    | none =>
      left
      simp [translateText, hstart, hres]
    | some r =>
      right
      obtain ⟨horig, hfrom, hto, status, body, t, d, hnet, ht, hd, htr⟩ :=
        translateTextFinish_some _ _ r hres
      refine ⟨r, by simp [translateText, hstart, hres], horig, hne, hto hroute.2,
        fun hf => hfrom (hroute.1 hf), _, status, body, t, d, ?_, hnet, ht, hd, htr⟩
      simp [translateText, hstart]

/-- Witness for the amended C6: "hello" against the body
`{"translatedText": "hello"}`. -/
theorem translateText_result_shape_witness :
    (translateText CONFIG Page.initial (utf16 "hello") (utf16 "en") (some (utf16 "zh"))
      helloBackend).result = .ok none ∨
    ∃ r, (translateText CONFIG Page.initial (utf16 "hello") (utf16 "en") (some (utf16 "zh"))
        helloBackend).result = .ok (some r) ∧
      r.original = utf16 "hello" ∧ utf16 "hello" ≠ [] ∧
      r.toLang.truthy = true ∧
      (utf16 "en" ≠ [] → r.fromLang.truthy = true) ∧
      ∃ req status body translatedText dst,
        (translateText CONFIG Page.initial (utf16 "hello") (utf16 "en") (some (utf16 "zh"))
          helloBackend).requests = [req] ∧
        helloBackend req = .response status (some body) ∧
        body.get "translatedText" = .ok translatedText ∧ body.get "dst" = .ok dst ∧
        r.translated = translatedText.or dst :=
  translateText_result_shape CONFIG Page.initial (utf16 "hello") (utf16 "en") (some (utf16 "zh"))
    helloBackend

/-! ## Properties of the message pipeline: annotation and marking -/

/-- An element that fails the predicate survives `dropWhile`. -/
theorem mem_dropWhile_of_false (p : Nat → Bool) (c : Nat) (l : List Nat) (hc : c ∈ l)
    (hp : p c = false) : c ∈ l.dropWhile p := by
  induction l with
  | nil => cases hc
  | cons x rest ih =>
    rw [List.dropWhile_cons]
    split
    · rcases List.mem_cons.mp hc with rfl | hrest
      · simp_all
      · exact ih hrest
    · exact hc

/-- A text with a character that is not white space does not trim to the
empty string. -/
theorem trim_ne_nil (text : JSString) (c : Nat) (hc : c ∈ text) (hws : isWhiteSpace c = false) :
    trim text ≠ [] := by
  have h1 : c ∈ text.dropWhile isWhiteSpace := mem_dropWhile_of_false _ c text hc hws
  have h2 : c ∈ ((text.dropWhile isWhiteSpace).reverse.dropWhile isWhiteSpace) :=
    mem_dropWhile_of_false _ c _ (List.mem_reverse.mpr h1) hws
  have h3 : c ∈ trim text := List.mem_reverse.mpr h2
  exact List.ne_nil_of_mem h3

/-- A text with an ASCII letter is not blank. -/
theorem trim_ne_nil_of_hasEnglish (text : JSString) (h : hasEnglish text = true) :
    trim text ≠ [] := by
  unfold hasEnglish at h
  rw [List.any_eq_true] at h
  obtain ⟨c, hc, hletter⟩ := h
  refine trim_ne_nil text c hc ?_
  simp only [Bool.or_eq_true, Bool.and_eq_true, decide_eq_true_eq] at hletter
  simp only [isWhiteSpace, Bool.or_eq_false_iff, Bool.and_eq_false_iff, beq_eq_false_iff_ne,
    decide_eq_false_iff_not, ne_eq]
  omega

/-- The synchronous prefix of `processMessageElement` on an unmarked element
whose text has at least 2 characters, an ASCII letter and no CJK character:
it sends the request `(text, 'en', 'zh')` and suspends. -/
theorem processMessageElementStart_latin_only (cfg : Config) (page : Page) (element : Element)
    (hunmarked : element.hasAttribute "data-translated" = false)
    (hlen : 2 ≤ (messageText element).length)
    (hlatin : hasEnglish (messageText element) = true)
    (hcjk : hasChinese (messageText element) = false) :
    processMessageElementStart cfg page element =
      (page, .awaiting (messageText element)
        (some { text := messageText element, fromLang := utf16 "en", toLang := utf16 "zh" })) := by
  have hblank := trim_ne_nil_of_hasEnglish _ hlatin
  have hstart := translateTextStart_of_not_blank cfg page (messageText element) (utf16 "en")
    (some (utf16 "zh")) hblank
  have hne : messageText element ≠ [] := by
    intro h0
    rw [h0] at hlen
    simp at hlen
  have hlen2 : ¬ (messageText element).length < 2 := by omega
  have hauto : utf16 "en" ≠ utf16 "auto" := by decide
  simp [processMessageElementStart, hunmarked, hne, hlen2, hlatin, hcjk, hstart, detectRoute,
    hauto, truthyArg, zh_ne_nil]

/-- The annotation `div` counts as exactly one annotation node, with the
label as its text. -/
theorem annotations_single_translationDiv (translated : JSValue) :
    (Nodes.single (translationDiv translated)).annotations =
      [utf16 "翻译：" ++ translated.toStr] := by
  simp [Nodes.single, translationDiv, Nodes.annotations, Nodes.textContent]

/-- Annotations of a concatenation of sibling lists. -/
theorem Nodes.annotations_append (xs ys : Nodes) :
    (xs.append ys).annotations = xs.annotations ++ ys.annotations := by
  induction xs with
  | nil => rfl
  | text d rest ih => simpa [Nodes.append, Nodes.annotations] using ih
  | elem t c a k rest _ ih => simp [Nodes.append, Nodes.annotations, ih]

/-- Inserting a node after the first `p` adds the annotation nodes of that
node and no other. -/
theorem Nodes.length_annotations_insertAfterFirstP (node : Element) (xs : Nodes)
    (h : xs.firstP.isSome = true) :
    (xs.insertAfterFirstP node).annotations.length =
      xs.annotations.length + (Nodes.single node).annotations.length := by
  induction xs with
  | nil => simp [Nodes.firstP] at h
  | text d rest ih =>
    simp only [Nodes.firstP] at h
    simpa [Nodes.insertAfterFirstP, Nodes.annotations] using ih h
  | elem t c a k rest ihk ih =>
    by_cases ht : t = "p"
    · simp [Nodes.insertAfterFirstP, Nodes.annotations, Nodes.single, ht]
      omega
    · by_cases hk : k.firstP.isSome = true
      · have := ihk hk
        simp [Nodes.insertAfterFirstP, Nodes.annotations, ht, hk, this]
        split <;> split <;> simp <;> omega
      · have hrest : rest.firstP.isSome = true := by
          simp only [Nodes.firstP, ht, if_false] at h
          cases hkf : k.firstP with
          | some p => simp [hkf] at hk
          | none => simpa [hkf] using h
        have := ih hrest
        simp [Nodes.insertAfterFirstP, Nodes.annotations, ht, hk, this]
        omega

/-- The annotation nodes of a node inserted after the first `p` are among
the annotation nodes afterwards. -/
theorem Nodes.mem_annotations_insertAfterFirstP (node : Element) (xs : Nodes)
    (h : xs.firstP.isSome = true) (x : JSString) (hx : x ∈ (Nodes.single node).annotations) :
    x ∈ (xs.insertAfterFirstP node).annotations := by
  induction xs with
  | nil => simp [Nodes.firstP] at h
  | text d rest ih =>
    simp only [Nodes.firstP] at h
    simpa [Nodes.insertAfterFirstP, Nodes.annotations] using ih h
  | elem t c a k rest ihk ih =>
    by_cases ht : t = "p"
    · simp only [Nodes.single, Nodes.annotations, List.append_nil] at hx
      simp only [Nodes.insertAfterFirstP, ht, if_true, Nodes.annotations]
      simp only [List.mem_append] at hx ⊢
      tauto
    · by_cases hk : k.firstP.isSome = true
      · have := ihk hk
        simp only [Nodes.insertAfterFirstP, ht, hk, if_true, if_false, Nodes.annotations,
          List.mem_append]
        tauto
      · have hrest : rest.firstP.isSome = true := by
          simp only [Nodes.firstP, ht, if_false] at h
          cases hkf : k.firstP with
          | some p => simp [hkf] at hk
          | none => simpa [hkf] using h
        have := ih hrest
        simp only [Nodes.insertAfterFirstP, ht, hk, if_false, Nodes.annotations,
          List.mem_append]
        tauto

/-- Reading an attribute back after `setAttribute`. -/
theorem lookup_setAttr (name : String) (value : JSString) (attrs : List (String × JSString)) :
    (setAttr name value attrs).lookup name = some value := by
  induction attrs with
  | nil => simp [setAttr, List.lookup]
  | cons kv rest ih =>
    obtain ⟨k, v⟩ := kv
    by_cases hk : k = name
    · simp [setAttr, hk, List.lookup]
    · have hne : (name == k) = false := by
        simpa using fun h : name = k => hk h.symm
      simp [setAttr, hk, List.lookup, hne, ih]

/-- The element after a successful continuation of `processMessageElement`:
one more annotation node, labelled with the translation, and the marker set. -/
theorem processMessageElementResume_success (element : Element) (translation : TranslationResult)
    (s : JSString) (htr : translation.translated = .str s) (hs : s ≠ []) :
    (processMessageElementResume element (.ok (some translation))).annotations.length =
      element.annotations.length + 1 ∧
    annotationLabel s ∈ (processMessageElementResume element (.ok (some translation))).annotations ∧
    (processMessageElementResume element (.ok (some translation))).getAttribute "data-translated" =
      some (utf16 "true") := by
  have htruthy : (JSValue.str s).truthy = true := JSValue.truthy_str s hs
  have hdiv := annotations_single_translationDiv (.str s)
  simp only [JSValue.toStr] at hdiv
  unfold processMessageElementResume
  simp only [htr, htruthy, if_true]
  refine ⟨?_, ?_, ?_⟩
  · by_cases hp : element.querySelectorP.isSome = true
    · have := Nodes.length_annotations_insertAfterFirstP (translationDiv (.str s)) element.kids hp
      simpa [hp, Element.setAttribute, Element.annotations, hdiv] using this
    · simp [hp, Element.setAttribute, Element.annotations, Nodes.annotations_append, hdiv]
  · by_cases hp : element.querySelectorP.isSome = true
    · have := Nodes.mem_annotations_insertAfterFirstP (translationDiv (.str s)) element.kids hp
        (annotationLabel s) (by simp [hdiv, annotationLabel])
      simpa [hp, Element.setAttribute, Element.annotations] using this
    · simp [hp, Element.setAttribute, Element.annotations, Nodes.annotations_append, hdiv,
        annotationLabel]
  · by_cases hp : element.querySelectorP.isSome = true <;>
      simp [hp, Element.getAttribute, Element.setAttribute, lookup_setAttr]

/-- What `translateText(text, 'en', 'zh')` settles to is what the message
pipeline resumes with. -/
theorem settle_eq_translateText (cfg : Config) (page : Page) (text : JSString)
    (net : Request → FetchOutcome) (hblank : trim text ≠ []) :
    settle (some { text := text, fromLang := utf16 "en", toLang := utf16 "zh" }) net =
      (translateText cfg page text (utf16 "en") (some (utf16 "zh")) net).result := by
  have hstart := translateTextStart_of_not_blank cfg page text (utf16 "en") (some (utf16 "zh"))
    hblank
  have hauto : utf16 "en" ≠ utf16 "auto" := by decide
  simp [settle, translateText, hstart, detectRoute, hauto, truthyArg, zh_ne_nil]

/-- A marked element is left alone. -/
theorem processMessageElement_marked (cfg : Config) (page : Page) (element : Element)
    (net : Request → FetchOutcome) (h : element.hasAttribute "data-translated" = true) :
    (processMessageElement cfg page element net).requests = [] ∧
    (processMessageElement cfg page element net).element = element := by
  simp [processMessageElement, processMessageElementStart, h]

/-- C7: for a message element with no `data-translated` attribute whose text
is Latin-only with at least 2 characters, and a backend for which
`translateText` returns a non-empty translated string `s`, one completed run
of `processMessageElement` sends one request (en → zh), adds exactly one
annotation node (class `message-translation`), whose text is the label
holding `s`, and sets `data-translated` to 'true'; a second run on the
element, started after the first has completed, sends no request and leaves
the element as it is. -/
theorem processMessageElement_once (cfg : Config) (page : Page) (element : Element)
    (net : Request → FetchOutcome) (translation : TranslationResult) (s : JSString)
    (hunmarked : element.hasAttribute "data-translated" = false)
    (hlen : 2 ≤ (messageText element).length)
    (hlatin : hasEnglish (messageText element) = true)
    (hcjk : hasChinese (messageText element) = false)
    (hback : (translateText cfg page (messageText element) (utf16 "en") (some (utf16 "zh"))
      net).result = .ok (some translation))
    (htr : translation.translated = .str s) (hs : s ≠ []) :
    (processMessageElement cfg page element net).requests =
      [{ text := messageText element, fromLang := utf16 "en", toLang := utf16 "zh" }] ∧
    (processMessageElement cfg page element net).element.annotations.length =
      element.annotations.length + 1 ∧
    annotationLabel s ∈ (processMessageElement cfg page element net).element.annotations ∧
    (element.annotations = [] →
      (processMessageElement cfg page element net).element.annotations = [annotationLabel s]) ∧
    (processMessageElement cfg page element net).element.getAttribute "data-translated" =
      some (utf16 "true") ∧
    (processMessageElement cfg (processMessageElement cfg page element net).page
      (processMessageElement cfg page element net).element net).requests = [] ∧
    (processMessageElement cfg (processMessageElement cfg page element net).page
      (processMessageElement cfg page element net).element net).element =
      (processMessageElement cfg page element net).element := by
  have hstart := processMessageElementStart_latin_only cfg page element hunmarked hlen hlatin hcjk
  have hsettle := settle_eq_translateText cfg page (messageText element) net
    (trim_ne_nil_of_hasEnglish _ hlatin)
  rw [hback] at hsettle
  have helem : (processMessageElement cfg page element net).element =
      processMessageElementResume element (.ok (some translation)) := by
    simp [processMessageElement, hstart, hsettle]
  obtain ⟨hlen1, hmem, hattr⟩ := processMessageElementResume_success element translation s htr hs
  have hmarked : (processMessageElement cfg page element net).element.hasAttribute
      "data-translated" = true := by
    rw [helem]
    simp only [Element.getAttribute] at hattr
    simp [Element.hasAttribute, hattr]
  have hsecond := processMessageElement_marked cfg (processMessageElement cfg page element net).page
    (processMessageElement cfg page element net).element net hmarked
  refine ⟨by simp [processMessageElement, hstart], ?_, ?_, ?_, ?_, hsecond.1, hsecond.2⟩
  · rw [helem]
    exact hlen1
  · rw [helem]
    exact hmem
  · intro hnone
    rw [helem]
    rw [hnone] at hlen1
    obtain ⟨x, hx⟩ := List.length_eq_one.mp (by simpa using hlen1)
    rw [hx] at hmem ⊢
    simp only [List.mem_singleton] at hmem
    rw [hmem]
  · rw [helem]
    exact hattr

/-- Witness for C7 on the message "Thank you for your order": one annotation
with the translated string, the marker set, and nothing more on a second
run. -/
theorem processMessageElement_once_witness :
    thankYouMessage.annotations = [] ∧
    (processMessageElement CONFIG Page.initial thankYouMessage thanksBackend).element.annotations =
      [annotationLabel (utf16 "感谢您的订单")] ∧
    (processMessageElement CONFIG Page.initial thankYouMessage
      thanksBackend).element.getAttribute "data-translated" = some (utf16 "true") ∧
    (processMessageElement CONFIG
      (processMessageElement CONFIG Page.initial thankYouMessage thanksBackend).page
      (processMessageElement CONFIG Page.initial thankYouMessage thanksBackend).element
      thanksBackend).requests = [] ∧
    (processMessageElement CONFIG
      (processMessageElement CONFIG Page.initial thankYouMessage thanksBackend).page
      (processMessageElement CONFIG Page.initial thankYouMessage thanksBackend).element
      thanksBackend).element =
      (processMessageElement CONFIG Page.initial thankYouMessage thanksBackend).element :=
  have h := processMessageElement_once CONFIG Page.initial thankYouMessage thanksBackend
    { original := utf16 "Thank you for your order", translated := .str (utf16 "感谢您的订单"),
      fromLang := .str (utf16 "en"), toLang := .str (utf16 "zh") }
    (utf16 "感谢您的订单") (by decide) (by decide) (by decide) (by decide) rfl rfl (by decide)
  ⟨by decide, h.2.2.2.1 (by decide), h.2.2.2.2.1, h.2.2.2.2.2.1, h.2.2.2.2.2.2⟩

/-! ## Re-observation of a message element -/

/-- C8 fails on the code: when the message "Thank you for your order" is
discovered twice and the second `processMessageElement` call starts before
the first translation has resolved, both calls pass the `data-translated`
check, two requests are sent and two annotation nodes are inserted. -/
theorem processMessageElement_overlapped_duplicates :
    thankYouMessage.hasAttribute "data-translated" = false ∧
    thankYouMessage.annotations = [] ∧
    (processMessageElementOverlapped CONFIG Page.initial thankYouMessage thanksBackend).requests =
      [{ text := utf16 "Thank you for your order", fromLang := utf16 "en", toLang := utf16 "zh" },
       { text := utf16 "Thank you for your order", fromLang := utf16 "en", toLang := utf16 "zh" }] ∧
    (processMessageElementOverlapped CONFIG Page.initial thankYouMessage
      thanksBackend).element.annotations =
      [annotationLabel (utf16 "感谢您的订单"), annotationLabel (utf16 "感谢您的订单")] := by
  decide

/-- C9: for an unmarked message element on a translate route (Latin-only
text of at least 2 characters), if `translateText` returns the failure
outcome `null` then `processMessageElement` leaves the element as it was (no
annotation inserted, `data-translated` not set), and a later call on the
element, against any backend, sends the translation request again. -/
theorem processMessageElement_failure_retry (cfg : Config) (page : Page) (element : Element)
    (net later : Request → FetchOutcome)
    (hunmarked : element.hasAttribute "data-translated" = false)
    (hlen : 2 ≤ (messageText element).length)
    (hlatin : hasEnglish (messageText element) = true)
    (hcjk : hasChinese (messageText element) = false)
    (hfail : (translateText cfg page (messageText element) (utf16 "en") (some (utf16 "zh"))
      net).result = .ok none) :
    (processMessageElement cfg page element net).requests =
      [{ text := messageText element, fromLang := utf16 "en", toLang := utf16 "zh" }] ∧
    (processMessageElement cfg page element net).element = element ∧
    (processMessageElement cfg page element net).element.annotations = element.annotations ∧
    (processMessageElement cfg page element net).element.hasAttribute "data-translated" = false ∧
    (processMessageElement cfg (processMessageElement cfg page element net).page
      (processMessageElement cfg page element net).element later).requests =
      [{ text := messageText element, fromLang := utf16 "en", toLang := utf16 "zh" }] := by
  have hstart := processMessageElementStart_latin_only cfg page element hunmarked hlen hlatin hcjk
  have hsettle := settle_eq_translateText cfg page (messageText element) net
    (trim_ne_nil_of_hasEnglish _ hlatin)
  rw [hfail] at hsettle
  have helem : (processMessageElement cfg page element net).element = element := by
    simp [processMessageElement, hstart, hsettle, processMessageElementResume]
  have hpage : (processMessageElement cfg page element net).page = page := by
    simp [processMessageElement, hstart]
  refine ⟨by simp [processMessageElement, hstart], helem, by rw [helem], by rw [helem, hunmarked],
    ?_⟩
  rw [helem, hpage]
  simp [processMessageElement, hstart]

/-- Witness for C9: the message "Thank you for your order" against a backend
that is offline and then back. -/
theorem processMessageElement_failure_retry_witness :
    (processMessageElement CONFIG Page.initial thankYouMessage offlineBackend).element =
      thankYouMessage ∧
    (processMessageElement CONFIG
      (processMessageElement CONFIG Page.initial thankYouMessage offlineBackend).page
      (processMessageElement CONFIG Page.initial thankYouMessage offlineBackend).element
      thanksBackend).requests =
      [{ text := utf16 "Thank you for your order", fromLang := utf16 "en", toLang := utf16 "zh" }] :=
  have h := processMessageElement_failure_retry CONFIG Page.initial thankYouMessage offlineBackend
    thanksBackend (by decide) (by decide) (by decide) (by decide) rfl
  ⟨h.2.1, h.2.2.2.2⟩

/-! ## Rebinding the input listener -/

/-- C10 fails on the code: after `setupInputListener(A)` followed by
`setupInputListener(B)` for distinct textboxes, B is the current textbox with
one input and one blur listener, and A has lost its blur listener, its border
and its padding; but the input listener of A, registered as the debounced
wrapper and removed as `handleInput`, is still registered, and the inline
`transition` style set by the binding is still there. -/
theorem setupInputListener_rebind_keeps_old_listener :
    reboundPage.currentTextarea = some 2 ∧
    (reboundPage.textareas 2).inputListeners = [.debounced 1 600] ∧
    (reboundPage.textareas 2).blurListeners = [.hideTranslation] ∧
    (reboundPage.textareas 1).blurListeners = [] ∧
    (reboundPage.textareas 1).borderLeft = "" ∧
    (reboundPage.textareas 1).paddingLeft = "" ∧
    (reboundPage.textareas 1).inputListeners = [.debounced 0 600] ∧
    (reboundPage.textareas 1).transition = "border-color 0.3s" := by
  decide

/-! ## Properties of the timers and of the debounced handler -/

/-- A text that is not blank is still not blank once trimmed. -/
theorem trim_trim_ne_nil (text : JSString) (h : trim text ≠ []) : trim (trim text) ≠ [] := by
  have hz : (text.dropWhile isWhiteSpace).reverse.dropWhile isWhiteSpace ≠ [] := by
    intro h0
    exact h (by simp [trim, h0])
  have hhead := List.head_dropWhile_not isWhiteSpace (text.dropWhile isWhiteSpace).reverse hz
  refine trim_ne_nil (trim text) _ ?_ hhead
  exact List.mem_reverse.mpr (List.head_mem hz)

/-- The requests of one call of `handleInput`. -/
theorem handleInput_requests (cfg : Config) (p : Page) (target : Nat)
    (net : Request → FetchOutcome) :
    (handleInput cfg p target net).requests = inputRequests cfg (p.textareas target).value := by
  unfold handleInput handleInputStart inputRequests
  by_cases hb : trim (p.textareas target).value = []
  · simp [hb]
  · have hlen : 0 < (trim (p.textareas target).value).length := List.length_pos.mpr hb
    have htrim : trim (trim (p.textareas target).value) ≠ [] := trim_trim_ne_nil _ hb
    cases ht : cfg.translateInput
    · simp [hb, ht]
    · have hstart := translateTextStart_of_not_blank cfg p (trim (p.textareas target).value)
        (utf16 "auto") none htrim
      simp [hb, ht, hlen, hstart]

/-- How the synchronous prefix of `handleInput` can end. -/
theorem handleInputStart_cases (cfg : Config) (p : Page) (target : Nat) :
    handleInputStart cfg p target = (hideTranslation p, .done) ∨
    (∃ text, handleInputStart cfg p target = (hideTranslation p, .awaiting text none)) ∨
    ∃ text req, handleInputStart cfg p target = (p, .awaiting text (some req)) := by
  unfold handleInputStart
  simp only []
  by_cases hcond : (decide ((trim (p.textareas target).value).length > 0) &&
      cfg.translateInput) = true
  · rw [if_pos hcond]
    unfold translateTextStart
    by_cases hb : ((trim (p.textareas target).value).isEmpty ||
        (trim (trim (p.textareas target).value)).length == 0) = true
    · right; left
      exact ⟨_, by rw [if_pos hb]⟩
    · right; right
      exact ⟨_, _, by rw [if_neg hb]⟩
  · left
    rw [if_neg hcond]

/-- The page after one call of `handleInput`: hidden, untouched, or showing
a translation. -/
theorem handleInput_page (cfg : Config) (p : Page) (target : Nat)
    (net : Request → FetchOutcome) :
    (handleInput cfg p target net).page = hideTranslation p ∨
    (handleInput cfg p target net).page = p ∨
    ∃ text, (handleInput cfg p target net).page = showTranslation p text false := by
  unfold handleInput
  rcases handleInputStart_cases cfg p target with h | ⟨text, h⟩ | ⟨text, req, h⟩
  · left
    rw [h]
  · left
    rw [h]
    rfl
  · rw [h]
    simp only []
    cases hs : settle (some req) net with
    | error e => right; left; simp [handleInputResume]
    | ok r =>
      cases r with
      | none => right; left; simp [handleInputResume]
      | some res => right; right; exact ⟨res.translated, by simp [handleInputResume]⟩

/-- Doing nothing is quiet. -/
theorem Quiet.refl (p : Page) : Quiet p p :=
  ⟨rfl, rfl, rfl, Or.inl ⟨rfl, rfl⟩⟩

/-- The function `hideTranslation` is quiet. -/
theorem quiet_hideTranslation (p : Page) : Quiet p (hideTranslation p) := by
  unfold hideTranslation
  cases p.translationDisplay <;> exact ⟨rfl, rfl, rfl, Or.inl ⟨rfl, rfl⟩⟩

/-- The function `showTranslation` is quiet. -/
theorem quiet_showTranslation (p : Page) (text : JSValue) (isError : Bool) :
    Quiet p (showTranslation p text isError) := by
  unfold showTranslation
  simp only []
  split
  · exact ⟨rfl, rfl, rfl, Or.inl ⟨rfl, rfl⟩⟩
  · exact ⟨rfl, rfl, rfl, Or.inr ⟨_, rfl, rfl⟩⟩

/-- A call of `handleInput` is quiet. -/
theorem quiet_handleInput (cfg : Config) (p : Page) (target : Nat)
    (net : Request → FetchOutcome) : Quiet p (handleInput cfg p target net).page := by
  rcases handleInput_page cfg p target net with h | h | ⟨text, h⟩
  · rw [h]; exact quiet_hideTranslation p
  · rw [h]; exact Quiet.refl p
  · rw [h]; exact quiet_showTranslation p text false

/-- A quiet step keeps the pending debounce timers. -/
theorem Quiet.inputTimers {p q : Page} (h : Quiet p q) : q.inputTimers = p.inputTimers := by
  rcases h.timers with ⟨ht, _⟩ | ⟨due, ht, _⟩
  · simp [Page.inputTimers, ht]
  · simp [Page.inputTimers, ht, List.filter_append, Timer.isInput]

/-- A quiet step keeps the timer handles tidy. -/
theorem Quiet.tidy {p q : Page} (h : Quiet p q) (hp : p.Tidy) : q.Tidy := by
  rcases h.timers with ⟨ht, hn⟩ | ⟨due, ht, hn⟩
  · unfold Page.Tidy
    rw [ht, hn]
    exact hp
  · obtain ⟨hlt, huniq⟩ := hp
    refine ⟨?_, ?_⟩
    · intro tm htm
      rw [ht] at htm
      rw [hn]
      rcases List.mem_append.mp htm with hmem | hmem
      · exact Nat.lt_succ_of_lt (hlt tm hmem)
      · simp only [List.mem_singleton] at hmem
        subst hmem
        exact Nat.lt_succ_self _
    · intro tm htm hinput other hother hid
      rw [ht] at htm hother
      have htm' : tm ∈ p.timers := by
        rcases List.mem_append.mp htm with hmem | hmem
        · exact hmem
        · simp only [List.mem_singleton] at hmem
          subst hmem
          simp [Timer.isInput] at hinput
      rcases List.mem_append.mp hother with hmem | hmem
      · exact huniq tm htm' hinput other hmem hid
      · simp only [List.mem_singleton] at hmem
        subst hmem
        have := hlt tm htm'
        simp only at hid
        omega

/-- A quiet step adds at most the weight of one auto-hide timer. -/
theorem Quiet.weight {p q : Page} (h : Quiet p q) : q.weight ≤ p.weight + 1 := by
  rcases h.timers with ⟨ht, _⟩ | ⟨due, ht, _⟩
  · simp [Page.weight, ht]
  · simp [Page.weight, ht, Timer.weight]

/-- The timer that fires first is one of the list. -/
theorem earliest_mem (l : List Timer) (x : Timer) (h : earliest l = some x) : x ∈ l := by
  induction l generalizing x with
  | nil => simp [earliest] at h
  | cons tm rest ih =>
    unfold earliest at h
    cases hr : earliest rest with
    | none =>
      simp only [hr] at h
      cases h
      exact List.mem_cons_self _ _
    | some best =>
      simp only [hr] at h
      split at h
      · cases h
        exact List.mem_cons_self _ _
      · cases h
        exact List.mem_cons_of_mem _ (ih _ hr)

/-- No timer of the list is due before the one that fires first. -/
theorem earliest_due_le (l : List Timer) (x : Timer) (h : earliest l = some x) :
    ∀ y ∈ l, x.due ≤ y.due := by
  induction l generalizing x with
  | nil => simp [earliest] at h
  | cons tm rest ih =>
    unfold earliest at h
    cases hr : earliest rest with
    | none =>
      simp only [hr] at h
      cases h
      have hnil : rest = [] := by
        cases rest with
        | nil => rfl
        | cons a as =>
          unfold earliest at hr
          cases h2 : earliest as <;> simp only [h2] at hr
          · cases hr
          · split at hr <;> cases hr
      intro y hy
      rw [hnil] at hy
      simp only [List.mem_singleton] at hy
      rw [hy]
    | some best =>
      simp only [hr] at h
      have hbest := ih best hr
      by_cases hb : tm.before best = true
      · rw [if_pos hb] at h
        cases h
        have hle : tm.due ≤ best.due := by
          simp only [Timer.before, Bool.or_eq_true, Bool.and_eq_true, decide_eq_true_eq,
            beq_iff_eq] at hb
          omega
        intro y hy
        rcases List.mem_cons.mp hy with rfl | hy
        · exact le_refl _
        · exact le_trans hle (hbest y hy)
      · rw [if_neg hb] at h
        cases h
        have hle : x.due ≤ tm.due := by
          simp only [Timer.before, Bool.or_eq_true, Bool.and_eq_true, decide_eq_true_eq,
            beq_iff_eq, not_or, not_and, not_lt, not_le] at hb
          omega
        intro y hy
        rcases List.mem_cons.mp hy with rfl | hy
        · exact hle
        · exact hbest y hy

/-- A list with a timer has one that fires first. -/
theorem earliest_ne_none (l : List Timer) (x : Timer) (hx : x ∈ l) : earliest l ≠ none := by
  cases l with
  | nil => cases hx
  | cons tm rest =>
    unfold earliest
    cases earliest rest with
    | none => simp
    | some best =>
      simp only []
      split <;> simp

/-- The timer that fires next is pending and due. -/
theorem nextDue_mem (p : Page) (deadline : Nat) (x : Timer) (h : p.nextDue deadline = some x) :
    x ∈ p.timers ∧ x.due ≤ deadline := by
  have := earliest_mem _ x h
  simpa using this

/-- The state at the moment a timer fires keeps the pending debounce timers
that do not share its handle. -/
theorem inputTimers_startTimer (p : Page) (x : Timer)
    (h : ∀ tm ∈ p.inputTimers, tm.id ≠ x.id) : (p.startTimer x).inputTimers = p.inputTimers := by
  unfold Page.inputTimers Page.startTimer
  simp only []
  rw [List.filter_filter]
  apply List.filter_congr
  intro tm htm
  by_cases hi : tm.isInput = true
  · have : tm.id ≠ x.id := h tm (by simp [Page.inputTimers, htm, hi])
    simp [hi, this]
  · simp [hi]

/-- The state at the moment a timer fires has tidy handles. -/
theorem tidy_startTimer (p : Page) (x : Timer) (hp : p.Tidy) : (p.startTimer x).Tidy := by
  obtain ⟨hlt, huniq⟩ := hp
  refine ⟨?_, ?_⟩
  · intro tm htm
    exact hlt tm (List.mem_of_mem_filter htm)
  · intro tm htm hinput other hother hid
    exact huniq tm (List.mem_of_mem_filter htm) hinput other (List.mem_of_mem_filter hother) hid

/-- Removing a member from a list of timers removes at least its weight. -/
theorem weight_filter_le (l : List Timer) (x : Timer) (hx : x ∈ l) :
    ((l.filter fun other => other.id != x.id).map Timer.weight).sum + x.weight ≤
      (l.map Timer.weight).sum := by
  induction l with
  | nil => cases hx
  | cons tm rest ih =>
    have hsub : ((rest.filter fun other => other.id != x.id).map Timer.weight).sum ≤
        (rest.map Timer.weight).sum := by
      apply List.Sublist.sum_le_sum
      · exact (List.filter_sublist _).map _
      · intro a _
        exact Nat.zero_le _
    by_cases hid : tm.id = x.id
    · rcases List.mem_cons.mp hx with rfl | hrest
      · simp [List.filter_cons]
        omega
      · have := ih hrest
        simp [List.filter_cons, hid]
        omega
    · rcases List.mem_cons.mp hx with rfl | hrest
      · exact absurd rfl hid
      · have := ih hrest
        simp [List.filter_cons, hid]
        omega

/-- The weight of a timer is 1 or 2. -/
theorem Timer.weight_pos (tm : Timer) : 1 ≤ tm.weight := by
  unfold Timer.weight
  split <;> omega

/-- A timer that is not a debounce timer fires: no call of `handleInput`, no
request; the textboxes, the debounce handle and the other debounce timers
stay, the handles stay tidy, and the total weight goes down. -/
theorem fireTimer_other (cfg : Config) (net : Request → FetchOutcome) (p : Page) (x : Timer)
    (hx : x ∈ p.timers) (hp : p.Tidy) (hother : x.isInput = false) :
    (fireTimer cfg net p x).2 = [] ∧
    (fireTimer cfg net p x).1.textareas = p.textareas ∧
    (fireTimer cfg net p x).1.debounceTimer = p.debounceTimer ∧
    (fireTimer cfg net p x).1.inputTimers = p.inputTimers ∧
    (fireTimer cfg net p x).1.Tidy ∧
    (fireTimer cfg net p x).1.now = max p.now x.due ∧
    (fireTimer cfg net p x).1.weight + 1 ≤ p.weight := by
  have hids : ∀ tm ∈ p.inputTimers, tm.id ≠ x.id := by
    intro tm htm hid
    simp only [Page.inputTimers, List.mem_filter] at htm
    have := hp.2 tm htm.1 htm.2 x hx hid.symm
    rw [this] at hother
    rw [hother] at htm
    exact Bool.false_ne_true htm.2
  have hstart := inputTimers_startTimer p x hids
  have htidy := tidy_startTimer p x hp
  have hw : (p.startTimer x).weight + x.weight ≤ p.weight := weight_filter_le p.timers x hx
  have key : ∀ q : Page, Quiet (p.startTimer x) q → q.weight + 1 ≤ (p.startTimer x).weight + x.weight →
      q.textareas = p.textareas ∧ q.debounceTimer = p.debounceTimer ∧
      q.inputTimers = p.inputTimers ∧ q.Tidy ∧ q.now = max p.now x.due ∧ q.weight + 1 ≤ p.weight := by
    intro q hq hqw
    refine ⟨hq.textareas, hq.debounceTimer, hq.inputTimers.trans hstart, hq.tidy htidy, hq.now, ?_⟩
    omega
  cases htask : x.task with
  | hideTranslation =>
    have hf : fireTimer cfg net p x = (hideTranslation (p.startTimer x), []) := by
      unfold fireTimer
      rw [htask]
    rw [hf]
    refine ⟨rfl, key _ (quiet_hideTranslation _) ?_⟩
    have : (hideTranslation (p.startTimer x)).weight = (p.startTimer x).weight := by
      unfold hideTranslation
      cases (p.startTimer x).translationDisplay <;> rfl
    have hx1 := Timer.weight_pos x
    dsimp only
    omega
  | showEnabledHint =>
    have hf : fireTimer cfg net p x =
        (showTranslation (p.startTimer x) (.str enabledHint) false, []) := by
      unfold fireTimer
      rw [htask]
    rw [hf]
    refine ⟨rfl, key _ (quiet_showTranslation _ _ _) ?_⟩
    have hq := (quiet_showTranslation (p.startTimer x) (.str enabledHint) false).weight
    have hx2 : x.weight = 2 := by simp [Timer.weight, htask]
    dsimp only
    omega
  | applyHandleInput target =>
    simp [Timer.isInput, htask] at hother

/-- Time passes while no debounce timer is due: nothing is observed, and the
textboxes, the debounce handle and the pending debounce timers stay. -/
theorem runTimersFuel_idle (cfg : Config) (net : Request → FetchOutcome) (fuel deadline : Nat)
    (p : Page) (hp : p.Tidy) (hlate : ∀ tm ∈ p.inputTimers, deadline < tm.due) :
    (runTimersFuel cfg net fuel deadline p).2 = [] ∧
    (runTimersFuel cfg net fuel deadline p).1.textareas = p.textareas ∧
    (runTimersFuel cfg net fuel deadline p).1.debounceTimer = p.debounceTimer ∧
    (runTimersFuel cfg net fuel deadline p).1.inputTimers = p.inputTimers ∧
    (runTimersFuel cfg net fuel deadline p).1.Tidy ∧
    (runTimersFuel cfg net fuel deadline p).1.now = max p.now deadline := by
  induction fuel generalizing p with
  | zero => exact ⟨rfl, rfl, rfl, rfl, hp, rfl⟩
  | succ fuel ih =>
    unfold runTimersFuel
    cases hnext : p.nextDue deadline with
    | none => exact ⟨rfl, rfl, rfl, rfl, hp, rfl⟩
    | some x =>
      simp only []
      obtain ⟨hx, hdue⟩ := nextDue_mem p deadline x hnext
      have hother : x.isInput = false := by
        by_contra hin
        have hin' : x.isInput = true := by simpa using hin
        have := hlate x (by simp [Page.inputTimers, hx, hin'])
        omega
      obtain ⟨hobs, hta, hdb, hit, htidy, hnow, _⟩ := fireTimer_other cfg net p x hx hp hother
      have hlate' : ∀ tm ∈ (fireTimer cfg net p x).1.inputTimers, deadline < tm.due := by
        rw [hit]
        exact hlate
      obtain ⟨hobs2, hta2, hdb2, hit2, htidy2, hnow2⟩ := ih (fireTimer cfg net p x).1 htidy hlate'
      refine ⟨by rw [hobs, hobs2]; rfl, hta2.trans hta, hdb2.trans hdb, hit2.trans hit, htidy2, ?_⟩
      rw [hnow2, hnow]
      omega

/-- A pending timer weighs no more than all pending timers together. -/
theorem weight_le_of_mem (p : Page) (x : Timer) (hx : x ∈ p.timers) : x.weight ≤ p.weight := by
  have := weight_filter_le p.timers x hx
  unfold Page.weight
  omega

/-- The pending debounce timers at the moment a timer fires: those with
another handle. -/
theorem inputTimers_startTimer_filter (p : Page) (x : Timer) :
    (p.startTimer x).inputTimers = p.inputTimers.filter fun other => other.id != x.id := by
  unfold Page.inputTimers Page.startTimer
  simp only []
  rw [List.filter_filter, List.filter_filter]
  apply List.filter_congr
  intro tm _
  exact Bool.and_comm _ _

/-- Time passes beyond the due time of the one pending debounce timer: with
fuel for every pending timer, exactly one call of `handleInput` is observed,
at that due time and for the target of the timer, followed by its requests. -/
theorem runTimersFuel_fires (cfg : Config) (net : Request → FetchOutcome) (fuel deadline : Nat)
    (p : Page) (tm : Timer) (target : Nat) (hp : p.Tidy) (hone : p.inputTimers = [tm])
    (htask : tm.task = .applyHandleInput target) (hnow : p.now ≤ tm.due)
    (hdue : tm.due ≤ deadline) (hfuel : p.weight ≤ fuel) :
    (runTimersFuel cfg net fuel deadline p).2 =
      .handled tm.due target ::
        (inputRequests cfg (p.textareas target).value).map (Obs.sent tm.due) := by
  have hmem : ∀ q : Page, q.inputTimers = [tm] → tm ∈ q.timers := by
    intro q hq
    have : tm ∈ q.inputTimers := by rw [hq]; exact List.mem_singleton_self _
    exact List.mem_of_mem_filter this
  induction fuel generalizing p with
  | zero =>
    have h1 := weight_le_of_mem p tm (hmem p hone)
    have h2 := Timer.weight_pos tm
    omega
  | succ fuel ih =>
    unfold runTimersFuel
    have htm := hmem p hone
    cases hnext : p.nextDue deadline with
    | none =>
      exfalso
      refine earliest_ne_none _ tm ?_ hnext
      simp [htm, hdue]
    | some x =>
      simp only []
      obtain ⟨hx, hxdue⟩ := nextDue_mem p deadline x hnext
      by_cases hin : x.isInput = true
      · have hxtm : x = tm := by
          have : x ∈ p.inputTimers := by simp [Page.inputTimers, hx, hin]
          rw [hone] at this
          exact List.mem_singleton.mp this
        subst hxtm
        have hf : fireTimer cfg net p x =
            ((handleInput cfg (p.startTimer x) target net).page,
              .handled (p.startTimer x).now target ::
                (handleInput cfg (p.startTimer x) target net).requests.map
                  (Obs.sent (p.startTimer x).now)) := by
          unfold fireTimer
          rw [htask]
        have hnow1 : (p.startTimer x).now = x.due := by
          simp only [Page.startTimer]
          omega
        have hquiet := quiet_handleInput cfg (p.startTimer x) target net
        have hnone : (handleInput cfg (p.startTimer x) target net).page.inputTimers = [] := by
          rw [hquiet.inputTimers, inputTimers_startTimer_filter, hone]
          simp
        have hidle := runTimersFuel_idle cfg net fuel deadline
          (handleInput cfg (p.startTimer x) target net).page
          (hquiet.tidy (tidy_startTimer p x hp)) (by rw [hnone]; intro y hy; cases hy)
        rw [hf]
        simp only []
        rw [hidle.1, handleInput_requests, hnow1]
        simp [Page.startTimer]
      · have hother : x.isInput = false := by simpa using hin
        obtain ⟨hobs, hta, _, hit, htidy, hnowq, hw⟩ := fireTimer_other cfg net p x hx hp hother
        have hle : x.due ≤ tm.due :=
          earliest_due_le _ x hnext tm (by simp [htm, hdue])
        have := ih (fireTimer cfg net p x).1 htidy (hit.trans hone) (by rw [hnowq]; omega)
          (by omega)
        rw [hobs, this, hta]
        rfl

/-- The pending timers weigh at most two each. -/
theorem weight_le_two_mul_length (p : Page) : p.weight ≤ 2 * p.timers.length := by
  unfold Page.weight
  induction p.timers with
  | nil => simp
  | cons tm rest ih =>
    have : tm.weight ≤ 2 := by
      unfold Timer.weight
      split <;> omega
    simp only [List.map_cons, List.sum_cons, List.length_cons]
    omega

/-- The debounced handler leaves exactly one debounce timer pending: the one
it arms, due `delay` after the call, held in `debounceTimer`. -/
theorem debounce_arms (p : Page) (delay target : Nat) (hp : p.Tidy)
    (htracked : ∀ tm ∈ p.inputTimers, p.debounceTimer = some tm.id) :
    (debounce p delay target).inputTimers =
      [{ id := p.nextTimer, due := p.now + delay, task := .applyHandleInput target }] ∧
    (debounce p delay target).debounceTimer = some p.nextTimer ∧
    (debounce p delay target).Tidy ∧
    (debounce p delay target).textareas = p.textareas ∧
    (debounce p delay target).now = p.now := by
  obtain ⟨hlt, _⟩ := hp
  have hsub : ∀ tm ∈ (p.clearTimeout p.debounceTimer).timers, tm ∈ p.timers := by
    intro tm htm
    unfold Page.clearTimeout at htm
    cases hd : p.debounceTimer with
    | none => simpa [hd] using htm
    | some id =>
      simp only [hd] at htm
      exact List.mem_of_mem_filter htm
  have hcleared : ∀ tm ∈ (p.clearTimeout p.debounceTimer).timers, tm.isInput = false := by
    intro tm htm
    by_contra hin
    have hin' : tm.isInput = true := by simpa using hin
    have htr := htracked tm (by simp [Page.inputTimers, hsub tm htm, hin'])
    unfold Page.clearTimeout at htm
    rw [htr] at htm
    simp at htm
  have hfields : (p.clearTimeout p.debounceTimer).nextTimer = p.nextTimer ∧
      (p.clearTimeout p.debounceTimer).now = p.now ∧
      (p.clearTimeout p.debounceTimer).textareas = p.textareas := by
    unfold Page.clearTimeout
    cases p.debounceTimer <;> exact ⟨rfl, rfl, rfl⟩
  obtain ⟨hn, hnow, hta⟩ := hfields
  have hfilter : (p.clearTimeout p.debounceTimer).timers.filter Timer.isInput = [] := by
    rw [List.filter_eq_nil_iff]
    intro tm htm
    simp [hcleared tm htm]
  refine ⟨?_, ?_, ⟨?_, ?_⟩, ?_, ?_⟩
  · simp [debounce, Page.setTimeout, Page.inputTimers, List.filter_append, hfilter, hn, hnow,
      Timer.isInput]
  · simp [debounce, Page.setTimeout, hn]
  · intro tm htm
    simp only [debounce, Page.setTimeout, List.mem_append, List.mem_singleton] at htm ⊢
    rcases htm with h | h
    · have := hlt tm (hsub tm h)
      omega
    · subst h
      simp only [hn]
      omega
  · intro tm htm hin other hoth hid
    simp only [debounce, Page.setTimeout, List.mem_append, List.mem_singleton] at htm hoth
    rcases htm with h | h
    · rw [hcleared tm h] at hin
      exact absurd hin Bool.false_ne_true
    · rcases hoth with h2 | h2
      · have := hlt other (hsub other h2)
        subst h
        simp only [hn] at hid
        omega
      · rw [h, h2]
  · simp [debounce, Page.setTimeout, hta]
  · simp [debounce, Page.setTimeout, hnow]

/-- An input event on a textbox whose only input listener is a debounced
handler runs that handler. -/
theorem dispatchInput_debounced (cfg : Config) (net : Request → FetchOutcome) (p : Page)
    (target closure delay : Nat)
    (h : (p.textareas target).inputListeners = [.debounced closure delay]) :
    dispatchInput cfg net p target = (debounce p delay target, []) := by
  simp [dispatchInput, h, dispatchListeners, invokeInputListener]

/-- The last value of a non-empty sequence of edits. -/
theorem lastValue_cons (e : Nat × JSString) (more : List (Nat × JSString))
    (initial : JSString) : lastValue (e :: more) initial = lastValue more e.2 := by
  cases more with
  | nil => rfl
  | cons a rest =>
    simp only [lastValue, List.getLast?_cons_cons]
    cases h : (a :: rest).getLast? with
    | none => simp at h
    | some last => rfl

/-- One edit of the textbox while at most one debounce timer is pending, not
yet due and held in `debounceTimer`: nothing is observed, and afterwards the
one pending debounce timer is the one armed by this edit. -/
theorem typeText_step (cfg : Config) (net : Request → FetchOutcome) (target closure delay : Nat)
    (gap : Nat) (value : JSString) (p : Page) (hp : p.Tidy)
    (hbound : (p.textareas target).inputListeners = [.debounced closure delay])
    (htracked : ∀ tm ∈ p.inputTimers, p.debounceTimer = some tm.id)
    (hlate : ∀ tm ∈ p.inputTimers, p.now + gap < tm.due) :
    (typeText cfg net target [(gap, value)] p).2 = [] ∧
    (typeText cfg net target [(gap, value)] p).1.Tidy ∧
    ((typeText cfg net target [(gap, value)] p).1.textareas target).inputListeners =
      [.debounced closure delay] ∧
    ((typeText cfg net target [(gap, value)] p).1.textareas target).value = value ∧
    (typeText cfg net target [(gap, value)] p).1.now = p.now + gap ∧
    ∃ id, (typeText cfg net target [(gap, value)] p).1.inputTimers =
        [{ id := id, due := p.now + gap + delay, task := .applyHandleInput target }] ∧
      (typeText cfg net target [(gap, value)] p).1.debounceTimer = some id := by
  obtain ⟨hobs, hta, hdb, hit, htidy, hnow⟩ :=
    runTimersFuel_idle cfg net (2 * p.timers.length) (p.now + gap) p hp hlate
  have hnow' : (runTimers cfg net (p.now + gap) p).1.now = p.now + gap := by
    unfold runTimers
    rw [hnow]
    omega
  let edited := (runTimers cfg net (p.now + gap) p).1.updateTextarea target
    fun ta => { ta with value := value }
  have hedit_tidy : edited.Tidy := htidy
  have hedit_bound : (edited.textareas target).inputListeners = [.debounced closure delay] := by
    simp only [edited, Page.updateTextarea, if_pos rfl]
    unfold runTimers
    rw [hta]
    exact hbound
  have hedit_tracked : ∀ tm ∈ edited.inputTimers, edited.debounceTimer = some tm.id := by
    intro tm htm
    have h1 : edited.inputTimers = p.inputTimers := hit
    have h2 : edited.debounceTimer = p.debounceTimer := hdb
    rw [h1] at htm
    rw [h2]
    exact htracked tm htm
  obtain ⟨harm, hdeb, harm_tidy, harm_ta, harm_now⟩ :=
    debounce_arms edited delay target hedit_tidy hedit_tracked
  have hdisp := dispatchInput_debounced cfg net edited target closure delay hedit_bound
  have hrun : typeText cfg net target [(gap, value)] p =
      (debounce edited delay target, (runTimers cfg net (p.now + gap) p).2 ++ [] ++ []) := by
    simp only [typeText, hdisp, edited]
  have hobs' : (runTimers cfg net (p.now + gap) p).2 = [] := hobs
  rw [hrun]
  refine ⟨by simp [hobs'], harm_tidy, by rw [harm_ta]; exact hedit_bound, ?_, ?_, ?_⟩
  · simp only []
    rw [harm_ta]
    simp [edited, Page.updateTextarea]
  · simp only []
    rw [harm_now]
    exact hnow'
  · refine ⟨edited.nextTimer, ?_, hdeb⟩
    simp only []
    rw [harm]
    have : edited.now = p.now + gap := hnow'
    rw [this]

/-- Edits one after the other. -/
theorem typeText_cons (cfg : Config) (net : Request → FetchOutcome) (target : Nat)
    (e : Nat × JSString) (rest : List (Nat × JSString)) (p : Page) :
    typeText cfg net target (e :: rest) p =
      ((typeText cfg net target rest (typeText cfg net target [e] p).1).1,
        (typeText cfg net target [e] p).2 ++
          (typeText cfg net target rest (typeText cfg net target [e] p).1).2) := by
  obtain ⟨gap, value⟩ := e
  simp [typeText]

/-- Edits that follow one another by less than the delay, starting while the
one pending debounce timer was armed at the current time: nothing is
observed, and afterwards the one pending debounce timer is due `delay` after
the last edit. -/
theorem typeText_more (cfg : Config) (net : Request → FetchOutcome) (target closure delay : Nat)
    (more : List (Nat × JSString)) (p : Page) (id : Nat) (hp : p.Tidy)
    (hbound : (p.textareas target).inputListeners = [.debounced closure delay])
    (hone : p.inputTimers =
      [{ id := id, due := p.now + delay, task := .applyHandleInput target }])
    (hdeb : p.debounceTimer = some id)
    (hgaps : ∀ e ∈ more, e.1 < delay) :
    (typeText cfg net target more p).2 = [] ∧
    (typeText cfg net target more p).1.Tidy ∧
    ((typeText cfg net target more p).1.textareas target).value =
      lastValue more (p.textareas target).value ∧
    (typeText cfg net target more p).1.now = p.now + (more.map Prod.fst).sum ∧
    ∃ id', (typeText cfg net target more p).1.inputTimers =
        [{ id := id', due := p.now + (more.map Prod.fst).sum + delay,
           task := .applyHandleInput target }] := by
  induction more generalizing p id with
  | nil => exact ⟨rfl, hp, rfl, by simp [typeText], id, by simpa [typeText] using hone⟩
  | cons e rest ih =>
    obtain ⟨gap, value⟩ := e
    have hgap : gap < delay := hgaps (gap, value) (List.mem_cons_self _ _)
    obtain ⟨hobs, htidy, hb, hval, hnow, id1, hone1, hdeb1⟩ :=
      typeText_step cfg net target closure delay gap value p hp hbound
        (by intro tm htm; rw [hone] at htm; rw [List.mem_singleton.mp htm]; exact hdeb)
        (by intro tm htm; rw [hone] at htm; rw [List.mem_singleton.mp htm]; simp only; omega)
    rw [← hnow] at hone1
    obtain ⟨hobs2, htidy2, hval2, hnow2, id2, hone2⟩ :=
      ih (typeText cfg net target [(gap, value)] p).1 id1 htidy hb hone1 hdeb1
        (fun e he => hgaps e (List.mem_cons_of_mem _ he))
    rw [typeText_cons]
    refine ⟨by simp only []; rw [hobs, hobs2]; rfl, htidy2, ?_, ?_, id2, ?_⟩
    · simp only []
      rw [hval2, hval, lastValue_cons]
    · simp only []
      rw [hnow2, hnow]
      simp only [List.map_cons, List.sum_cons]
      omega
    · simp only []
      rw [hone2, hnow]
      simp only [List.map_cons, List.sum_cons]
      congr 2
      omega

/-- C11, as stated, fails: textbox 1 is bound, the user types "hi" and
deletes it within the delay; `handleInput` runs once, 600 ms after the last
event, but no translation call is issued, since the last value is blank. -/
theorem debounce_blank_counterexample :
    (boundPage.textareas 1).inputListeners = [.debounced 0 600] ∧
    (typeText CONFIG thanksBackend 1 typedAndDeleted boundPage).2 = [] ∧
    (runTimers CONFIG thanksBackend 5000
      (typeText CONFIG thanksBackend 1 typedAndDeleted boundPage).1).2 = [.handled 800 1] := by
  decide

/-- C11, amended: on a textbox whose input listener is the handler made by
`debounce(handleInput, delay)`, with no debounce timer pending, for every
N ≥ 1 and every sequence of N input events in which each event follows the
previous one by less than `delay`: nothing is observed while the events
arrive, and once `delay` has passed after the last event exactly one call of
`handleInput` has been made, `delay` after the last event and for the
textbox, followed by no other call; it issues exactly one translation
request, with the trimmed last value, when that value is not blank and
`translateInput` is on, and none when the last value is blank. -/
theorem debounce_coalescing (cfg : Config) (net : Request → FetchOutcome) (page : Page)
    (target closure delay : Nat) (first : Nat × JSString) (more : List (Nat × JSString))
    (deadline : Nat) (hp : page.Tidy)
    (hbound : (page.textareas target).inputListeners = [.debounced closure delay])
    (hidle : page.inputTimers = [])
    (hgaps : ∀ e ∈ more, e.1 < delay)
    (hdeadline : page.now + ((first :: more).map Prod.fst).sum + delay ≤ deadline) :
    (typeText cfg net target (first :: more) page).2 = [] ∧
    (runTimers cfg net deadline (typeText cfg net target (first :: more) page).1).2 =
      .handled (page.now + ((first :: more).map Prod.fst).sum + delay) target ::
        (inputRequests cfg (lastValue (first :: more) [])).map
          (Obs.sent (page.now + ((first :: more).map Prod.fst).sum + delay)) ∧
    (trim (lastValue (first :: more) []) ≠ [] → cfg.translateInput = true →
      ((runTimers cfg net deadline (typeText cfg net target (first :: more) page).1).2.filterMap
        Obs.request).map Request.text = [trim (lastValue (first :: more) [])]) ∧
    (trim (lastValue (first :: more) []) = [] →
      (runTimers cfg net deadline (typeText cfg net target (first :: more) page).1).2.filterMap
        Obs.request = []) := by
  obtain ⟨gap, value⟩ := first
  obtain ⟨hobs, htidy, hb, hval, hnow, id1, hone1, hdeb1⟩ :=
    typeText_step cfg net target closure delay gap value page hp hbound
      (by intro tm htm; rw [hidle] at htm; cases htm)
      (by intro tm htm; rw [hidle] at htm; cases htm)
  rw [← hnow] at hone1
  obtain ⟨hobs2, htidy2, hval2, hnow2, id2, hone2⟩ :=
    typeText_more cfg net target closure delay more
      (typeText cfg net target [(gap, value)] page).1 id1 htidy hb hone1 hdeb1 hgaps
  have htime : (typeText cfg net target ((gap, value) :: more) page).1.now =
      page.now + (((gap, value) :: more).map Prod.fst).sum := by
    rw [typeText_cons]
    simp only []
    rw [hnow2, hnow]
    simp only [List.map_cons, List.sum_cons]
    omega
  have hone : (typeText cfg net target ((gap, value) :: more) page).1.inputTimers =
      [{ id := id2, due := page.now + (((gap, value) :: more).map Prod.fst).sum + delay,
         task := .applyHandleInput target }] := by
    rw [typeText_cons]
    simp only []
    rw [hone2, hnow]
    simp only [List.map_cons, List.sum_cons]
    congr 2
    omega
  have hvalue : ((typeText cfg net target ((gap, value) :: more) page).1.textareas target).value =
      lastValue ((gap, value) :: more) [] := by
    rw [typeText_cons]
    simp only []
    rw [hval2, hval, lastValue_cons]
  have htidy3 : (typeText cfg net target ((gap, value) :: more) page).1.Tidy := by
    rw [typeText_cons]
    exact htidy2
  have hfire := runTimersFuel_fires cfg net
    (2 * (typeText cfg net target ((gap, value) :: more) page).1.timers.length) deadline
    (typeText cfg net target ((gap, value) :: more) page).1 _ target htidy3 hone rfl
    (by simp only []; rw [htime]; omega) hdeadline (weight_le_two_mul_length _)
  have hrun : (runTimers cfg net deadline
      (typeText cfg net target ((gap, value) :: more) page).1).2 =
      .handled (page.now + (((gap, value) :: more).map Prod.fst).sum + delay) target ::
        (inputRequests cfg (lastValue ((gap, value) :: more) [])).map
          (Obs.sent (page.now + (((gap, value) :: more).map Prod.fst).sum + delay)) := by
    unfold runTimers
    rw [hfire, hvalue]
  refine ⟨?_, hrun, ?_, ?_⟩
  · rw [typeText_cons]
    simp only []
    rw [hobs, hobs2]
    rfl
  · intro hnb htr
    rw [hrun]
    simp [inputRequests, hnb, htr, Obs.request, Obs.isHandled]
  · intro hblank
    rw [hrun]
    simp [inputRequests, hblank, Obs.request]

/-- Witness for the amended C11: textbox 1 is bound and the user types "h",
"he", "hello" 100 ms apart; `handleInput` runs once, at 900 ms, and sends one
request, for "hello". -/
theorem debounce_coalescing_witness :
    (typeText CONFIG thanksBackend 1 typedHello boundPage).2 = [] ∧
    (runTimers CONFIG thanksBackend 5000
      (typeText CONFIG thanksBackend 1 typedHello boundPage).1).2 =
      [.handled 900 1,
       .sent 900 { text := utf16 "hello", fromLang := utf16 "en", toLang := utf16 "zh" }] := by
  have h := debounce_coalescing CONFIG thanksBackend boundPage 1 0 600 (100, utf16 "h")
    [(100, utf16 "he"), (100, utf16 "hello")] 5000 (by decide) (by decide) (by decide)
    (by decide) (by decide)
  refine ⟨h.1, ?_⟩
  rw [show typedHello = (100, utf16 "h") :: [(100, utf16 "he"), (100, utf16 "hello")] from rfl,
    h.2.1]
  decide

/-! ## Rebinding while a debounce timer is pending -/

/-- C12, as stated, fails: the debounce timer armed by the input on textbox
1 is pending when `setupInputListener` binds textbox 2; it is still pending
afterwards, and with no further input `handleInput` fires for the event on
textbox 1 at 700 ms and sends a request for its value. -/
theorem rebind_stale_timer_counterexample :
    reboundWhilePending.1.currentTextarea = some 2 ∧
    reboundWhilePending.1.inputTimers =
      [{ id := 2, due := 700, task := .applyHandleInput 1 }] ∧
    reboundWhilePending.2.2 =
      [.handled 700 1,
       .sent 700 { text := utf16 "hello", fromLang := utf16 "en", toLang := utf16 "zh" }] := by
  decide

/-- What `setupInputListener` does to the timers: nothing, or one more timer
for the hint; it never touches `debounceTimer`, the clock or a textbox
value. -/
theorem setupInputListener_timers (cfg : Config) (p : Page) (textarea : Option Nat) :
    (setupInputListener cfg p textarea).debounceTimer = p.debounceTimer ∧
    (setupInputListener cfg p textarea).now = p.now ∧
    (∀ t, ((setupInputListener cfg p textarea).textareas t).value = (p.textareas t).value) ∧
    (((setupInputListener cfg p textarea).timers = p.timers ∧
        (setupInputListener cfg p textarea).nextTimer = p.nextTimer) ∨
      ((setupInputListener cfg p textarea).timers =
          p.timers ++ [{ id := p.nextTimer, due := p.now + 500, task := .showEnabledHint }] ∧
        (setupInputListener cfg p textarea).nextTimer = p.nextTimer + 1)) := by
  cases textarea with
  | none => exact ⟨rfl, rfl, fun _ => rfl, Or.inl ⟨rfl, rfl⟩⟩
  | some t =>
    by_cases hcur : p.currentTextarea = some t
    · have h : setupInputListener cfg p (some t) = p := by
        simp only [setupInputListener]
        rw [if_pos hcur]
      rw [h]
      exact ⟨rfl, rfl, fun _ => rfl, Or.inl ⟨rfl, rfl⟩⟩
    · simp only [setupInputListener]
      rw [if_neg hcur]
      cases hold : p.currentTextarea with
      | none =>
        refine ⟨rfl, rfl, fun u => ?_, Or.inr ⟨rfl, rfl⟩⟩
        simp only [Page.setTimeout, Page.updateTextarea]
        split <;> rfl
      | some old =>
        refine ⟨rfl, rfl, fun u => ?_, Or.inr ⟨rfl, rfl⟩⟩
        simp only [Page.setTimeout, Page.updateTextarea]
        split <;> split <;> rfl

/-- The function `setupInputListener` keeps the pending debounce timers and
keeps the handles tidy. -/
theorem setupInputListener_inputTimers (cfg : Config) (p : Page) (textarea : Option Nat)
    (hp : p.Tidy) :
    (setupInputListener cfg p textarea).inputTimers = p.inputTimers ∧
    (setupInputListener cfg p textarea).Tidy := by
  obtain ⟨_, _, _, ht⟩ := setupInputListener_timers cfg p textarea
  rcases ht with ⟨ht, hn⟩ | ⟨ht, hn⟩
  · refine ⟨by simp [Page.inputTimers, ht], ?_⟩
    unfold Page.Tidy
    rw [ht, hn]
    exact hp
  · refine ⟨by simp [Page.inputTimers, ht, List.filter_append, Timer.isInput], ?_⟩
    obtain ⟨hlt, huniq⟩ := hp
    refine ⟨?_, ?_⟩
    · intro tm htm
      rw [ht] at htm
      rw [hn]
      rcases List.mem_append.mp htm with hmem | hmem
      · exact Nat.lt_succ_of_lt (hlt tm hmem)
      · simp only [List.mem_singleton] at hmem
        subst hmem
        exact Nat.lt_succ_self _
    · intro tm htm hinput other hother hid
      rw [ht] at htm hother
      have htm' : tm ∈ p.timers := by
        rcases List.mem_append.mp htm with hmem | hmem
        · exact hmem
        · simp only [List.mem_singleton] at hmem
          subst hmem
          simp [Timer.isInput] at hinput
      rcases List.mem_append.mp hother with hmem | hmem
      · exact huniq tm htm' hinput other hmem hid
      · simp only [List.mem_singleton] at hmem
        subst hmem
        have := hlt tm htm'
        simp only at hid
        omega

/-- C12, amended: for textboxes A and B, a debounce timer armed by an input
event on A that is pending when `setupInputListener(B)` runs is not
cancelled: `debounceTimer` and the pending timer are left as they were, and
with no further input event the timer fires at its due time, so that
`handleInput` runs once for the event on the old textbox A and sends the
request for the value of A when that value is not blank. -/
theorem rebind_keeps_pending_timer (cfg : Config) (net : Request → FetchOutcome) (page : Page)
    (a b : Nat) (tm : Timer) (deadline : Nat) (_hab : a ≠ b) (hp : page.Tidy)
    (hone : page.inputTimers = [tm]) (htask : tm.task = .applyHandleInput a)
    (hnow : page.now ≤ tm.due) (hdue : tm.due ≤ deadline) :
    (setupInputListener cfg page (some b)).debounceTimer = page.debounceTimer ∧
    tm ∈ (setupInputListener cfg page (some b)).timers ∧
    (runTimers cfg net deadline (setupInputListener cfg page (some b))).2 =
      .handled tm.due a ::
        (inputRequests cfg (page.textareas a).value).map (Obs.sent tm.due) := by
  obtain ⟨hdeb, hnow', hval, _⟩ := setupInputListener_timers cfg page (some b)
  obtain ⟨hit, htidy⟩ := setupInputListener_inputTimers cfg page (some b) hp
  have hmem : tm ∈ (setupInputListener cfg page (some b)).inputTimers := by
    rw [hit, hone]
    exact List.mem_singleton_self _
  refine ⟨hdeb, List.mem_of_mem_filter hmem, ?_⟩
  unfold runTimers
  rw [runTimersFuel_fires cfg net _ deadline _ tm a htidy (hit.trans hone) htask
    (by rw [hnow']; exact hnow) hdue (weight_le_two_mul_length _), hval]

/-- Witness for the amended C12: the rebinding of `reboundWhilePending`. -/
theorem rebind_keeps_pending_timer_witness :
    (runTimers CONFIG thanksBackend 5000
      (setupInputListener CONFIG
        (runTimers CONFIG thanksBackend 200
          (typeText CONFIG thanksBackend 1 [(100, utf16 "hello")] boundPage).1).1 (some 2))).2 =
      [.handled 700 1,
       .sent 700 { text := utf16 "hello", fromLang := utf16 "en", toLang := utf16 "zh" }] := by
  have h := rebind_keeps_pending_timer CONFIG thanksBackend
    (runTimers CONFIG thanksBackend 200
      (typeText CONFIG thanksBackend 1 [(100, utf16 "hello")] boundPage).1).1 1 2
    { id := 2, due := 700, task := .applyHandleInput 1 } 5000 (by decide) (by decide)
    (by decide) rfl (by decide) (by decide)
  rw [h.2.2]
  decide

/-! ## Responses out of order, failures and the presentation sink -/

/-- After `showTranslation` with a string, the display holds that string. -/
theorem showTranslation_textContent (p : Page) (s : JSString) (isError : Bool) :
    ∃ d, (showTranslation p (.str s) isError).translationDisplay = some d ∧
      d.textContent = s := by
  unfold showTranslation
  simp only []
  by_cases h : strictEqText (p.translationDisplay.getD createTranslationDisplay).textContent
      (.str s) = true
  · rw [if_pos h]
    refine ⟨_, rfl, ?_⟩
    simpa [strictEqText] using h
  · rw [if_neg h]
    exact ⟨_, rfl, rfl⟩

/-- When the display holds another string, `showTranslation` replaces it and
makes the display visible. -/
theorem showTranslation_replaces (p : Page) (d : Display) (s : JSString)
    (hd : p.translationDisplay = some d) (hne : d.textContent ≠ s) :
    (showTranslation p (.str s) false).translationDisplay = some (shownDisplay s) := by
  unfold showTranslation
  simp only [hd, Option.getD_some]
  have h : strictEqText d.textContent (.str s) = false := by
    simp [strictEqText, hne]
  rw [h]
  simp [Page.setTimeout, shownDisplay, JSValue.toDOMString, JSValue.toStr]

/-- The synchronous prefix of `handleInput` on a value that is not blank:
the page is untouched and one request is sent. -/
theorem handleInputStart_of_not_blank (cfg : Config) (p : Page) (target : Nat)
    (htr : cfg.translateInput = true) (hb : trim (p.textareas target).value ≠ []) :
    handleInputStart cfg p target =
      (p, .awaiting (trim (p.textareas target).value)
        (some { text := trim (p.textareas target).value,
                fromLang := (detectRoute cfg (trim (p.textareas target).value)
                  (utf16 "auto") none).1,
                toLang := (detectRoute cfg (trim (p.textareas target).value)
                  (utf16 "auto") none).2 })) := by
  have hlen : 0 < (trim (p.textareas target).value).length := List.length_pos.mpr hb
  have hstart := translateTextStart_of_not_blank cfg p (trim (p.textareas target).value)
    (utf16 "auto") none (trim_trim_ne_nil _ hb)
  simp [handleInputStart, htr, hlen, hstart]

/-- What `await translateText(text, 'auto')` settles to in `handleInput` is
the result of `translateText`, on whatever page. -/
theorem settle_auto_eq_translateText (cfg : Config) (p : Page) (text : JSString)
    (net : Request → FetchOutcome) (hb : trim text ≠ []) :
    settle (some { text := text, fromLang := (detectRoute cfg text (utf16 "auto") none).1,
                   toLang := (detectRoute cfg text (utf16 "auto") none).2 }) net =
      (translateText cfg p text (utf16 "auto") none net).result := by
  have hstart := translateTextStart_of_not_blank cfg p text (utf16 "auto") none hb
  simp [settle, translateText, hstart]

/-- C13, as stated, fails: R1 is issued for "hello" and R2 for
"hello world" on textbox 1, both succeed with different translations, and
R2 resolves before R1; after both have resolved the display shows the
translation of R1 ("你好"), not that of R2. -/
theorem handleInput_out_of_order_counterexample :
    (handleInputOutOfOrder CONFIG dictionaryBackend Page.initial 1 (utf16 "hello")
      (utf16 "hello world")).translationDisplay = some (shownDisplay (utf16 "你好")) := by
  decide

/-- C13, amended: for two `handleInput` invocations R1 then R2 on the same
textbox whose translations both succeed with different translated strings,
if the response of R2 resolves before that of R1, then after both have
resolved the presentation sink shows the translation of R1: the response
that resolves last wins, and no late response is discarded. -/
theorem handleInput_completion_order_wins (cfg : Config) (net : Request → FetchOutcome)
    (page : Page) (target : Nat) (v1 v2 : JSString) (r1 r2 : TranslationResult)
    (s1 s2 : JSString) (htr : cfg.translateInput = true)
    (hv1 : trim v1 ≠ []) (hv2 : trim v2 ≠ [])
    (h1 : (translateText cfg page (trim v1) (utf16 "auto") none net).result = .ok (some r1))
    (h2 : (translateText cfg page (trim v2) (utf16 "auto") none net).result = .ok (some r2))
    (hs1 : r1.translated = .str s1) (hs2 : r2.translated = .str s2) (hne : s1 ≠ s2) :
    (handleInputOutOfOrder cfg net page target v1 v2).translationDisplay =
      some (shownDisplay s1) := by
  have hval1 : ((page.updateTextarea target fun ta => { ta with value := v1 }).textareas
      target).value = v1 := by
    simp [Page.updateTextarea]
  have hstart1 := handleInputStart_of_not_blank cfg
    (page.updateTextarea target fun ta => { ta with value := v1 }) target htr
    (by rw [hval1]; exact hv1)
  rw [hval1] at hstart1
  have hval2 : (((page.updateTextarea target fun ta => { ta with value := v1 }).updateTextarea
      target fun ta => { ta with value := v2 }).textareas target).value = v2 := by
    simp [Page.updateTextarea]
  have hstart2 := handleInputStart_of_not_blank cfg
    ((page.updateTextarea target fun ta => { ta with value := v1 }).updateTextarea
      target fun ta => { ta with value := v2 }) target htr
    (by rw [hval2]; exact hv2)
  rw [hval2] at hstart2
  have hset1 := settle_auto_eq_translateText cfg page (trim v1) net (trim_trim_ne_nil _ hv1)
  have hset2 := settle_auto_eq_translateText cfg page (trim v2) net (trim_trim_ne_nil _ hv2)
  rw [h1] at hset1
  rw [h2] at hset2
  unfold handleInputOutOfOrder
  simp only [hstart1, hstart2, resumeInput, hset1, hset2, handleInputResume, hs1, hs2]
  obtain ⟨d, hd, hdtext⟩ := showTranslation_textContent
    ((page.updateTextarea target fun ta => { ta with value := v1 }).updateTextarea
      target fun ta => { ta with value := v2 }) s2 false
  exact showTranslation_replaces _ d s1 hd (by rw [hdtext]; exact fun h => hne h.symm)

/-- Witness for the amended C13: "hello" and "hello world" against the
dictionary backend. -/
theorem handleInput_completion_order_wins_witness :
    (handleInputOutOfOrder CONFIG dictionaryBackend Page.initial 1 (utf16 "hello")
      (utf16 "hello world")).translationDisplay = some (shownDisplay (utf16 "你好")) :=
  handleInput_completion_order_wins CONFIG dictionaryBackend Page.initial 1 (utf16 "hello")
    (utf16 "hello world")
    { original := utf16 "hello", translated := .str (utf16 "你好"),
      fromLang := .str (utf16 "en"), toLang := .str (utf16 "zh") }
    { original := utf16 "hello world", translated := .str (utf16 "你好世界"),
      fromLang := .str (utf16 "en"), toLang := .str (utf16 "zh") }
    (utf16 "你好") (utf16 "你好世界") rfl (by decide) (by decide) rfl rfl rfl rfl (by decide)

/-- C15, as stated, fails: textbox 1 holds "hello" and the backend is
offline; `handleInput` sends the request, gets the failure outcome, and the
presentation sink is never called: the display does not even exist
afterwards, and no timer is pending. -/
theorem handleInput_failure_counterexample :
    (handleInput CONFIG helloPage 1 offlineBackend).requests =
      [{ text := utf16 "hello", fromLang := utf16 "en", toLang := utf16 "zh" }] ∧
    (translateText CONFIG helloPage (utf16 "hello") (utf16 "auto") none
      offlineBackend).result = .ok none ∧
    (handleInput CONFIG helloPage 1 offlineBackend).page.translationDisplay = none ∧
    (handleInput CONFIG helloPage 1 offlineBackend).page.timers = [] := by
  refine ⟨by decide, rfl, by decide, by decide⟩

/-- C15, amended: for every non-blank textbox value, when `translateText`
returns the failure outcome during `handleInput`, the request has been sent
and the page is left exactly as it was: the presentation sink is not called
(no error-styled display, no change of the display at all); the failure is
only logged. -/
theorem handleInput_failure_silent (cfg : Config) (net : Request → FetchOutcome) (page : Page)
    (target : Nat) (htr : cfg.translateInput = true)
    (hb : trim (page.textareas target).value ≠ [])
    (hfail : (translateText cfg page (trim (page.textareas target).value) (utf16 "auto") none
      net).result = .ok none) :
    (handleInput cfg page target net).page = page ∧
    (handleInput cfg page target net).requests =
      inputRequests cfg (page.textareas target).value ∧
    (handleInput cfg page target net).requests.length = 1 := by
  have hstart := handleInputStart_of_not_blank cfg page target htr hb
  have hset := settle_auto_eq_translateText cfg page (trim (page.textareas target).value) net
    (trim_trim_ne_nil _ hb)
  rw [hfail] at hset
  refine ⟨?_, handleInput_requests cfg page target net, ?_⟩
  · simp [handleInput, hstart, hset, handleInputResume]
  · simp [handleInput, hstart]

/-- Witness for the amended C15: "hello" with the backend offline. -/
theorem handleInput_failure_silent_witness :
    (handleInput CONFIG helloPage 1 offlineBackend).page = helloPage :=
  (handleInput_failure_silent CONFIG offlineBackend helloPage 1 rfl (by decide) rfl).1

/-- C17 fails on the code: "你好" is shown, the display is hidden (by
`hideTranslation`, as on blur or by the auto-hide timer), and
`showTranslation` is called with "你好" again; the call returns at the
comparison with `textContent` and the display stays hidden. -/
theorem showTranslation_same_text_stays_hidden :
    (showTranslation Page.initial (.str (utf16 "你好")) false).displayVisible = true ∧
    (hideTranslation (showTranslation Page.initial (.str (utf16 "你好")) false)).displayVisible =
      false ∧
    (showTranslation
      (hideTranslation (showTranslation Page.initial (.str (utf16 "你好")) false))
      (.str (utf16 "你好")) false).displayVisible = false := by
  decide

/-! ## Properties of the discovery of the chat input -/

/-- The loop over the textareas is `find?`. -/
theorem forTextareas_eq_find (test : TextareaNode → Bool) (doc : List TextareaNode) :
    forTextareas test doc = doc.find? test := by
  induction doc with
  | nil => rfl
  | cons ta rest ih =>
    simp only [forTextareas, List.find?_cons]
    cases test ta <;> simp [ih]

/-- The loop over the selectors is the tiered search over their tests,
followed by whatever comes after. -/
theorem firstMatchByTier_append_selectors (doc : Document) (selectors : List Selector)
    (tiers : List (TextareaNode → Bool)) :
    firstMatchByTier doc (selectors.map Selector.test ++ tiers) =
      match forSelectors doc selectors with
      | some element => some element
      | none => firstMatchByTier doc tiers := by
  induction selectors with
  | nil => simp [forSelectors]
  | cons selector rest ih =>
    simp only [List.map_cons, List.cons_append, firstMatchByTier, forSelectors, querySelector]
    cases doc.find? selector.test with
    | some element => rfl
    | none => simpa using ih

/-- The tiered search finds nothing exactly when no tier matches any
element. -/
theorem firstMatchByTier_eq_none (doc : Document) (tiers : List (TextareaNode → Bool)) :
    firstMatchByTier doc tiers = none ↔ ∀ tier ∈ tiers, ∀ ta ∈ doc, tier ta = false := by
  induction tiers with
  | nil => simp [firstMatchByTier]
  | cons tier rest ih =>
    simp only [firstMatchByTier, List.mem_cons, forall_eq_or_imp]
    cases h : doc.find? tier with
    | some element =>
      simp only [false_iff, not_and, reduceCtorEq]
      intro hall
      have := List.find?_some h
      have hmem := List.mem_of_find?_eq_some h
      rw [hall element hmem] at this
      exact absurd this Bool.false_ne_true
    | none =>
      simp only [ih, true_and, iff_and_self]
      intro _ ta hta
      have := List.find?_eq_none.mp h ta hta
      simpa using this

/-- What the tiered search returns is the first match, in document order, of
a tier before which no tier matches any element. -/
theorem firstMatchByTier_eq_some (doc : Document) (tiers : List (TextareaNode → Bool))
    (element : TextareaNode) (h : firstMatchByTier doc tiers = some element) :
    ∃ before tier after, tiers = before ++ tier :: after ∧
      (∀ t ∈ before, ∀ ta ∈ doc, t ta = false) ∧ doc.find? tier = some element := by
  induction tiers with
  | nil => simp [firstMatchByTier] at h
  | cons tier rest ih =>
    simp only [firstMatchByTier] at h
    cases hf : doc.find? tier with
    | some found =>
      simp only [hf, Option.some.injEq] at h
      subst h
      exact ⟨[], tier, rest, rfl, by simp, hf⟩
    | none =>
      simp only [hf] at h
      obtain ⟨before, t, after, hsplit, hnone, hfind⟩ := ih h
      refine ⟨tier :: before, t, after, by simp [hsplit], ?_, hfind⟩
      intro t' ht' ta hta
      rcases List.mem_cons.mp ht' with rfl | hmem
      · have := List.find?_eq_none.mp hf ta hta
        simpa using this
      · exact hnone t' hmem ta hta

/-- The tiered search over a tier followed by others. -/
theorem firstMatchByTier_cons (doc : Document) (tier : TextareaNode → Bool)
    (rest : List (TextareaNode → Bool)) :
    firstMatchByTier doc (tier :: rest) =
      match doc.find? tier with
      | some element => some element
      | none => firstMatchByTier doc rest := rfl

/-- The code of the lookup computes the tiered search of the
specification. -/
theorem findChatInputElement_eq_spec (doc : Document) :
    findChatInputElement doc = findChatInputElementSpec doc := by
  have h34 : firstMatchByTier doc [looksLikeChatInput, isRendered] =
      match doc.find? looksLikeChatInput with
      | some element => some element
      | none => doc.find? isRendered := by
    rw [firstMatchByTier_cons, firstMatchByTier_cons]
    cases doc.find? looksLikeChatInput with
    | some element => rfl
    | none =>
      cases doc.find? isRendered <;> rfl
  unfold findChatInputElementSpec discoveryTiers
  rw [firstMatchByTier_cons, firstMatchByTier_append_selectors, h34]
  unfold findChatInputElement
  simp only [querySelector, forTextareas_eq_find]

/-- C16: for every document, `findChatInputElement` returns the first match
of the highest-priority tier that has any match, the tiers being, in order,
(1) `textarea.textarea-input`, (2) the fallback selectors in their listed
order, (3) the first textarea in document order with `offsetHeight > 30`,
`offsetWidth > 100` and a non-empty placeholder, (4) the first textarea in
document order with non-zero `offsetHeight` and `offsetWidth`; it returns
`null` exactly when no tier matches; and an element returned by tier 3 or 4
has non-zero rendered width and height. -/
theorem findChatInputElement_layers (doc : Document) :
    findChatInputElement doc = findChatInputElementSpec doc ∧
    (∀ element, findChatInputElement doc = some element →
      ∃ before tier after, discoveryTiers = before ++ tier :: after ∧
        (∀ t ∈ before, ∀ ta ∈ doc, t ta = false) ∧ doc.find? tier = some element) ∧
    (findChatInputElement doc = none ↔ ∀ tier ∈ discoveryTiers, ∀ ta ∈ doc, tier ta = false) ∧
    (∀ element, querySelector doc exactSelector = none →
      (∀ selector ∈ fallbackSelectors, querySelector doc selector = none) →
      findChatInputElement doc = some element →
      (doc.find? looksLikeChatInput = some element ∨
        (doc.find? looksLikeChatInput = none ∧ doc.find? isRendered = some element)) ∧
      0 < element.offsetHeight ∧ 0 < element.offsetWidth) := by
  refine ⟨findChatInputElement_eq_spec doc, ?_, ?_, ?_⟩
  · intro element h
    rw [findChatInputElement_eq_spec] at h
    exact firstMatchByTier_eq_some doc discoveryTiers element h
  · rw [findChatInputElement_eq_spec]
    exact firstMatchByTier_eq_none doc discoveryTiers
  · intro element hexact hfallback h
    have hfor : ∀ selectors : List Selector, (∀ s ∈ selectors, querySelector doc s = none) →
        forSelectors doc selectors = none := by
      intro selectors
      induction selectors with
      | nil => intro _; rfl
      | cons s rest ih =>
        intro hall
        simp only [forSelectors, hall s (List.mem_cons_self _ _)]
        exact ih fun s' hs' => hall s' (List.mem_cons_of_mem _ hs')
    unfold findChatInputElement at h
    simp only [hexact, hfor fallbackSelectors hfallback, forTextareas_eq_find] at h
    cases h3 : doc.find? looksLikeChatInput with
    | some found =>
      simp only [h3, Option.some.injEq] at h
      subst h
      have := List.find?_some h3
      simp only [looksLikeChatInput, Bool.and_eq_true, decide_eq_true_eq] at this
      exact ⟨Or.inl rfl, by omega, by omega⟩
    | none =>
      simp only [h3] at h
      have := List.find?_some h
      simp only [isRendered, Bool.and_eq_true, decide_eq_true_eq] at this
      exact ⟨Or.inr ⟨rfl, h⟩, this.1, this.2⟩

/-- Witness for C16: in the sample document the exact selector wins over
the earlier textareas that only match lower tiers. -/
theorem findChatInputElement_layers_witness :
    (findChatInputElement sampleDocument).map TextareaNode.id = some 3 ∧
    findChatInputElement sampleDocument = findChatInputElementSpec sampleDocument :=
  ⟨by decide, (findChatInputElement_layers sampleDocument).1⟩

/-! ## The two producers of discoveries -/

/-- Binding the current textbox again does nothing. -/
theorem setupInputListener_current (cfg : Config) (p : Page) (t : Nat)
    (h : p.currentTextarea = some t) : setupInputListener cfg p (some t) = p := by
  simp only [setupInputListener]
  rw [if_pos h]

/-- Binding a textbox that is not the current one and has no listener yet:
it becomes the current one, with the debounced handler as its one input
listener and `hideTranslation` as its one blur listener. -/
theorem setupInputListener_fresh (cfg : Config) (p : Page) (t : Nat)
    (hcur : p.currentTextarea ≠ some t)
    (hinput : (p.textareas t).inputListeners = [])
    (hblur : (p.textareas t).blurListeners = []) :
    (setupInputListener cfg p (some t)).currentTextarea = some t ∧
    ((setupInputListener cfg p (some t)).textareas t).inputListeners =
      [.debounced p.closures cfg.translationDelay] ∧
    ((setupInputListener cfg p (some t)).textareas t).blurListeners = [.hideTranslation] := by
  simp only [setupInputListener]
  rw [if_neg hcur]
  cases hold : p.currentTextarea with
  | none =>
    simp [Page.setTimeout, Page.updateTextarea, addEventListener, hinput, hblur]
  | some old =>
    have hne : t ≠ old := by
      intro h
      rw [hold, h] at hcur
      exact hcur rfl
    simp [Page.setTimeout, Page.updateTextarea, addEventListener, hinput, hblur, hne]

/-- The function `showTranslation` leaves the binding alone. -/
theorem showTranslation_binding (p : Page) (text : JSValue) (isError : Bool) :
    (showTranslation p text isError).currentTextarea = p.currentTextarea ∧
    (showTranslation p text isError).textareas = p.textareas := by
  unfold showTranslation
  simp only []
  split <;> exact ⟨rfl, rfl⟩

/-- The page after a tick of the poll that finds a textarea. -/
theorem pollForInput_found (cfg : Config) (doc : Document) (time : Nat) (s : Session)
    (ta : TextareaNode) (h : findChatInputElement doc = some ta) :
    (pollForInput cfg doc time s).1.page =
      showTranslation
        (setupInputListener cfg ({ s.page with now := max s.page.now time }) (some ta.id))
        (.str foundNotice) false := by
  simp only [pollForInput, h]

/-- The page after a mutation record when the lookup finds a textarea. -/
theorem inputObserver_found (cfg : Config) (doc : Document) (time : Nat) (s : Session)
    (ta : TextareaNode) (h : findChatInputElement doc = some ta) :
    (inputObserver cfg doc time s).1.page =
      if s.page.currentTextarea ≠ some ta.id then
        setupInputListener cfg ({ s.page with now := max s.page.now time }) (some ta.id)
      else ({ s.page with now := max s.page.now time }) := by
  simp only [inputObserver, h]
  split <;> rfl

/-- A discovery by the poll runs the callback while the interval is set. -/
theorem discover_poll (cfg : Config) (s : Session) (time : Nat) (doc : Document) :
    discover cfg s (.poll, time, doc) =
      if s.nextTick.isSome then (pollForInput cfg doc time s).1 else s := rfl

/-- A discovery by a mutation record runs the callback while the observer
is registered. -/
theorem discover_mutation (cfg : Config) (s : Session) (time : Nat) (doc : Document) :
    discover cfg s (.mutation, time, doc) =
      if s.observing then (inputObserver cfg doc time s).1 else s := rfl

/-- A discovery of the textbox that is already bound changes neither the
current textbox nor the listeners of any textbox. -/
theorem discover_bound (cfg : Config) (s : Session) (event : Producer × Nat × Document)
    (t : Nat) (hfind : (findChatInputElement event.2.2).map TextareaNode.id = some t)
    (hcur : s.page.currentTextarea = some t) :
    (discover cfg s event).page.currentTextarea = some t ∧
    (discover cfg s event).page.textareas = s.page.textareas := by
  obtain ⟨ta, hta, hid⟩ := Option.map_eq_some'.mp hfind
  obtain ⟨producer, time, doc⟩ := event
  have hta' : findChatInputElement doc = some ta := hta
  cases producer with
  | poll =>
    rw [discover_poll]
    by_cases hn : s.nextTick.isSome = true
    · rw [if_pos hn, pollForInput_found cfg doc time s ta hta',
        setupInputListener_current cfg _ ta.id (by rw [hid]; exact hcur)]
      obtain ⟨h1, h2⟩ := showTranslation_binding ({ s.page with now := max s.page.now time })
        (.str foundNotice) false
      exact ⟨h1.trans hcur, h2⟩
    · rw [if_neg hn]
      exact ⟨hcur, rfl⟩
  | mutation =>
    rw [discover_mutation]
    by_cases ho : s.observing = true
    · have hguard : ¬ s.page.currentTextarea ≠ some ta.id := by
        rw [hid]
        exact not_not.mpr hcur
      rw [if_pos ho, inputObserver_found cfg doc time s ta hta', if_neg hguard]
      exact ⟨hcur, rfl⟩
    · rw [if_neg ho]
      exact ⟨hcur, rfl⟩

/-- The first discovery of a textbox that is neither bound nor has a
listener binds it, whichever producer makes it. -/
theorem discover_first (cfg : Config) (page : Page) (event : Producer × Nat × Document)
    (t : Nat) (htr : cfg.translateInput = true)
    (hfind : (findChatInputElement event.2.2).map TextareaNode.id = some t)
    (hcur : page.currentTextarea ≠ some t)
    (hinput : (page.textareas t).inputListeners = [])
    (hblur : (page.textareas t).blurListeners = []) :
    (discover cfg (setupInputTranslator cfg page) event).page.currentTextarea = some t ∧
    ((discover cfg (setupInputTranslator cfg page) event).page.textareas t).inputListeners =
      [.debounced page.closures cfg.translationDelay] ∧
    ((discover cfg (setupInputTranslator cfg page) event).page.textareas t).blurListeners =
      [.hideTranslation] := by
  obtain ⟨ta, hta, hid⟩ := Option.map_eq_some'.mp hfind
  obtain ⟨producer, time, doc⟩ := event
  have hta' : findChatInputElement doc = some ta := hta
  have hsetup : setupInputTranslator cfg page =
      { page := { page with nextTimer := page.nextTimer + 1 }, found := false, attempts := 0,
        nextTick := some (page.now + interval), observing := true } := by
    simp [setupInputTranslator, htr]
  have hn : (setupInputTranslator cfg page).nextTick.isSome = true := by rw [hsetup]; rfl
  have ho : (setupInputTranslator cfg page).observing = true := by rw [hsetup]
  have hpg : (setupInputTranslator cfg page).page =
      { page with nextTimer := page.nextTimer + 1 } := by rw [hsetup]
  have hfresh := setupInputListener_fresh cfg
    ({ (setupInputTranslator cfg page).page with
        now := max (setupInputTranslator cfg page).page.now time }) t
    (by rw [hpg]; exact hcur) (by rw [hpg]; exact hinput) (by rw [hpg]; exact hblur)
  have hclosures : ({ (setupInputTranslator cfg page).page with
      now := max (setupInputTranslator cfg page).page.now time } : Page).closures =
      page.closures := by rw [hpg]
  rw [hclosures] at hfresh
  cases producer with
  | poll =>
    rw [discover_poll, if_pos hn, pollForInput_found cfg doc time _ ta hta', hid]
    obtain ⟨h1, h2⟩ := showTranslation_binding
      (setupInputListener cfg ({ (setupInputTranslator cfg page).page with
        now := max (setupInputTranslator cfg page).page.now time }) (some t))
      (.str foundNotice) false
    rw [h1, h2]
    exact hfresh
  | mutation =>
    have hguard : (setupInputTranslator cfg page).page.currentTextarea ≠ some ta.id := by
      rw [hid, hpg]
      exact hcur
    rw [discover_mutation, if_pos ho, inputObserver_found cfg doc time _ ta hta',
      if_pos hguard, hid]
    exact hfresh

/-- C18: `setupInputListener(t)` called while `t` is the current textbox
changes nothing; and for every textbox `t` that is not yet bound, and every
non-empty sequence of discoveries of `t` by the poll and by the mutation
observer in any order, after `setupInputTranslator` the textbox `t` is the
current one and ends with exactly one input listener, the debounced handler
made by the first discovery, and exactly one blur listener. -/
theorem discovery_binds_once (cfg : Config) (page : Page) (t : Nat)
    (events : List (Producer × Nat × Document)) (htr : cfg.translateInput = true)
    (hevents : events ≠ [])
    (hfind : ∀ e ∈ events, (findChatInputElement e.2.2).map TextareaNode.id = some t)
    (hcur : page.currentTextarea ≠ some t)
    (hinput : (page.textareas t).inputListeners = [])
    (hblur : (page.textareas t).blurListeners = []) :
    (∀ p : Page, p.currentTextarea = some t → setupInputListener cfg p (some t) = p) ∧
    (events.foldl (discover cfg) (setupInputTranslator cfg page)).page.currentTextarea =
      some t ∧
    ((events.foldl (discover cfg) (setupInputTranslator cfg page)).page.textareas
      t).inputListeners = [.debounced page.closures cfg.translationDelay] ∧
    ((events.foldl (discover cfg) (setupInputTranslator cfg page)).page.textareas
      t).blurListeners = [.hideTranslation] := by
  refine ⟨fun p hp => setupInputListener_current cfg p t hp, ?_⟩
  cases events with
  | nil => exact absurd rfl hevents
  | cons first rest =>
    obtain ⟨h1, h2, h3⟩ := discover_first cfg page first t htr
      (hfind first (List.mem_cons_self _ _)) hcur hinput hblur
    have hrest : ∀ (l : List (Producer × Nat × Document)) (s : Session),
        (∀ e ∈ l, (findChatInputElement e.2.2).map TextareaNode.id = some t) →
        s.page.currentTextarea = some t →
        (l.foldl (discover cfg) s).page.currentTextarea = some t ∧
        (l.foldl (discover cfg) s).page.textareas = s.page.textareas := by
      intro l
      induction l with
      | nil => intro s _ hs; exact ⟨hs, rfl⟩
      | cons e l ih =>
        intro s hl hs
        obtain ⟨hc, hta⟩ := discover_bound cfg s e t (hl e (List.mem_cons_self _ _)) hs
        obtain ⟨hc', hta'⟩ := ih (discover cfg s e)
          (fun e' he' => hl e' (List.mem_cons_of_mem _ he')) hc
        exact ⟨hc', hta'.trans hta⟩
    obtain ⟨hc, hta⟩ := hrest rest (discover cfg (setupInputTranslator cfg page) first)
      (fun e he => hfind e (List.mem_cons_of_mem _ he)) h1
    simp only [List.foldl_cons]
    rw [hta]
    exact ⟨hc, h2, h3⟩

/-- Witness for C18: textbox 7 is found by a mutation record, then by two
ticks of the poll and another mutation record. -/
theorem discovery_binds_once_witness :
    ([(Producer.mutation, 100, chatDocument), (Producer.poll, 500, chatDocument),
        (Producer.poll, 1000, chatDocument), (Producer.mutation, 1200, chatDocument)].foldl
      (discover CONFIG) (setupInputTranslator CONFIG Page.initial)).page.currentTextarea =
      some 7 ∧
    (([(Producer.mutation, 100, chatDocument), (Producer.poll, 500, chatDocument),
        (Producer.poll, 1000, chatDocument), (Producer.mutation, 1200, chatDocument)].foldl
      (discover CONFIG) (setupInputTranslator CONFIG Page.initial)).page.textareas
      7).inputListeners = [.debounced 0 600] ∧
    (([(Producer.mutation, 100, chatDocument), (Producer.poll, 500, chatDocument),
        (Producer.poll, 1000, chatDocument), (Producer.mutation, 1200, chatDocument)].foldl
      (discover CONFIG) (setupInputTranslator CONFIG Page.initial)).page.textareas
      7).blurListeners = [.hideTranslation] :=
  (discovery_binds_once CONFIG Page.initial 7
    [(Producer.mutation, 100, chatDocument), (Producer.poll, 500, chatDocument),
      (Producer.poll, 1000, chatDocument), (Producer.mutation, 1200, chatDocument)]
    rfl (by decide) (by decide) (by decide) rfl rfl).2

/-! ## Properties of the static content pipeline -/

/-- Elements of a class in a concatenation of sibling lists. -/
theorem Nodes.countClass_append (cls : String) (xs ys : Nodes) :
    (xs.append ys).countClass cls = xs.countClass cls + ys.countClass cls := by
  induction xs with
  | nil => simp [Nodes.append, Nodes.countClass]
  | text d rest ih => simpa [Nodes.append, Nodes.countClass] using ih
  | elem t c a k rest _ ih =>
    simp only [Nodes.append, Nodes.countClass, ih]
    omega

/-- The annotated element has one more `.static-translation` descendant, as
its last child, and carries the marker. -/
theorem annotateStatic_count (element : Element) (translated : JSValue) :
    (annotateStatic element translated).kids =
      element.kids.append (Nodes.single (translationSpan translated)) ∧
    (annotateStatic element translated).kids.countClass "static-translation" =
      element.kids.countClass "static-translation" + 1 ∧
    (annotateStatic element translated).getAttribute "data-static-translated" =
      some (utf16 "true") := by
  have hk : (annotateStatic element translated).kids =
      element.kids.append (Nodes.single (translationSpan translated)) := by
    unfold annotateStatic
    simp only []
    split <;> rfl
  refine ⟨hk, ?_, ?_⟩
  · rw [hk, Nodes.countClass_append]
    simp [Nodes.single, translationSpan, Nodes.countClass]
  · unfold annotateStatic
    simp only [Element.getAttribute, Element.setAttribute, lookup_setAttr]

/-- A visit of the scan leaves the element as it is. -/
theorem translateStaticVisit_element (cfg : Config) (page : Page) (item : StaticItem) :
    (translateStaticVisit cfg page item).2.1.element = item.element := by
  unfold translateStaticVisit
  split
  · rfl
  · split
    · rfl
    · simp only []
      split <;> rfl

/-- One event leaves the element as it is, or annotates it when it has no
`.static-translation` descendant. -/
theorem staticStep_element (cfg : Config) (state : Page × StaticItem) (event : StaticEvent) :
    (staticStep cfg state event).2.element = state.2.element ∨
    (state.2.element.hasDescendantOfClass "static-translation" = false ∧
      ∃ translated, (staticStep cfg state event).2.element =
        annotateStatic state.2.element translated) := by
  cases event with
  | scan =>
    left
    exact translateStaticVisit_element cfg state.1 state.2
  | settled outcome =>
    unfold staticStep
    simp only []
    split
    · left; rfl
    · cases outcome with
      | error e => left; rfl
      | ok translation =>
        cases translation with
        | none => left; rfl
        | some result =>
          simp only [translateStaticThen]
          split
          · split
            · left; rfl
            · rename_i hno
              right
              exact ⟨by simpa using hno, result.translated, rfl⟩
          · left; rfl

/-- C19: for every static element and every interleaving of scans of
`translateStatic` and of settlements of the translation requests started for
it (two scans that both start a request before either response arrives
included), the element is in the end either exactly as it was, or it had no
`.static-translation` descendant and has got exactly one, as its last child,
together with the marker `data-static-translated`; so the script inserts at
most one annotation, and it sets the marker only when it inserts one. -/
theorem translateStatic_at_most_one (cfg : Config) (page : Page) (item : StaticItem)
    (events : List StaticEvent) :
    ((events.foldl (staticStep cfg) (page, item)).2.element = item.element ∨
      (item.element.hasDescendantOfClass "static-translation" = false ∧
        ∃ translated, (events.foldl (staticStep cfg) (page, item)).2.element =
          annotateStatic item.element translated)) ∧
    (events.foldl (staticStep cfg) (page, item)).2.element.kids.countClass "static-translation" ≤
      max 1 (item.element.kids.countClass "static-translation") ∧
    ((events.foldl (staticStep cfg) (page, item)).2.element.getAttribute
        "data-static-translated" ≠ item.element.getAttribute "data-static-translated" →
      item.element.kids.countClass "static-translation" = 0 ∧
      (events.foldl (staticStep cfg) (page, item)).2.element.kids.countClass
        "static-translation" = 1) := by
  have hinv : ∀ (l : List StaticEvent) (state : Page × StaticItem),
      (state.2.element = item.element ∨
        (item.element.hasDescendantOfClass "static-translation" = false ∧
          ∃ translated, state.2.element = annotateStatic item.element translated)) →
      ((l.foldl (staticStep cfg) state).2.element = item.element ∨
        (item.element.hasDescendantOfClass "static-translation" = false ∧
          ∃ translated, (l.foldl (staticStep cfg) state).2.element =
            annotateStatic item.element translated)) := by
    intro l
    induction l with
    | nil => intro state h; exact h
    | cons event rest ih =>
      intro state h
      simp only [List.foldl_cons]
      apply ih
      rcases staticStep_element cfg state event with hsame | ⟨hno, translated, hann⟩
      · rw [hsame]
        exact h
      · rcases h with h | ⟨_, tr0, h⟩
        · right
          rw [h] at hno hann
          exact ⟨hno, translated, hann⟩
        · exfalso
          rw [h] at hno
          have := (annotateStatic_count item.element tr0).2.1
          simp only [Element.hasDescendantOfClass, decide_eq_false_iff_not] at hno
          omega
  have h := hinv events (page, item) (Or.inl rfl)
  refine ⟨h, ?_, ?_⟩
  · rcases h with h | ⟨hno, translated, h⟩
    · rw [h]
      exact le_max_right _ _
    · rw [h, (annotateStatic_count item.element translated).2.1]
      simp only [Element.hasDescendantOfClass, decide_eq_false_iff_not] at hno
      omega
  · intro hattr
    rcases h with h | ⟨hno, translated, h⟩
    · rw [h] at hattr
      exact absurd rfl hattr
    · rw [h, (annotateStatic_count item.element translated).2.1]
      simp only [Element.hasDescendantOfClass, decide_eq_false_iff_not] at hno
      omega

/-- Witness for C19: two scans start a request each for the button
"Track package" before either response arrives; the first response inserts
the annotation, the second inserts nothing. -/
theorem translateStatic_at_most_one_witness :
    (([StaticEvent.scan, .scan, .settled (.ok (some trackTranslation)),
        .settled (.ok (some trackTranslation))].foldl (staticStep CONFIG)
      (Page.initial, trackButton)).2.element.kids.countClass "static-translation" ≤
      max 1 (trackButton.element.kids.countClass "static-translation")) ∧
    ([StaticEvent.scan, .scan].foldl (staticStep CONFIG)
      (Page.initial, trackButton)).2.pending = 2 ∧
    ([StaticEvent.scan, .scan, .settled (.ok (some trackTranslation)),
        .settled (.ok (some trackTranslation))].foldl (staticStep CONFIG)
      (Page.initial, trackButton)).2.element =
      annotateStatic trackButton.element (.str (utf16 "跟踪包裹")) :=
  ⟨(translateStatic_at_most_one CONFIG Page.initial trackButton
      [StaticEvent.scan, .scan, .settled (.ok (some trackTranslation)),
        .settled (.ok (some trackTranslation))]).2.1, by decide, by decide⟩

/-! ## The event loop has fuel enough -/

/-- Whatever timer fires, the total weight of the pending timers goes down. -/
theorem fireTimer_weight (cfg : Config) (net : Request → FetchOutcome) (p : Page) (x : Timer)
    (hx : x ∈ p.timers) : (fireTimer cfg net p x).1.weight + 1 ≤ p.weight := by
  have hw : (p.startTimer x).weight + x.weight ≤ p.weight := weight_filter_le p.timers x hx
  cases htask : x.task with
  | hideTranslation =>
    have hf : fireTimer cfg net p x = (hideTranslation (p.startTimer x), []) := by
      unfold fireTimer
      rw [htask]
    have : (hideTranslation (p.startTimer x)).weight = (p.startTimer x).weight := by
      unfold hideTranslation
      cases (p.startTimer x).translationDisplay <;> rfl
    have hx1 := Timer.weight_pos x
    rw [hf]
    dsimp only
    omega
  | showEnabledHint =>
    have hf : fireTimer cfg net p x =
        (showTranslation (p.startTimer x) (.str enabledHint) false, []) := by
      unfold fireTimer
      rw [htask]
    have hq := (quiet_showTranslation (p.startTimer x) (.str enabledHint) false).weight
    have hx2 : x.weight = 2 := by simp [Timer.weight, htask]
    rw [hf]
    dsimp only
    omega
  | applyHandleInput target =>
    have hf : (fireTimer cfg net p x).1 = (handleInput cfg (p.startTimer x) target net).page := by
      unfold fireTimer
      rw [htask]
    have hq := (quiet_handleInput cfg (p.startTimer x) target net).weight
    have hx2 : x.weight = 2 := by simp [Timer.weight, htask]
    rw [hf]
    omega

/-- With fuel for the weight of the pending timers, no timer due by the
deadline is left pending when `runTimersFuel` returns. -/
theorem runTimersFuel_complete (cfg : Config) (net : Request → FetchOutcome)
    (fuel deadline : Nat) (p : Page) (hfuel : p.weight ≤ fuel) :
    (runTimersFuel cfg net fuel deadline p).1.nextDue deadline = none := by
  induction fuel generalizing p with
  | zero =>
    have hnil : p.timers = [] := by
      cases hts : p.timers with
      | nil => rfl
      | cons tm rest =>
        have h1 := weight_le_of_mem p tm (by rw [hts]; exact List.mem_cons_self _ _)
        have h2 := Timer.weight_pos tm
        omega
    simp [runTimersFuel, Page.nextDue, hnil, earliest]
  | succ fuel ih =>
    unfold runTimersFuel
    cases hnext : p.nextDue deadline with
    | none => exact hnext
    | some x =>
      have hx := (nextDue_mem p deadline x hnext).1
      have hw := fireTimer_weight cfg net p x hx
      exact ih (fireTimer cfg net p x).1 (by omega)

/-- Time passes until the deadline: `runTimers` leaves no timer pending that
was due by then. -/
theorem runTimers_complete (cfg : Config) (net : Request → FetchOutcome) (deadline : Nat)
    (p : Page) : (runTimers cfg net deadline p).1.nextDue deadline = none :=
  runTimersFuel_complete cfg net _ deadline p (weight_le_two_mul_length p)

/-! ## Properties of the discovery session -/

/-- The notice shown when the search is given up is not the empty string. -/
theorem givenUpNotice_ne_nil : givenUpNotice ≠ [] := by decide

/-- Lookups 500 ms apart from the time `t` on: the first, then those from
the time `t + 500` on. -/
theorem lookups_succ (t k : Nat) :
    (List.range (k + 1)).map (fun i => Obs.lookup (t + interval * i)) =
      Obs.lookup t :: (List.range k).map (fun i => Obs.lookup (t + interval + interval * i)) := by
  rw [List.range_succ_eq_map, List.map_cons, List.map_map]
  congr 1
  apply List.map_congr_left
  intro i _
  simp only [Function.comp]
  congr 1
  rw [Nat.mul_succ]
  omega

/-- A call of `showTranslation` schedules nothing but the auto-hide timer. -/
theorem showTranslation_hide_timers (p : Page) (text : JSValue) (isError : Bool)
    (h : ∀ tm ∈ p.timers, tm.task = .hideTranslation) :
    ∀ tm ∈ (showTranslation p text isError).timers, tm.task = .hideTranslation := by
  unfold showTranslation
  simp only []
  split
  · exact h
  · intro tm htm
    simp only [Page.setTimeout, List.mem_append, List.mem_singleton] at htm
    rcases htm with htm | rfl
    · exact h tm htm
    · rfl

/-- Showing the give-up notice changes a child list below `document.body`,
unless the display holds that very text already. -/
theorem showTranslationMutates_givenUp (p : Page)
    (h : ∀ d, p.translationDisplay = some d → d.textContent ≠ givenUpNotice) :
    showTranslationMutates p (.str givenUpNotice) = true := by
  unfold showTranslationMutates
  cases hd : p.translationDisplay with
  | none => rfl
  | some d =>
    have hne := h d hd
    have hg : givenUpNotice.isEmpty = false := by decide
    simp [strictEqText, hne, JSValue.toDOMString, JSValue.toStr, hg]

/-- A firing of the interval that finds nothing before the last attempt: one
lookup, the next firing 500 ms later, and the page as it was. -/
theorem pollTick_continues (cfg : Config) (doc : Document) (t : Nat) (s : Session)
    (hnone : findChatInputElement doc = none) (hlt : s.attempts + 1 < maxAttempts) :
    pollTick cfg doc t s =
      (Session.mk ({ s.page with now := max s.page.now t }) s.found (s.attempts + 1)
        (some (t + interval)) s.observing, [.lookup t]) := by
  have hge : ¬ s.attempts + 1 ≥ maxAttempts := by omega
  simp only [pollTick, pollForInput, pollForInputMutates, hnone, if_neg hge, Bool.false_and]
  rfl

/-- The firing of the interval that makes the last attempt and finds
nothing: it looks up once, clears the interval and shows the give-up notice;
the notice changes the page, so the mutation observer looks up once more at
the same time. Nothing is bound and only the auto-hide timer is scheduled. -/
theorem pollTick_exhausts (cfg : Config) (doc : Document) (t : Nat) (s : Session)
    (hnone : findChatInputElement doc = none) (hge : s.attempts + 1 ≥ maxAttempts)
    (hobs : s.observing = true)
    (hdisplay : ∀ d, s.page.translationDisplay = some d → d.textContent ≠ givenUpNotice)
    (htimers : ∀ tm ∈ s.page.timers, tm.task = .hideTranslation) :
    (pollTick cfg doc t s).2 =
      [.lookup t, .notified t givenUpNotice true, .lookup t] ∧
    (pollTick cfg doc t s).1.nextTick = none ∧
    (pollTick cfg doc t s).1.found = s.found ∧
    (pollTick cfg doc t s).1.page.currentTextarea = s.page.currentTextarea ∧
    ∀ tm ∈ (pollTick cfg doc t s).1.page.timers, tm.task = .hideTranslation := by
  have hm : pollForInputMutates cfg doc t s = true := by
    simp only [pollForInputMutates, hnone, if_pos hge]
    exact showTranslationMutates_givenUp _ hdisplay
  have hf : pollForInput cfg doc t s =
      (Session.mk (showTranslation ({ s.page with now := max s.page.now t })
          (.str givenUpNotice) true) s.found (s.attempts + 1) none s.observing,
        [.lookup t, .notified t givenUpNotice true]) := by
    simp only [pollForInput, hnone, if_pos hge]
  have hp : pollTick cfg doc t s =
      (Session.mk ({ (showTranslation ({ s.page with now := max s.page.now t })
            (.str givenUpNotice) true) with
          now := max (showTranslation ({ s.page with now := max s.page.now t })
            (.str givenUpNotice) true).now t })
          s.found (s.attempts + 1) none s.observing,
        [.lookup t, .notified t givenUpNotice true, .lookup t]) := by
    simp only [pollTick, hm, hf, hobs, Bool.and_self, if_true, inputObserver, hnone]
    rfl
  rw [hp]
  refine ⟨rfl, rfl, rfl, ?_, ?_⟩
  · exact (showTranslation_binding _ _ _).1
  · exact showTranslation_hide_timers _ _ _ htimers

/-- Once the interval is cleared and only auto-hide timers are pending, the
session makes no lookup and shows no notice any more, however long it runs:
hiding the display changes a style, which the mutation observer is not told
of. The binding stays as it is. -/
theorem runSessionFuel_settled (cfg : Config) (net : Request → FetchOutcome)
    (docAt : Nat → Document) (deadline : Nat) :
    ∀ (fuel : Nat) (s : Session), s.nextTick = none →
      (∀ tm ∈ s.page.timers, tm.task = .hideTranslation) →
      (runSessionFuel cfg net docAt fuel deadline s).2 = [] ∧
      (runSessionFuel cfg net docAt fuel deadline s).1.nextTick = none ∧
      (runSessionFuel cfg net docAt fuel deadline s).1.found = s.found ∧
      (runSessionFuel cfg net docAt fuel deadline s).1.page.currentTextarea =
        s.page.currentTextarea ∧
      ∀ tm ∈ (runSessionFuel cfg net docAt fuel deadline s).1.page.timers,
        tm.task = .hideTranslation := by
  intro fuel
  induction fuel with
  | zero =>
    intro s hn ht
    exact ⟨rfl, hn, rfl, rfl, ht⟩
  | succ fuel ih =>
    intro s hn ht
    have htick : s.tickDue deadline = none := by simp only [Session.tickDue, hn]
    cases hd : s.page.nextDue deadline with
    | none =>
      have hstep : sessionStep cfg net docAt deadline s = none := by
        simp only [sessionStep, htick, hd]
      have hrun : runSessionFuel cfg net docAt (fuel + 1) deadline s =
          (Session.mk ({ s.page with now := max s.page.now deadline }) s.found s.attempts
            s.nextTick s.observing, []) := by
        simp only [runSessionFuel, hstep]
      rw [hrun]
      exact ⟨rfl, hn, rfl, rfl, ht⟩
    | some tm =>
      have htask := ht tm (nextDue_mem _ _ _ hd).1
      have hfire : sessionFireTimer cfg net docAt s tm =
          (Session.mk (hideTranslation (s.page.startTimer tm)) s.found s.attempts s.nextTick
            s.observing, []) := by
        simp only [sessionFireTimer, timerMutates, fireTimer, htask, Bool.false_and]
        rfl
      have hstep : sessionStep cfg net docAt deadline s =
          some (Session.mk (hideTranslation (s.page.startTimer tm)) s.found s.attempts
            s.nextTick s.observing, []) := by
        simp only [sessionStep, htick, hd, hfire]
      have hcur : (hideTranslation (s.page.startTimer tm)).currentTextarea =
          s.page.currentTextarea := by
        unfold hideTranslation
        split <;> rfl
      have hrest : ∀ other ∈ (hideTranslation (s.page.startTimer tm)).timers,
          other.task = .hideTranslation := by
        intro other hother
        have hmem : other ∈ (s.page.startTimer tm).timers := by
          unfold hideTranslation at hother
          split at hother <;> exact hother
        simp only [Page.startTimer, List.mem_filter] at hmem
        exact ht other hmem.1
      obtain ⟨h1, h2, h3, h4, h5⟩ := ih
        (Session.mk (hideTranslation (s.page.startTimer tm)) s.found s.attempts s.nextTick
          s.observing) hn hrest
      have hrun : runSessionFuel cfg net docAt (fuel + 1) deadline s =
          ((runSessionFuel cfg net docAt fuel deadline
              (Session.mk (hideTranslation (s.page.startTimer tm)) s.found s.attempts
                s.nextTick s.observing)).1,
            (runSessionFuel cfg net docAt fuel deadline
              (Session.mk (hideTranslation (s.page.startTimer tm)) s.found s.attempts
                s.nextTick s.observing)).2) := by
        simp only [runSessionFuel, hstep, List.nil_append]
      rw [hrun]
      exact ⟨h1, h2, h3, h4.trans hcur, h5⟩

/-- With no one-shot timer pending, the interval is what happens next. -/
theorem sessionStep_tick (cfg : Config) (net : Request → FetchOutcome) (docAt : Nat → Document)
    (deadline : Nat) (s : Session) (t : Nat) (hn : s.nextTick = some t) (ht : t ≤ deadline)
    (htimers : s.page.timers = []) :
    sessionStep cfg net docAt deadline s = some (pollTick cfg (docAt t) t s) := by
  have htick : s.tickDue deadline = some t := by simp only [Session.tickDue, hn, if_pos ht]
  have hd : s.page.nextDue deadline = none := by simp [Page.nextDue, htimers, earliest]
  simp only [sessionStep, htick, hd]

/-- The session from a firing of the interval at the time `t` with `k + 1`
attempts left, on documents in which the lookup finds nothing: `k + 1`
lookups, 500 ms apart, then the give-up notice at the time of the last
lookup and, right after it, the lookup of the mutation observer; after that
the interval is cleared, nothing is bound, and only auto-hide timers are
pending. -/
theorem runSessionFuel_exhausts (cfg : Config) (net : Request → FetchOutcome)
    (docAt : Nat → Document) (hnone : ∀ time, findChatInputElement (docAt time) = none)
    (deadline : Nat) (k : Nat) :
    ∀ (n : Nat) (s : Session) (t : Nat), s.nextTick = some t →
      s.attempts + (k + 1) = maxAttempts → s.observing = true → s.page.timers = [] →
      (∀ d, s.page.translationDisplay = some d → d.textContent ≠ givenUpNotice) →
      t + interval * k ≤ deadline → k + 1 ≤ n →
      (runSessionFuel cfg net docAt n deadline s).2 =
        (List.range (k + 1)).map (fun i => Obs.lookup (t + interval * i)) ++
          [.notified (t + interval * k) givenUpNotice true, .lookup (t + interval * k)] ∧
      (runSessionFuel cfg net docAt n deadline s).1.nextTick = none ∧
      (runSessionFuel cfg net docAt n deadline s).1.found = s.found ∧
      (runSessionFuel cfg net docAt n deadline s).1.page.currentTextarea =
        s.page.currentTextarea ∧
      ∀ tm ∈ (runSessionFuel cfg net docAt n deadline s).1.page.timers,
        tm.task = .hideTranslation := by
  induction k with
  | zero =>
    intro n s t ht ha hobs htimers hdisplay hdl hn
    obtain ⟨m, rfl⟩ : ∃ m, n = m + 1 := ⟨n - 1, by omega⟩
    have hge : s.attempts + 1 ≥ maxAttempts := by omega
    have htd : t ≤ deadline := by
      rw [Nat.mul_zero] at hdl
      omega
    have hstep := sessionStep_tick cfg net docAt deadline s t ht htd htimers
    obtain ⟨e1, e2, e3, e4, e5⟩ := pollTick_exhausts cfg (docAt t) t s (hnone t) hge hobs
      hdisplay (by rw [htimers]; intro tm htm; cases htm)
    obtain ⟨r1, r2, r3, r4, r5⟩ := runSessionFuel_settled cfg net docAt deadline m
      (pollTick cfg (docAt t) t s).1 e2 e5
    have hrun : runSessionFuel cfg net docAt (m + 1) deadline s =
        ((runSessionFuel cfg net docAt m deadline (pollTick cfg (docAt t) t s).1).1,
          (pollTick cfg (docAt t) t s).2 ++
            (runSessionFuel cfg net docAt m deadline (pollTick cfg (docAt t) t s).1).2) := by
      simp only [runSessionFuel, hstep]
    rw [hrun]
    refine ⟨?_, r2, r3.trans e3, r4.trans e4, r5⟩
    show (pollTick cfg (docAt t) t s).2 ++
      (runSessionFuel cfg net docAt m deadline (pollTick cfg (docAt t) t s).1).2 = _
    rw [e1, r1]
    rfl
  | succ k ih =>
    intro n s t ht ha hobs htimers hdisplay hdl hn
    obtain ⟨m, rfl⟩ : ∃ m, n = m + 1 := ⟨n - 1, by omega⟩
    have hlt : s.attempts + 1 < maxAttempts := by omega
    rw [Nat.mul_succ] at hdl
    have htd : t ≤ deadline := by omega
    have hstep := sessionStep_tick cfg net docAt deadline s t ht htd htimers
    have hc := pollTick_continues cfg (docAt t) t s (hnone t) hlt
    obtain ⟨r1, r2, r3, r4, r5⟩ := ih m
      (Session.mk ({ s.page with now := max s.page.now t }) s.found (s.attempts + 1)
        (some (t + interval)) s.observing) (t + interval) rfl
      (by show s.attempts + 1 + (k + 1) = maxAttempts; omega) hobs htimers hdisplay
      (by omega) (by omega)
    have hrun : runSessionFuel cfg net docAt (m + 1) deadline s =
        ((runSessionFuel cfg net docAt m deadline
            (Session.mk ({ s.page with now := max s.page.now t }) s.found (s.attempts + 1)
              (some (t + interval)) s.observing)).1,
          Obs.lookup t :: (runSessionFuel cfg net docAt m deadline
            (Session.mk ({ s.page with now := max s.page.now t }) s.found (s.attempts + 1)
              (some (t + interval)) s.observing)).2) := by
      simp only [runSessionFuel, hstep, hc, List.singleton_append]
    rw [hrun]
    refine ⟨?_, r2, r3, r4, r5⟩
    show Obs.lookup t :: (runSessionFuel cfg net docAt m deadline
      (Session.mk ({ s.page with now := max s.page.now t }) s.found (s.attempts + 1)
        (some (t + interval)) s.observing)).2 = _
    rw [r1, lookups_succ t (k + 1), Nat.mul_succ interval k]
    have hsum : t + interval + interval * k = t + (interval * k + interval) := by omega
    rw [hsum]
    rfl

set_option maxRecDepth 20000 in
/-- C14, as stated, fails: on a document without any textarea the interval
makes 30 lookups, 500 ms apart, stops, and shows one error notice at
15000 ms. Showing the notice changes the page, so the mutation observer
makes one more lookup, the 31st, at once, at 15000 ms. No lookup follows
that one: at 30000 ms, well after the 2 s grace period, the interval is
cleared, the notice has been hidden and no timer is pending. -/
theorem poll_exhaustion_counterexample :
    (exhaustedSession.2.filter Obs.isLookup).length = 31 ∧
    exhaustedSession.2.filter Obs.isErrorNotice = [.notified 15000 givenUpNotice true] ∧
    exhaustedSession.2.drop 29 =
      [.lookup 15000, .notified 15000 givenUpNotice true, .lookup 15000] ∧
    exhaustedSession.2.any (Obs.isLookupAfter 15000) = false ∧
    exhaustedSession.1.nextTick = none ∧
    exhaustedSession.1.page.timers = [] ∧
    exhaustedSession.1.page.translationDisplay =
      some { errorDisplay givenUpNotice with display := "none" } ∧
    exhaustedSession.1.page.now = 30000 := by
  decide

/-- C14, amended: when `findChatInputElement` returns no element at any
time, the session of `setupInputTranslator`, started with no timer pending
and on a page that changes no child list by itself, performs exactly
`maxAttempts` (30) lookups at 500 ms intervals from its interval, then stops
polling and issues exactly one failure notice through `showTranslation` with
`isError = true`, at the time of the last lookup. Unless the display held
that text already, the notice changes the page and the mutation observer of
the session makes exactly one further lookup, at once and not after a grace
period. Nothing is bound, and from then on the session makes no lookup and
shows no notice, however long it runs (the 2 s retry is part of the earlier
declaration of `setupInputTranslator`, which is not the one in force). -/
theorem poll_exhaustion (cfg : Config) (net : Request → FetchOutcome) (docAt : Nat → Document)
    (page : Page) (fuel deadline : Nat)
    (htr : cfg.translateInput = true)
    (hnone : ∀ time, findChatInputElement (docAt time) = none)
    (htimers : page.timers = [])
    (hdisplay : ∀ d, page.translationDisplay = some d → d.textContent ≠ givenUpNotice)
    (hdeadline : page.now + 15000 ≤ deadline) (hfuel : maxAttempts ≤ fuel) :
    (runSessionFuel cfg net docAt fuel deadline (setupInputTranslator cfg page)).2 =
      (List.range 30).map (fun i => Obs.lookup (page.now + 500 + 500 * i)) ++
        [.notified (page.now + 15000) givenUpNotice true, .lookup (page.now + 15000)] ∧
    (runSessionFuel cfg net docAt fuel deadline (setupInputTranslator cfg page)).1.nextTick =
      none ∧
    (runSessionFuel cfg net docAt fuel deadline (setupInputTranslator cfg page)).1.found =
      false ∧
    (runSessionFuel cfg net docAt fuel deadline
      (setupInputTranslator cfg page)).1.page.currentTextarea = page.currentTextarea ∧
    ∀ more later, (runSessionFuel cfg net docAt more later
      (runSessionFuel cfg net docAt fuel deadline (setupInputTranslator cfg page)).1).2 =
        [] := by
  have hsetup : setupInputTranslator cfg page =
      { page := { page with nextTimer := page.nextTimer + 1 }, found := false, attempts := 0,
        nextTick := some (page.now + interval), observing := true } := by
    simp [setupInputTranslator, htr]
  have hmax : maxAttempts = 30 := rfl
  obtain ⟨r1, r2, r3, r4, r5⟩ := runSessionFuel_exhausts cfg net docAt hnone deadline 29 fuel
    (setupInputTranslator cfg page) (page.now + interval)
    (by rw [hsetup]) (by rw [hsetup]; rfl) (by rw [hsetup]) (by rw [hsetup]; exact htimers)
    (by rw [hsetup]; exact hdisplay)
    (by
      have hi : interval = 500 := rfl
      rw [hi]
      omega)
    (by omega)
  refine ⟨?_, r2, ?_, ?_, ?_⟩
  · rw [r1]
    rfl
  · rw [r3, hsetup]
  · rw [r4, hsetup]
  · intro more later
    exact (runSessionFuel_settled cfg net docAt later more _ r2 r5).1

/-- Witness for the amended C14: the session on a document without any
textarea, from the initial page, until 30000 ms. -/
theorem poll_exhaustion_witness :
    (runSessionFuel CONFIG offlineBackend (fun _ => []) 40 30000
      (setupInputTranslator CONFIG Page.initial)).2 =
      (List.range 30).map (fun i => Obs.lookup (Page.initial.now + 500 + 500 * i)) ++
        [.notified (Page.initial.now + 15000) givenUpNotice true,
         .lookup (Page.initial.now + 15000)] ∧
    (runSessionFuel CONFIG offlineBackend (fun _ => []) 40 30000
      (setupInputTranslator CONFIG Page.initial)).1.nextTick = none :=
  have h := poll_exhaustion CONFIG offlineBackend (fun _ => []) Page.initial 40 30000 rfl
    (fun _ => rfl) rfl (fun _ hd => nomatch hd) (by decide) (by decide)
  ⟨h.1, h.2.1⟩

end AmazonTranslator
